import Mathlib

/-!
# Simple-TLV command dispatcher (`TLV_lite.c` / `TLV_lite.h`)

A shallow embedding of the instruction-execution core: the slot registry with
its allocation bitmap, the two bounded index queues, the public API
(`comm_register_instruction`, `comm_find_instruction_slot_by_info`,
`comm_add_instruction_to_execute_queue`, `comm_notify_instruction_done` and
their interrupt variants) and one iteration of each of the three tasks.

Modelling conventions

* C arrays are total functions from the index; only indices below the array
  size are ever read or written by the code.
* Function pointers are addresses, `0` being `NULL`.
* `int32_t` indices and return values are `Int`, unsigned values are `Nat`.
* A FreeRTOS queue handle is represented by the queue contents, oldest first.
  Both queues are created with room for `COMM_MAX_INSTRUCTION_NUM` items and
  every send in the file uses a zero block time, so a send on a full queue
  drops the item.
* What the environment decides (the tick counter, the value a handler returns,
  whether a bounded or interrupt-context semaphore take succeeds, the FreeRTOS
  tick rate) is an explicit argument.
* The user callbacks are observed through a trace of callback events.
-/

namespace TLV_lite

/-! ## Constants of `TLV_lite.h` and of the FreeRTOS port -/

/-- Registry capacity, `COMM_MAX_INSTRUCTION_NUM`. -/
def COMM_MAX_INSTRUCTION_NUM : Nat := 32

/-- Number of bitmap bytes, `COMM_INSTRUCTION_ARRAY_SIZE`. -/
def COMM_INSTRUCTION_ARRAY_SIZE : Nat := (COMM_MAX_INSTRUCTION_NUM + 7) / 8

/-- Reserved result code of a timed-out asynchronous instruction. -/
def COMM_TIMEOUT_ERROR : Nat := 0xFFFFFFFF

/-- FreeRTOS `portMAX_DELAY` for 32-bit ticks. -/
def portMAX_DELAY : Nat := 0xFFFFFFFF

/-- FreeRTOS `pdMS_TO_TICKS`, computed in the 32-bit `TickType_t`; the argument
`hz` is `configTICK_RATE_HZ`. -/
def pdMS_TO_TICKS (hz ms : Nat) : Nat := ((ms * hz) % 2 ^ 32) / 1000

/-! ## Data types -/

/-- The raw instruction, `instruction_t`. -/
structure instruction_t where
  obj : Nat
  action : Nat
  para1 : Nat
  para2 : Nat
  para_num : Nat
deriving DecidableEq, Repr

/-- The slot states, `instruction_states_t`. -/
inductive instruction_states_t where
  | COMM_NONE
  | COMM_WAITING
  | COMM_EXECUTING_SYNC
  | COMM_EXECUTING_ASYNC
  | COMM_COMPLETED
deriving DecidableEq, Repr

open instruction_states_t

/-- One registry slot, `comm_instruction_internal_t`. -/
structure comm_instruction_internal_t where
  instruction : instruction_t
  state : instruction_states_t
  executor : Nat
  is_sync : Bool
  start_time : Nat
  timeout : Nat
  result_code : Nat
deriving DecidableEq, Repr

/-- The manager, `comm_manager_t`. -/
structure comm_manager_t where
  instructions : Nat → comm_instruction_internal_t
  register_bitmap : Nat → Nat
  mutex : Nat
  execute_queue : List Int
  result_queue : List Int
  new_inst_cb : Nat
  error_cb : Nat
  done_cb : Nat

/-- A call made to user code. The completion callbacks receive a pointer into
the slot itself, so their events carry the slot index next to the value. -/
inductive callback_event where
  | new_inst_call (inst : instruction_t)
  | executor_call (fn : Nat) (inst : instruction_t) (err : Nat)
  | done_call (idx : Int) (inst : instruction_t)
  | error_call (idx : Int) (inst : instruction_t) (code : Nat)
deriving DecidableEq, Repr

/-- The local variables of `comm_manager_task` that are live while the handler
runs outside the lock. -/
structure dispatch_locals where
  idx : Int
  inst_copy : instruction_t
  executor : Nat
  is_sync : Bool
deriving DecidableEq, Repr

/-- The manager together with the dispatch task's pending locals and the
callback trace. -/
structure system_t where
  cm : comm_manager_t
  dispatch : Option dispatch_locals
  trace : List callback_event

/-! ## Queues -/

/-- The call `xQueueSend(q, &item, 0)` (and `xQueueSendFromISR`) on a queue
created with `COMM_MAX_INSTRUCTION_NUM` places: the item is appended unless the
queue is full. The code never looks at the return value. -/
def xQueueSend (q : List Int) (item : Int) : List Int :=
  if q.length < COMM_MAX_INSTRUCTION_NUM then q ++ [item] else q

/-! ## Internal helpers -/

/-- The bitmap test `register_bitmap[i >> 3] & (1 << (i & 0x07))`. -/
def bit_registered (bm : Nat → Nat) (i : Nat) : Bool :=
  (bm (i >>> 3) &&& (1 <<< (i &&& 0x07))) != 0

/-- The loop of `find_free_slot`: `n` iterations are left, the counter is `i`. -/
def find_free_slot_loop (cm : comm_manager_t) : Nat → Nat → Int
  | 0, _ => -1
  | n + 1, i =>
    if !(bit_registered cm.register_bitmap i) then (i : Int)
    else find_free_slot_loop cm n (i + 1)

/-- The function `find_free_slot`. -/
def find_free_slot (cm : comm_manager_t) : Int :=
  find_free_slot_loop cm COMM_MAX_INSTRUCTION_NUM 0

/-- The loop of `comm_find_instruction_slot_by_info`. -/
def find_slot_loop (cm : comm_manager_t) (obj action : Nat) : Nat → Nat → Int
  | 0, _ => -1
  | n + 1, i =>
    if bit_registered cm.register_bitmap i then
      if (cm.instructions i).instruction.obj = obj ∧
          (cm.instructions i).instruction.action = action then (i : Int)
      else find_slot_loop cm obj action n (i + 1)
    else find_slot_loop cm obj action n (i + 1)

/-- The function `comm_find_instruction_slot_by_info`. -/
def comm_find_instruction_slot_by_info (cm : comm_manager_t) (obj action : Nat) : Int :=
  find_slot_loop cm obj action COMM_MAX_INSTRUCTION_NUM 0

/-! ## Public API -/

/-- The all-zero slot left by `memset`. -/
def zero_slot : comm_instruction_internal_t :=
  { instruction := { obj := 0, action := 0, para1 := 0, para2 := 0, para_num := 0 },
    state := COMM_NONE, executor := 0, is_sync := false,
    start_time := 0, timeout := 0, result_code := 0 }

/-- The manager after `memset(&cm, 0, sizeof(cm))` and the creation of the
mutex (handle `mutex`) and of the two queues. -/
def zero_manager (mutex : Nat) : comm_manager_t :=
  { instructions := fun _ => zero_slot, register_bitmap := fun _ => 0,
    mutex := mutex, execute_queue := [], result_queue := [],
    new_inst_cb := 0, error_cb := 0, done_cb := 0 }

/-- The function `comm_init`. `mutex` is the handle returned by
`xSemaphoreCreateMutex`, `queues_ok` says that both `xQueueCreate` calls
returned a handle and `tasks_ok` that the three `xTaskCreate` calls
succeeded. -/
def comm_init (mutex : Nat) (queues_ok tasks_ok : Bool)
    (new_inst_cb error_cb done_cb : Nat) : Int × system_t :=
  let cm := zero_manager mutex
  if mutex = 0 ∨ queues_ok = false then
    (-1, { cm := cm, dispatch := none, trace := [] })
  else
    let cm := { cm with new_inst_cb := new_inst_cb, error_cb := error_cb, done_cb := done_cb }
    if tasks_ok = false then (-1, { cm := cm, dispatch := none, trace := [] })
    else (0, { cm := cm, dispatch := none, trace := [] })

/-- The function `comm_register_instruction`. -/
def comm_register_instruction (hz : Nat) (cm : comm_manager_t) (obj action callback : Nat)
    (is_sync : Bool) (timeout_ms : Nat) : Int × comm_manager_t :=
  if cm.mutex = 0 then (-1, cm)
  else
    let idx := find_free_slot cm
    if idx ≥ 0 ∧ callback ≠ 0 then
      let i := idx.toNat
      let slot := cm.instructions i
      let slot := { slot with
        instruction := { slot.instruction with obj := obj, action := action },
        executor := callback,
        is_sync := is_sync,
        timeout := if timeout_ms = 0 then pdMS_TO_TICKS hz 10 else pdMS_TO_TICKS hz timeout_ms,
        state := COMM_COMPLETED }
      (idx, { cm with
        instructions := Function.update cm.instructions i slot,
        register_bitmap := Function.update cm.register_bitmap (i >>> 3)
          (cm.register_bitmap (i >>> 3) ||| (1 <<< (i &&& 0x07))) })
    else (-1, cm)

/-- The function `comm_add_instruction_to_execute_queue`. `took` is the result
of `xSemaphoreTake(cm.mutex, pdMS_TO_TICKS(10))`. -/
def comm_add_instruction_to_execute_queue (cm : comm_manager_t) (took : Bool)
    (inst : instruction_t) : Int × comm_manager_t :=
  if took then
    let idx := comm_find_instruction_slot_by_info cm inst.obj inst.action
    if idx ≥ 0 ∧ (cm.instructions idx.toNat).state = COMM_COMPLETED then
      let slot := cm.instructions idx.toNat
      (idx, { cm with
        instructions := Function.update cm.instructions idx.toNat
          { slot with instruction := inst, state := COMM_WAITING },
        execute_queue := xQueueSend cm.execute_queue idx })
    else (-1, cm)
  else (-1, cm)

/-- The function `comm_add_instruction_to_execute_queue_from_ISR`. `took` is
the result of `xSemaphoreTakeFromISR`. -/
def comm_add_instruction_to_execute_queue_from_ISR (cm : comm_manager_t) (took : Bool)
    (inst : instruction_t) : Int × comm_manager_t :=
  if took then
    let idx := comm_find_instruction_slot_by_info cm inst.obj inst.action
    if idx ≥ 0 ∧ (cm.instructions idx.toNat).state = COMM_COMPLETED then
      let slot := cm.instructions idx.toNat
      (idx, { cm with
        instructions := Function.update cm.instructions idx.toNat
          { slot with instruction := inst, state := COMM_WAITING },
        execute_queue := xQueueSend cm.execute_queue idx })
    else (-1, cm)
  else (-1, cm)

/-- The function `comm_notify_instruction_done`. -/
def comm_notify_instruction_done (cm : comm_manager_t) (index : Int) (error_code : Nat) :
    Int × comm_manager_t :=
  if index < 0 ∨ index ≥ (COMM_MAX_INSTRUCTION_NUM : Int) then (-1, cm)
  else if (cm.instructions index.toNat).state = COMM_EXECUTING_ASYNC then
    let slot := cm.instructions index.toNat
    (0, { cm with
      instructions := Function.update cm.instructions index.toNat
        { slot with result_code := error_code },
      result_queue := xQueueSend cm.result_queue index })
  else (0, cm)

/-- The function `comm_notify_instruction_done_from_isr`. The result `_took` of
`xSemaphoreTakeFromISR` is not looked at by the code. -/
def comm_notify_instruction_done_from_isr (cm : comm_manager_t) (_took : Bool) (index : Int)
    (error_code : Nat) : Int × comm_manager_t :=
  if index < 0 ∨ index ≥ (COMM_MAX_INSTRUCTION_NUM : Int) then (-1, cm)
  else if (cm.instructions index.toNat).state = COMM_EXECUTING_ASYNC then
    let slot := cm.instructions index.toNat
    (0, { cm with
      instructions := Function.update cm.instructions index.toNat
        { slot with result_code := error_code },
      result_queue := xQueueSend cm.result_queue index })
  else (0, cm)

/-! ## The three tasks, one loop iteration each -/

/-- First critical section of `comm_manager_task`: an index is received from
the execute queue, the slot is snapshotted, the new-instruction callback runs,
the state and the start time are written. The step needs a queued index and a
dispatch task that is not inside a handler; otherwise nothing happens. `now`
is the value of `xTaskGetTickCount()`. -/
def comm_manager_task_begin (s : system_t) (now : Nat) : system_t :=
  match s.dispatch, s.cm.execute_queue with
  | none, idx :: rest =>
    let slot := s.cm.instructions idx.toNat
    let executor := slot.executor
    let is_sync := slot.is_sync
    let inst_copy := slot.instruction
    let trace := if s.cm.new_inst_cb ≠ 0 then s.trace ++ [callback_event.new_inst_call inst_copy]
      else s.trace
    let cm := { s.cm with
      execute_queue := rest,
      instructions := Function.update s.cm.instructions idx.toNat
        { slot with
          state := if is_sync then COMM_EXECUTING_SYNC else COMM_EXECUTING_ASYNC,
          start_time := now } }
    { cm := cm,
      dispatch := if executor ≠ 0 then
          some { idx := idx, inst_copy := inst_copy, executor := executor, is_sync := is_sync }
        else none,
      trace := trace }
  | _, _ => s

/-- Second half of a `comm_manager_task` iteration: the handler, called with
the snapshot, returns `err`, and the result is routed. -/
def comm_manager_task_finish (s : system_t) (err : Nat) : system_t :=
  match s.dispatch with
  | none => s
  | some l =>
    let trace := s.trace ++ [callback_event.executor_call l.executor l.inst_copy err]
    let slot := s.cm.instructions l.idx.toNat
    if err ≠ 0 then
      { cm := { s.cm with
          instructions := Function.update s.cm.instructions l.idx.toNat
            { slot with result_code := err },
          result_queue := xQueueSend s.cm.result_queue l.idx },
        dispatch := none, trace := trace }
    else if l.is_sync then
      { cm := { s.cm with
          instructions := Function.update s.cm.instructions l.idx.toNat
            { slot with result_code := 0 },
          result_queue := xQueueSend s.cm.result_queue l.idx },
        dispatch := none, trace := trace }
    else { cm := s.cm, dispatch := none, trace := trace }

/-- One iteration of `comm_result_task`; nothing happens while the result
queue is empty. -/
def comm_result_task_step (s : system_t) : system_t :=
  match s.cm.result_queue with
  | [] => s
  | idx :: rest =>
    let slot := s.cm.instructions idx.toNat
    let err := slot.result_code
    if err = 0 then
      { cm := { s.cm with
          result_queue := rest,
          instructions := Function.update s.cm.instructions idx.toNat
            { slot with state := COMM_COMPLETED } },
        dispatch := s.dispatch,
        trace := if s.cm.done_cb ≠ 0 then
            s.trace ++ [callback_event.done_call idx slot.instruction]
          else s.trace }
    else
      { cm := { s.cm with
          result_queue := rest,
          instructions := Function.update s.cm.instructions idx.toNat
            { slot with result_code := 0, state := COMM_COMPLETED } },
        dispatch := s.dispatch,
        trace := if s.cm.error_cb ≠ 0 then
            s.trace ++ [callback_event.error_call idx slot.instruction err]
          else s.trace }

/-- The scan loop of `comm_timeout_task`: `n` iterations are left, the counter
is `i`; `now - start_time` is the 32-bit unsigned difference. -/
def comm_timeout_task_loop (now : Nat) : Nat → Nat → comm_manager_t → comm_manager_t
  | 0, _, cm => cm
  | n + 1, i, cm =>
    let slot := cm.instructions i
    let cm1 :=
      if bit_registered cm.register_bitmap i = true ∧ slot.state = COMM_EXECUTING_ASYNC ∧
          slot.timeout ≠ portMAX_DELAY then
        if (now + 2 ^ 32 - slot.start_time) % 2 ^ 32 > slot.timeout then
          { cm with
            instructions := Function.update cm.instructions i
              { slot with result_code := COMM_TIMEOUT_ERROR },
            result_queue := xQueueSend cm.result_queue (i : Int) }
        else cm
      else cm
    comm_timeout_task_loop now n (i + 1) cm1

/-- One scan of `comm_timeout_task`, the loop run under the lock. The argument
`now` is the tick count the task has read before it takes the lock, so it may
be older than a start time recorded in between. -/
def comm_timeout_task_scan (cm : comm_manager_t) (now : Nat) : comm_manager_t :=
  comm_timeout_task_loop now COMM_MAX_INSTRUCTION_NUM 0 cm

/-! ## Executions -/

/-- The operations that can be interleaved on a running manager, with what the
environment contributes to each. Every order of the operations is an
execution: the scheduler configuration is not part of the source. The tick of
`timeout_scan` is the one the monitor has read before taking the lock. -/
inductive op_t where
  | register (obj action callback : Nat) (is_sync : Bool) (timeout_ms : Nat)
  | submit (took : Bool) (inst : instruction_t)
  | submit_from_ISR (took : Bool) (inst : instruction_t)
  | dispatch_begin (now : Nat)
  | handler_return (err : Nat)
  | notify_done (index : Int) (error_code : Nat)
  | notify_done_from_isr (took : Bool) (index : Int) (error_code : Nat)
  | timeout_scan (now : Nat)
  | result_step
deriving DecidableEq, Repr

/-- One operation applied to the system. -/
def step (hz : Nat) (s : system_t) : op_t → system_t
  | op_t.register obj action callback is_sync timeout_ms =>
    { s with cm := (comm_register_instruction hz s.cm obj action callback is_sync timeout_ms).2 }
  | op_t.submit took inst =>
    { s with cm := (comm_add_instruction_to_execute_queue s.cm took inst).2 }
  | op_t.submit_from_ISR took inst =>
    { s with cm := (comm_add_instruction_to_execute_queue_from_ISR s.cm took inst).2 }
  | op_t.dispatch_begin now => comm_manager_task_begin s now
  | op_t.handler_return err => comm_manager_task_finish s err
  | op_t.notify_done index error_code =>
    { s with cm := (comm_notify_instruction_done s.cm index error_code).2 }
  | op_t.notify_done_from_isr took index error_code =>
    { s with cm := (comm_notify_instruction_done_from_isr s.cm took index error_code).2 }
  | op_t.timeout_scan now => { s with cm := comm_timeout_task_scan s.cm now }
  | op_t.result_step => comm_result_task_step s

/-- A sequence of operations applied from left to right. -/
def run (hz : Nat) (s : system_t) (ops : List op_t) : system_t :=
  ops.foldl (step hz) s

/-- The system right after a successful `comm_init`. -/
def init_system (mutex new_inst_cb error_cb done_cb : Nat) : system_t :=
  (comm_init mutex true true new_inst_cb error_cb done_cb).2

/-- A state is reachable when some sequence of operations leads to it from a
successful `comm_init`. -/
def reachable (hz : Nat) (s : system_t) : Prop :=
  ∃ mutex new_inst_cb error_cb done_cb ops, mutex ≠ 0 ∧
    s = run hz (init_system mutex new_inst_cb error_cb done_cb) ops

/-! ## Auxiliary definitions used by the statements -/

/-- The shape shared by the two search loops: the first counter value in
`i, i+1, ..., i+n-1` at which `p` holds, or `-1`. -/
def first_loop (p : Nat → Bool) : Nat → Nat → Int
  | 0, _ => -1
  | n + 1, i => if p i then (i : Int) else first_loop p n (i + 1)

/-- The test made by `comm_find_instruction_slot_by_info` at index `i`. -/
def slot_matches (cm : comm_manager_t) (obj action : Nat) (i : Nat) : Bool :=
  bit_registered cm.register_bitmap i &&
    decide ((cm.instructions i).instruction.obj = obj ∧
      (cm.instructions i).instruction.action = action)

/-- A registry holding the async command (1, 2) at index 0, idle, whose execute
queue already holds 32 entries. -/
def full_execute_queue_manager : comm_manager_t :=
  { (comm_register_instruction 1000 (zero_manager 1) 1 2 9 false 100).2 with
    execute_queue := List.replicate 32 0 }

/-- The registry after registering the async command (1, 2) on a fresh
manager. -/
def one_command_manager : comm_manager_t :=
  (comm_register_instruction 1000 (zero_manager 1) 1 2 9 false 100).2

/-- The instruction used in the worked executions: obj 1, action 2, one
parameter of value 7. -/
def inst_1_2 : instruction_t := { obj := 1, action := 2, para1 := 7, para2 := 0, para_num := 1 }

/-- An execution that leaves the async command (1, 2) pending at index 0:
registration, submission, dispatch, handler returning 0. -/
def async_pending_ops : List op_t :=
  [op_t.register 1 2 9 false 100, op_t.submit true inst_1_2,
   op_t.dispatch_begin 0, op_t.handler_return 0]

/-- The system after `async_pending_ops`, started with the three callbacks
configured. -/
def async_pending_system : system_t :=
  run 1000 (init_system 1 11 12 13) async_pending_ops

/-- The system after `async_pending_ops` followed by 32 completion
notifications for index 0: the slot is still `COMM_EXECUTING_ASYNC` and the
result queue holds 32 entries. -/
def notify_flood_system : system_t :=
  run 1000 (init_system 1 11 12 13)
    (async_pending_ops ++ List.replicate 32 (op_t.notify_done 0 0))

/-- Two managers agree on the bitmap and on the (obj, action) stored in every
slot. -/
def same_keys (cm cm' : comm_manager_t) : Prop :=
  cm'.register_bitmap = cm.register_bitmap ∧
  ∀ i, (cm'.instructions i).instruction.obj = (cm.instructions i).instruction.obj ∧
    (cm'.instructions i).instruction.action = (cm.instructions i).instruction.action

/-- The registered indices form an initial segment of 0..31. -/
def prefix_registered (cm : comm_manager_t) : Prop :=
  ∀ i j, j < i → i < COMM_MAX_INSTRUCTION_NUM →
    bit_registered cm.register_bitmap i = true → bit_registered cm.register_bitmap j = true

/-- No two distinct registered indices hold the same (obj, action). -/
def pair_unique (cm : comm_manager_t) : Prop :=
  ∀ i j, i < COMM_MAX_INSTRUCTION_NUM → j < COMM_MAX_INSTRUCTION_NUM →
    bit_registered cm.register_bitmap i = true → bit_registered cm.register_bitmap j = true →
    (cm.instructions i).instruction.obj = (cm.instructions j).instruction.obj →
    (cm.instructions i).instruction.action = (cm.instructions j).instruction.action →
    i = j

/-- Every registration in `ops`, run from `s`, names a pair that the lookup
does not resolve at the moment of the call. -/
def fresh_registrations (hz : Nat) (s : system_t) : List op_t → Bool
  | [] => true
  | op :: rest =>
    (match op with
      | op_t.register obj action _ _ _ =>
        decide (comm_find_instruction_slot_by_info s.cm obj action = -1)
      | _ => true) &&
    fresh_registrations hz (step hz s op) rest

/-- Two registrations of the same pair (1, 2). -/
def duplicate_registration_system : system_t :=
  run 1000 (init_system 1 11 12 13)
    [op_t.register 1 2 9 true 100, op_t.register 1 2 9 true 100]

/-- Operations used to exercise the uniqueness invariant: two registrations of
different pairs and one submission. -/
def distinct_registration_ops : List op_t :=
  [op_t.register 1 2 9 true 100, op_t.register 3 4 9 false 50, op_t.submit true inst_1_2]

/-- Operations applied after the first registration in the stable-index
example: a second registration of the same pair, a registration of another
pair, and one full asynchronous cycle. -/
def later_ops : List op_t :=
  [op_t.register 1 2 9 true 100, op_t.register 3 4 9 false 50, op_t.submit true inst_1_2,
   op_t.dispatch_begin 0, op_t.handler_return 0, op_t.notify_done 0 0, op_t.timeout_scan 200,
   op_t.result_step]

/-- The number of submissions in `ops`, run from `s`, that are accepted for
slot `idx` (the call returns `idx`). -/
def accepted_submissions (hz : Nat) (s : system_t) : List op_t → Int → Nat
  | [], _ => 0
  | op :: rest, idx =>
    (match op with
      | op_t.submit took inst =>
        if (comm_add_instruction_to_execute_queue s.cm took inst).1 = idx then 1 else 0
      | op_t.submit_from_ISR took inst =>
        if (comm_add_instruction_to_execute_queue_from_ISR s.cm took inst).1 = idx then 1 else 0
      | _ => 0) +
    accepted_submissions hz (step hz s op) rest idx

/-- The number of completion callbacks (success or error) in a trace that were
invoked on slot `idx`. -/
def completion_calls (idx : Int) (trace : List callback_event) : Nat :=
  trace.countP (fun e =>
    match e with
    | callback_event.done_call i _ => i == idx
    | callback_event.error_call i _ _ => i == idx
    | _ => false)

/-- An execution in which the pending async command at index 0 is completed
both by the timeout monitor and by a notification before the result task
runs. -/
def double_completion_ops : List op_t :=
  async_pending_ops ++ [op_t.timeout_scan 200, op_t.notify_done 0 5]

/-- An instruction for the pair (obj, 0) without parameters. -/
def inst_of_obj (obj : Nat) : instruction_t :=
  { obj := obj, action := 0, para1 := 0, para2 := 0, para_num := 0 }

/-- An execution that fills the execute queue while slot 0 is idle: the command
(1, 0) at index 0 is completed twice (two notifications), the first result step
frees it, 31 further commands are registered, all 32 commands are submitted,
and the second result step frees slot 0 again. -/
def fill_execute_queue_ops : List op_t :=
  [op_t.register 1 0 9 false 100, op_t.submit true (inst_of_obj 1),
   op_t.dispatch_begin 0, op_t.handler_return 0,
   op_t.notify_done 0 0, op_t.notify_done 0 0, op_t.result_step] ++
  (List.range 31).map (fun k => op_t.register (k + 2) 0 9 false 100) ++
  (List.range 32).map (fun k => op_t.submit true (inst_of_obj (k + 1))) ++
  [op_t.result_step]

/-- The system after `fill_execute_queue_ops`. -/
def fill_execute_queue_system : system_t :=
  run 1000 (init_system 1 11 12 13) fill_execute_queue_ops

/-- An execution in which the handler of the async command at index 0 is still
running when the monitor times the slot out and the result task completes
it. -/
def handler_overrun_ops : List op_t :=
  [op_t.register 1 2 9 false 100, op_t.submit true inst_1_2,
   op_t.dispatch_begin 0, op_t.timeout_scan 200, op_t.result_step]

/-- An instruction for the pair (3, 4). -/
def inst_3_4 : instruction_t := { obj := 3, action := 4, para1 := 0, para2 := 0, para_num := 0 }

/-- An execution that fills the result queue while the sync command (3, 4) at
index 1 waits in the execute queue: the async command (1, 2) at index 0 is
dispatched and then notified 32 times. -/
def full_result_queue_ops : List op_t :=
  [op_t.register 1 2 9 false 100, op_t.register 3 4 9 true 100,
   op_t.submit true inst_1_2, op_t.submit true inst_3_4,
   op_t.dispatch_begin 0, op_t.handler_return 0] ++
  List.replicate 32 (op_t.notify_done 0 0)

/-- The system after `full_result_queue_ops`. -/
def full_result_queue_system : system_t :=
  run 1000 (init_system 1 11 12 13) full_result_queue_ops

/-- The condition under which the scan of `comm_timeout_task` times out index
`i`: registered, `COMM_EXECUTING_ASYNC`, a timeout other than `portMAX_DELAY`,
and a 32-bit tick difference `now - start_time` above the timeout. -/
def timed_out (cm : comm_manager_t) (now i : Nat) : Bool :=
  bit_registered cm.register_bitmap i &&
  decide ((cm.instructions i).state = COMM_EXECUTING_ASYNC) &&
  decide ((cm.instructions i).timeout ≠ portMAX_DELAY) &&
  decide ((now + 2 ^ 32 - (cm.instructions i).start_time) % 2 ^ 32 > (cm.instructions i).timeout)

/-- The indices below 32 that a scan at tick `now` times out, in increasing
order. -/
def timed_out_indices (cm : comm_manager_t) (now : Nat) : List Nat :=
  (List.range COMM_MAX_INSTRUCTION_NUM).filter (timed_out cm now)

/-- A sequence of sends on a queue. -/
def send_all (q : List Int) (items : List Nat) : List Int :=
  items.foldl (fun q k => xQueueSend q (k : Int)) q

/-- The async command (1, 2) pending at index 0 with a start time 10 ticks
before the 32-bit tick counter wraps. -/
def wrapped_pending_system : system_t :=
  run 1000 (init_system 1 11 12 13)
    [op_t.register 1 2 9 false 100, op_t.submit true inst_1_2,
     op_t.dispatch_begin 4294967286, op_t.handler_return 0]

/-- A queued value is an index below 32 whose slot is registered. -/
def valid_index (cm : comm_manager_t) (x : Int) : Prop :=
  0 ≤ x ∧ x < (COMM_MAX_INSTRUCTION_NUM : Int) ∧
    bit_registered cm.register_bitmap x.toNat = true

/-- The invariant behind the queue contents: every queued index and the index
held by the dispatch task are registered indices below 32, every unregistered
slot is in state `COMM_NONE`, and every registered slot has a handler. -/
def registry_wf (s : system_t) : Prop :=
  (∀ x, x ∈ s.cm.execute_queue → valid_index s.cm x) ∧
  (∀ x, x ∈ s.cm.result_queue → valid_index s.cm x) ∧
  (∀ l, s.dispatch = some l → valid_index s.cm l.idx) ∧
  (∀ i, i < COMM_MAX_INSTRUCTION_NUM → bit_registered s.cm.register_bitmap i = false →
    (s.cm.instructions i).state = COMM_NONE) ∧
  (∀ i, i < COMM_MAX_INSTRUCTION_NUM → bit_registered s.cm.register_bitmap i = true →
    (s.cm.instructions i).executor ≠ 0)

/-- The number of registrations in `ops`, run from `s`, that succeed (return a
non-negative index). -/
def successful_registrations (hz : Nat) (s : system_t) : List op_t → Nat
  | [] => 0
  | op :: rest =>
    (match op with
      | op_t.register obj action callback is_sync timeout_ms =>
        if (comm_register_instruction hz s.cm obj action callback is_sync timeout_ms).1 ≥ 0
        then 1 else 0
      | _ => 0) +
    successful_registrations hz (step hz s op) rest

/-- Thirty-three registrations with a handler, of the pairs (0, 0) to (32, 0). -/
def many_registrations : List op_t :=
  (List.range 33).map (fun k => op_t.register k 0 9 true 100)

/-- A manager whose only registered slot is index 0, holding `slot`. -/
def single_slot_manager (mutex new_inst_cb error_cb done_cb : Nat)
    (slot : comm_instruction_internal_t) (eq rq : List Int) : comm_manager_t :=
  { instructions := Function.update (fun _ => zero_slot) 0 slot,
    register_bitmap := Function.update (fun _ => 0) 0 1,
    mutex := mutex, execute_queue := eq, result_queue := rq,
    new_inst_cb := new_inst_cb, error_cb := error_cb, done_cb := done_cb }

/-- The slot written by the first registration on a fresh manager. -/
def registered_slot (hz obj action callback : Nat) (is_sync : Bool) (timeout_ms : Nat) :
    comm_instruction_internal_t :=
  { zero_slot with
    instruction := { zero_slot.instruction with obj := obj, action := action },
    executor := callback,
    is_sync := is_sync,
    timeout := if timeout_ms = 0 then pdMS_TO_TICKS hz 10 else pdMS_TO_TICKS hz timeout_ms,
    state := COMM_COMPLETED }

/-- The slot of the single command after its instruction `inst` was submitted
and dispatched at tick `now`. -/
def dispatched_slot (hz obj action callback : Nat) (is_sync : Bool) (timeout_ms : Nat)
    (inst : instruction_t) (now : Nat) : comm_instruction_internal_t :=
  { registered_slot hz obj action callback is_sync timeout_ms with
    instruction := inst,
    state := if is_sync then COMM_EXECUTING_SYNC else COMM_EXECUTING_ASYNC,
    start_time := now }

/-- Registration of one command on a fresh manager, submission of `inst` and
the first half of its dispatch at tick `now`. -/
def start_ops (obj action callback : Nat) (is_sync : Bool) (timeout_ms : Nat)
    (inst : instruction_t) (now : Nat) : List op_t :=
  [op_t.register obj action callback is_sync timeout_ms, op_t.submit true inst,
   op_t.dispatch_begin now]

/-- The synchronous happy path: `start_ops`, the handler returning 0, and the
result step. -/
def sync_cycle_ops (obj action callback timeout_ms : Nat) (inst : instruction_t) (now : Nat) :
    List op_t :=
  start_ops obj action callback true timeout_ms inst now ++
    [op_t.handler_return 0, op_t.result_step]

/-- One asynchronous command on a fresh manager, submitted, dispatched at tick
`t0`, its handler returning 0. -/
def pending_ops (obj action callback timeout_ms : Nat) (inst : instruction_t) (t0 : Nat) :
    List op_t :=
  start_ops obj action callback false timeout_ms inst t0 ++ [op_t.handler_return 0]

/-- The system reached by `pending_ops`: slot 0 is `COMM_EXECUTING_ASYNC`, both
queues are empty, the dispatch task is idle, and the new-instruction callback
and the handler have been called. -/
def pending_system (hz mutex n e d obj action callback timeout_ms : Nat)
    (inst : instruction_t) (t0 : Nat) : system_t :=
  { cm := single_slot_manager mutex n e d
      (dispatched_slot hz obj action callback false timeout_ms inst t0) [] [],
    dispatch := none,
    trace := [callback_event.new_inst_call inst, callback_event.executor_call callback inst 0] }

/-- The operations that cannot end the pending state of a slot 0 started at
tick `t0` with timeout `T`: everything except registrations, notifications for
index 0 and scans at which the slot has timed out. -/
def keeps_pending (T t0 : Nat) : op_t → Bool
  | op_t.register _ _ _ _ _ => false
  | op_t.submit _ _ => true
  | op_t.submit_from_ISR _ _ => true
  | op_t.dispatch_begin _ => true
  | op_t.handler_return _ => true
  | op_t.notify_done index _ => decide (index ≠ 0)
  | op_t.notify_done_from_isr _ index _ => decide (index ≠ 0)
  | op_t.timeout_scan now => !(decide (T ≠ portMAX_DELAY ∧ (now + 2 ^ 32 - t0) % 2 ^ 32 > T))
  | op_t.result_step => true

/-- An instruction for the pair (1, 2) with other parameters than `inst_1_2`. -/
def inst_1_2_again : instruction_t :=
  { obj := 1, action := 2, para1 := 8, para2 := 3, para_num := 2 }

/-- The timeout scenario with a dispatch between the monitor's tick sample and
its scan: the async command (1, 2) with a timeout of 100 ticks is dispatched at
tick 1001 and its handler returns 0. -/
def stale_tick_ops : List op_t :=
  pending_ops 1 2 9 100 inst_1_2 1001

/-- Slot `i` is pending with no entry of its own outstanding: it is registered
and `COMM_EXECUTING_ASYNC`, its index is on neither queue, and the dispatch
task is not inside its handler. -/
def pending_alone (s : system_t) (i : Nat) : Prop :=
  i < COMM_MAX_INSTRUCTION_NUM ∧
  bit_registered s.cm.register_bitmap i = true ∧
  (s.cm.instructions i).state = COMM_EXECUTING_ASYNC ∧
  (i : Int) ∉ s.cm.execute_queue ∧
  (i : Int) ∉ s.cm.result_queue ∧
  ∀ l, s.dispatch = some l → l.idx ≠ (i : Int)

/-- The operations other than a notification for index `i` and a scan at which
a slot started at tick `t0` with timeout `T` has timed out. Registrations,
submissions, dispatches, result steps and notifications for other indices are
all included. -/
def leaves_pending (i T t0 : Nat) : op_t → Bool
  | op_t.notify_done index _ => decide (index ≠ (i : Int))
  | op_t.notify_done_from_isr _ index _ => decide (index ≠ (i : Int))
  | op_t.timeout_scan now => !(decide (T ≠ portMAX_DELAY ∧ (now + 2 ^ 32 - t0) % 2 ^ 32 > T))
  | _ => true

/-- The state `s2` still has slot `i` pending without an outstanding entry, and
the slot is the one of `s`. -/
@[reducible]
def stays_pending (s : system_t) (i : Nat) (s2 : system_t) : Prop :=
  pending_alone s2 i ∧ s2.cm.instructions i = s.cm.instructions i

/-! # Theorems -/

set_option maxRecDepth 100000

/-! ## Bitmap arithmetic -/

theorem bit_registered_eq_testBit (bm : Nat → Nat) (i : Nat) :
    bit_registered bm i = (bm (i >>> 3)).testBit (i &&& 0x07) := by
  unfold bit_registered
  rw [Nat.one_shiftLeft, Nat.and_two_pow]
  cases h : (bm (i >>> 3)).testBit (i &&& 0x07) <;> simp

theorem index_split (i : Nat) : i = 8 * (i >>> 3) + (i &&& 0x07) := by
  have h7 : i &&& 0x07 = i % 8 := Nat.and_pow_two_sub_one_eq_mod i 3
  have h3 : i >>> 3 = i / 8 := Nat.shiftRight_eq_div_pow i 3
  rw [h7, h3]
  omega

/-- Setting the bit of index `i` sets exactly that bit. -/
theorem bit_registered_set (bm : Nat → Nat) (i j : Nat) :
    bit_registered (Function.update bm (i >>> 3) (bm (i >>> 3) ||| (1 <<< (i &&& 0x07)))) j
      = (decide (j = i) || bit_registered bm j) := by
  rw [bit_registered_eq_testBit, bit_registered_eq_testBit]
  by_cases hb : j >>> 3 = i >>> 3
  · rw [hb, Function.update_same, Nat.testBit_or, Nat.one_shiftLeft, Nat.testBit_two_pow]
    have hi := index_split i
    have hj := index_split j
    by_cases hji : j = i
    · subst hji; simp
    · have : ¬ (i &&& 0x07 = j &&& 0x07) := by
        intro h; apply hji; omega
      simp [hji, this, Bool.or_comm]
  · rw [Function.update_noteq hb]
    have hji : j ≠ i := by
      intro h; apply hb; rw [h]
    simp [hji]

/-! ## First-match loops -/

theorem first_loop_spec (p : Nat → Bool) (n i : Nat) :
    (first_loop p n i = -1 ∧ ∀ j, i ≤ j → j < i + n → p j = false) ∨
    (∃ k : Nat, first_loop p n i = (k : Int) ∧ i ≤ k ∧ k < i + n ∧ p k = true ∧
      ∀ j, i ≤ j → j < k → p j = false) := by
  induction n generalizing i with
  | zero =>
    left
    refine ⟨rfl, ?_⟩
    intro j h1 h2
    omega
  | succ n ih =>
    unfold first_loop
    by_cases hp : p i = true
    · right
      refine ⟨i, by simp [hp], le_refl i, by omega, hp, ?_⟩
      intro j h1 h2
      omega
    · simp only [hp]
      rcases ih (i + 1) with ⟨h1, h2⟩ | ⟨k, h1, h2, h3, h4, h5⟩
      · left
        refine ⟨by simpa using h1, ?_⟩
        intro j hj1 hj2
        by_cases hji : j = i
        · subst hji; simpa using hp
        · exact h2 j (by omega) (by omega)
      · right
        refine ⟨k, by simpa using h1, by omega, by omega, h4, ?_⟩
        intro j hj1 hj2
        by_cases hji : j = i
        · subst hji; simpa using hp
        · exact h5 j (by omega) hj2

theorem find_free_slot_loop_eq (cm : comm_manager_t) (n i : Nat) :
    find_free_slot_loop cm n i = first_loop (fun j => !(bit_registered cm.register_bitmap j)) n i := by
  induction n generalizing i with
  | zero => rfl
  | succ n ih => simp [find_free_slot_loop, first_loop, ih]

theorem find_slot_loop_eq (cm : comm_manager_t) (obj action n i : Nat) :
    find_slot_loop cm obj action n i = first_loop (slot_matches cm obj action) n i := by
  induction n generalizing i with
  | zero => rfl
  | succ n ih =>
    rw [find_slot_loop, first_loop, ih]
    by_cases hb : bit_registered cm.register_bitmap i = true
    · by_cases hm : (cm.instructions i).instruction.obj = obj ∧
          (cm.instructions i).instruction.action = action
      · have hs : slot_matches cm obj action i = true := by simp [slot_matches, hb, hm]
        simp [hb, hm, hs]
      · have hs : slot_matches cm obj action i = false := by simp [slot_matches, hb, hm]
        simp [hb, hm, hs]
    · have hs : slot_matches cm obj action i = false := by
        simp only [Bool.not_eq_true] at hb
        simp [slot_matches, hb]
      simp [hb, hs]

/-! ## The two searches -/

theorem find_free_slot_spec (cm : comm_manager_t) :
    (find_free_slot cm = -1 ∧
      ∀ j, j < COMM_MAX_INSTRUCTION_NUM → bit_registered cm.register_bitmap j = true) ∨
    (∃ k : Nat, find_free_slot cm = (k : Int) ∧ k < COMM_MAX_INSTRUCTION_NUM ∧
      bit_registered cm.register_bitmap k = false ∧
      ∀ j, j < k → bit_registered cm.register_bitmap j = true) := by
  unfold find_free_slot
  rw [find_free_slot_loop_eq]
  rcases first_loop_spec (fun j => !(bit_registered cm.register_bitmap j))
      COMM_MAX_INSTRUCTION_NUM 0 with ⟨h1, h2⟩ | ⟨k, h1, _, h3, h4, h5⟩
  · left
    refine ⟨h1, ?_⟩
    intro j hj
    have := h2 j (Nat.zero_le j) (by omega)
    simpa using this
  · right
    refine ⟨k, h1, by omega, by simpa using h4, ?_⟩
    intro j hj
    have := h5 j (Nat.zero_le j) hj
    simpa using this

theorem find_slot_spec (cm : comm_manager_t) (obj action : Nat) :
    (comm_find_instruction_slot_by_info cm obj action = -1 ∧
      ∀ j, j < COMM_MAX_INSTRUCTION_NUM → slot_matches cm obj action j = false) ∨
    (∃ k : Nat, comm_find_instruction_slot_by_info cm obj action = (k : Int) ∧
      k < COMM_MAX_INSTRUCTION_NUM ∧ slot_matches cm obj action k = true ∧
      ∀ j, j < k → slot_matches cm obj action j = false) := by
  unfold comm_find_instruction_slot_by_info
  rw [find_slot_loop_eq]
  rcases first_loop_spec (slot_matches cm obj action)
      COMM_MAX_INSTRUCTION_NUM 0 with ⟨h1, h2⟩ | ⟨k, h1, _, h3, h4, h5⟩
  · left
    exact ⟨h1, fun j hj => h2 j (Nat.zero_le j) (by omega)⟩
  · right
    exact ⟨k, h1, by omega, h4, fun j hj => h5 j (Nat.zero_le j) hj⟩

/-! ## Registration -/

theorem register_fail (hz : Nat) (cm : comm_manager_t) (obj action callback : Nat)
    (is_sync : Bool) (timeout_ms : Nat)
    (h : cm.mutex = 0 ∨ find_free_slot cm = -1 ∨ callback = 0) :
    comm_register_instruction hz cm obj action callback is_sync timeout_ms = (-1, cm) := by
  unfold comm_register_instruction
  rcases h with h | h | h
  · simp [h]
  · simp [h]
  · simp [h]

theorem register_success (hz : Nat) (cm : comm_manager_t) (obj action callback : Nat)
    (is_sync : Bool) (timeout_ms k : Nat)
    (hm : cm.mutex ≠ 0) (hk : find_free_slot cm = (k : Int)) (hc : callback ≠ 0) :
    comm_register_instruction hz cm obj action callback is_sync timeout_ms =
      ((k : Int), { cm with
        instructions := Function.update cm.instructions k
          { cm.instructions k with
            instruction := { (cm.instructions k).instruction with obj := obj, action := action },
            executor := callback,
            is_sync := is_sync,
            timeout := if timeout_ms = 0 then pdMS_TO_TICKS hz 10
              else pdMS_TO_TICKS hz timeout_ms,
            state := COMM_COMPLETED },
        register_bitmap := Function.update cm.register_bitmap (k >>> 3)
          (cm.register_bitmap (k >>> 3) ||| (1 <<< (k &&& 0x07))) }) := by
  unfold comm_register_instruction
  simp [hm, hk, hc]

/-- C1 (as amended): on an initialised manager with a free index, registering
with a non-null handler returns the smallest unregistered index `i`, marks it
registered, stores obj, action, handler and sync flag in slot `i`, stores as
timeout the tick conversion of `timeout_ms` (of 10 ms when `timeout_ms` is 0),
sets the state to `COMM_COMPLETED`, and leaves every other slot, every other
bitmap bit and both queues unchanged. -/
theorem C1_register_success (hz : Nat) (cm : comm_manager_t) (obj action callback : Nat)
    (is_sync : Bool) (timeout_ms : Nat)
    (hinit : cm.mutex ≠ 0)
    (hfree : ∃ i, i < COMM_MAX_INSTRUCTION_NUM ∧ bit_registered cm.register_bitmap i = false)
    (hcb : callback ≠ 0) :
    ∃ i : Nat, i < COMM_MAX_INSTRUCTION_NUM ∧
      bit_registered cm.register_bitmap i = false ∧
      (∀ j, j < i → bit_registered cm.register_bitmap j = true) ∧
      (comm_register_instruction hz cm obj action callback is_sync timeout_ms).1 = (i : Int) ∧
      bit_registered
        (comm_register_instruction hz cm obj action callback is_sync timeout_ms).2.register_bitmap
        i = true ∧
      ((comm_register_instruction hz cm obj action callback is_sync timeout_ms).2.instructions
        i).instruction.obj = obj ∧
      ((comm_register_instruction hz cm obj action callback is_sync timeout_ms).2.instructions
        i).instruction.action = action ∧
      ((comm_register_instruction hz cm obj action callback is_sync timeout_ms).2.instructions
        i).executor = callback ∧
      ((comm_register_instruction hz cm obj action callback is_sync timeout_ms).2.instructions
        i).is_sync = is_sync ∧
      ((comm_register_instruction hz cm obj action callback is_sync timeout_ms).2.instructions
        i).timeout = (if timeout_ms = 0 then pdMS_TO_TICKS hz 10 else pdMS_TO_TICKS hz timeout_ms) ∧
      ((comm_register_instruction hz cm obj action callback is_sync timeout_ms).2.instructions
        i).state = COMM_COMPLETED ∧
      (∀ j, j ≠ i →
        (comm_register_instruction hz cm obj action callback is_sync timeout_ms).2.instructions j
          = cm.instructions j) ∧
      (∀ j, j ≠ i →
        bit_registered
          (comm_register_instruction hz cm obj action callback is_sync timeout_ms).2.register_bitmap
          j = bit_registered cm.register_bitmap j) ∧
      (comm_register_instruction hz cm obj action callback is_sync timeout_ms).2.execute_queue
        = cm.execute_queue ∧
      (comm_register_instruction hz cm obj action callback is_sync timeout_ms).2.result_queue
        = cm.result_queue := by
  rcases find_free_slot_spec cm with ⟨_, hall⟩ | ⟨k, hk, hk32, hkfree, hkmin⟩
  · obtain ⟨i, hi, hif⟩ := hfree
    rw [hall i hi] at hif
    exact absurd hif (by decide)
  · refine ⟨k, hk32, hkfree, hkmin, ?_⟩
    rw [register_success hz cm obj action callback is_sync timeout_ms k hinit hk hcb]
    refine ⟨rfl, ?_, ?_, ?_, ?_, ?_, ?_, ?_, ?_, ?_, rfl, rfl⟩
    · simp [bit_registered_set]
    · simp
    · simp
    · simp
    · simp
    · simp
    · simp
    · intro j hj
      simp [Function.update_noteq hj]
    · intro j hj
      simp [bit_registered_set, hj]

theorem slot_matches_iff (cm : comm_manager_t) (obj action i : Nat) :
    slot_matches cm obj action i = true ↔
      (bit_registered cm.register_bitmap i = true ∧
        (cm.instructions i).instruction.obj = obj ∧
        (cm.instructions i).instruction.action = action) := by
  simp [slot_matches]

theorem slot_matches_false_iff (cm : comm_manager_t) (obj action i : Nat) :
    slot_matches cm obj action i = false ↔
      ¬ (bit_registered cm.register_bitmap i = true ∧
        (cm.instructions i).instruction.obj = obj ∧
        (cm.instructions i).instruction.action = action) := by
  rw [← slot_matches_iff]
  simp

theorem bit_registered_zero (i : Nat) : bit_registered (fun _ => 0) i = false := by
  simp [bit_registered]

/-- C1, witness: the first registration on a fresh manager. -/
theorem C1_register_success_witness :
    (zero_manager 1).mutex ≠ 0 ∧
    (∃ i, i < COMM_MAX_INSTRUCTION_NUM ∧
      bit_registered (zero_manager 1).register_bitmap i = false) ∧
    (9 : Nat) ≠ 0 ∧
    ∃ i : Nat, i < COMM_MAX_INSTRUCTION_NUM ∧
      bit_registered (zero_manager 1).register_bitmap i = false ∧
      (∀ j, j < i → bit_registered (zero_manager 1).register_bitmap j = true) ∧
      (comm_register_instruction 1000 (zero_manager 1) 1 2 9 true 100).1 = (i : Int) ∧
      bit_registered
        (comm_register_instruction 1000 (zero_manager 1) 1 2 9 true 100).2.register_bitmap
        i = true ∧
      ((comm_register_instruction 1000 (zero_manager 1) 1 2 9 true 100).2.instructions
        i).instruction.obj = 1 ∧
      ((comm_register_instruction 1000 (zero_manager 1) 1 2 9 true 100).2.instructions
        i).instruction.action = 2 ∧
      ((comm_register_instruction 1000 (zero_manager 1) 1 2 9 true 100).2.instructions
        i).executor = 9 ∧
      ((comm_register_instruction 1000 (zero_manager 1) 1 2 9 true 100).2.instructions
        i).is_sync = true ∧
      ((comm_register_instruction 1000 (zero_manager 1) 1 2 9 true 100).2.instructions
        i).timeout = (if (100 : Nat) = 0 then pdMS_TO_TICKS 1000 10 else pdMS_TO_TICKS 1000 100) ∧
      ((comm_register_instruction 1000 (zero_manager 1) 1 2 9 true 100).2.instructions
        i).state = COMM_COMPLETED ∧
      (∀ j, j ≠ i →
        (comm_register_instruction 1000 (zero_manager 1) 1 2 9 true 100).2.instructions j
          = (zero_manager 1).instructions j) ∧
      (∀ j, j ≠ i →
        bit_registered
          (comm_register_instruction 1000 (zero_manager 1) 1 2 9 true 100).2.register_bitmap
          j = bit_registered (zero_manager 1).register_bitmap j) ∧
      (comm_register_instruction 1000 (zero_manager 1) 1 2 9 true 100).2.execute_queue
        = (zero_manager 1).execute_queue ∧
      (comm_register_instruction 1000 (zero_manager 1) 1 2 9 true 100).2.result_queue
        = (zero_manager 1).result_queue :=
  ⟨by decide, ⟨0, by decide, by decide⟩, by decide,
    C1_register_success 1000 (zero_manager 1) 1 2 9 true 100 (by decide)
      ⟨0, by decide, by decide⟩ (by decide)⟩

/-- C1, counterexample to the claim as worded: with `timeout_ms = 0` (and a
1 kHz tick) the registration succeeds at index 0 but the slot holds 10 ticks,
not the tick conversion of the timeout passed in, which is 0. -/
theorem C1_timeout_zero_counterexample :
    (zero_manager 1).mutex ≠ 0 ∧
    bit_registered (zero_manager 1).register_bitmap 0 = false ∧
    (comm_register_instruction 1000 (zero_manager 1) 1 2 9 true 0).1 = 0 ∧
    ((comm_register_instruction 1000 (zero_manager 1) 1 2 9 true 0).2.instructions 0).timeout
      = 10 ∧
    ((comm_register_instruction 1000 (zero_manager 1) 1 2 9 true 0).2.instructions 0).timeout
      ≠ pdMS_TO_TICKS 1000 0 := by
  decide

/-- C2: on an initialised manager a registration fails (negative return) exactly
when every index is registered or the handler is null, and a failed
registration leaves the bitmap, every slot and both queues as they were. -/
theorem C2_register_failure (hz : Nat) (cm : comm_manager_t) (obj action callback : Nat)
    (is_sync : Bool) (timeout_ms : Nat) (hinit : cm.mutex ≠ 0) :
    ((comm_register_instruction hz cm obj action callback is_sync timeout_ms).1 < 0 ↔
      ((∀ i, i < COMM_MAX_INSTRUCTION_NUM → bit_registered cm.register_bitmap i = true) ∨
        callback = 0)) ∧
    ((comm_register_instruction hz cm obj action callback is_sync timeout_ms).1 < 0 →
      (comm_register_instruction hz cm obj action callback is_sync timeout_ms).2.register_bitmap
        = cm.register_bitmap ∧
      (comm_register_instruction hz cm obj action callback is_sync timeout_ms).2.instructions
        = cm.instructions ∧
      (comm_register_instruction hz cm obj action callback is_sync timeout_ms).2.execute_queue
        = cm.execute_queue ∧
      (comm_register_instruction hz cm obj action callback is_sync timeout_ms).2.result_queue
        = cm.result_queue) := by
  rcases find_free_slot_spec cm with ⟨hret, hall⟩ | ⟨k, hk, hk32, hkfree, _⟩
  · rw [register_fail hz cm obj action callback is_sync timeout_ms (Or.inr (Or.inl hret))]
    exact ⟨⟨fun _ => Or.inl hall, fun _ => by simp⟩, fun _ => ⟨rfl, rfl, rfl, rfl⟩⟩
  · by_cases hc : callback = 0
    · rw [register_fail hz cm obj action callback is_sync timeout_ms (Or.inr (Or.inr hc))]
      exact ⟨⟨fun _ => Or.inr hc, fun _ => by simp⟩, fun _ => ⟨rfl, rfl, rfl, rfl⟩⟩
    · rw [register_success hz cm obj action callback is_sync timeout_ms k hinit hk hc]
      have hnn : ¬ ((k : Int) < 0) := by omega
      refine ⟨⟨fun h => absurd h hnn, ?_⟩, fun h => absurd h hnn⟩
      rintro (hall | h0)
      · rw [hall k hk32] at hkfree
        exact absurd hkfree (by decide)
      · exact absurd h0 hc

/-- C2, witness: a registration without handler on a fresh manager. -/
theorem C2_register_failure_witness :
    (zero_manager 1).mutex ≠ 0 ∧
    (comm_register_instruction 1000 (zero_manager 1) 1 2 0 true 100).1 < 0 ∧
    (comm_register_instruction 1000 (zero_manager 1) 1 2 0 true 100).2.register_bitmap
      = (zero_manager 1).register_bitmap ∧
    (comm_register_instruction 1000 (zero_manager 1) 1 2 0 true 100).2.instructions
      = (zero_manager 1).instructions ∧
    (comm_register_instruction 1000 (zero_manager 1) 1 2 0 true 100).2.execute_queue
      = (zero_manager 1).execute_queue ∧
    (comm_register_instruction 1000 (zero_manager 1) 1 2 0 true 100).2.result_queue
      = (zero_manager 1).result_queue :=
  have h := C2_register_failure 1000 (zero_manager 1) 1 2 0 true 100 (by decide)
  have hneg : (comm_register_instruction 1000 (zero_manager 1) 1 2 0 true 100).1 < 0 :=
    h.1.2 (Or.inr rfl)
  ⟨by decide, hneg, h.2 hneg⟩

/-- C3: `comm_find_instruction_slot_by_info` returns the smallest index below 32
that is registered and whose stored obj and action equal the arguments; it
returns -1 exactly when no registered slot matches; any other result is a
registered index; on an empty registry the lookup of (0, 0) gives -1. -/
theorem C3_find_slot (cm : comm_manager_t) (obj action : Nat) :
    (∀ i : Nat, comm_find_instruction_slot_by_info cm obj action = (i : Int) ↔
      (i < COMM_MAX_INSTRUCTION_NUM ∧
        (bit_registered cm.register_bitmap i = true ∧
          (cm.instructions i).instruction.obj = obj ∧
          (cm.instructions i).instruction.action = action) ∧
        ∀ j, j < i →
          ¬ (bit_registered cm.register_bitmap j = true ∧
            (cm.instructions j).instruction.obj = obj ∧
            (cm.instructions j).instruction.action = action))) ∧
    (comm_find_instruction_slot_by_info cm obj action = -1 ↔
      ∀ i, i < COMM_MAX_INSTRUCTION_NUM →
        ¬ (bit_registered cm.register_bitmap i = true ∧
          (cm.instructions i).instruction.obj = obj ∧
          (cm.instructions i).instruction.action = action)) ∧
    (comm_find_instruction_slot_by_info cm obj action = -1 ∨
      ∃ i : Nat, i < COMM_MAX_INSTRUCTION_NUM ∧
        comm_find_instruction_slot_by_info cm obj action = (i : Int) ∧
        bit_registered cm.register_bitmap i = true) ∧
    (∀ mutex, comm_find_instruction_slot_by_info (zero_manager mutex) 0 0 = -1) := by
  refine ⟨?_, ?_, ?_, ?_⟩
  · intro i
    rcases find_slot_spec cm obj action with ⟨hret, hnone⟩ | ⟨k, hk, hk32, hkm, hkmin⟩
    · rw [hret]
      constructor
      · intro h; omega
      · rintro ⟨hi, hm, _⟩
        exact absurd hm ((slot_matches_false_iff cm obj action i).1 (hnone i hi))
    · rw [hk]
      constructor
      · intro h
        have hki : k = i := by omega
        subst hki
        exact ⟨hk32, (slot_matches_iff cm obj action k).1 hkm,
          fun j hj => (slot_matches_false_iff cm obj action j).1 (hkmin j hj)⟩
      · rintro ⟨_, hm, hmin⟩
        have h1 : ¬ i < k := fun hlt =>
          absurd hm ((slot_matches_false_iff cm obj action i).1 (hkmin i hlt))
        have h2 : ¬ k < i := fun hlt =>
          absurd ((slot_matches_iff cm obj action k).1 hkm) (hmin k hlt)
        have hki : k = i := by omega
        rw [hki]
  · rcases find_slot_spec cm obj action with ⟨hret, hnone⟩ | ⟨k, hk, hk32, hkm, _⟩
    · rw [hret]
      exact ⟨fun _ i hi => (slot_matches_false_iff cm obj action i).1 (hnone i hi), fun _ => rfl⟩
    · rw [hk]
      constructor
      · intro h; omega
      · intro h
        exact absurd ((slot_matches_iff cm obj action k).1 hkm) (h k hk32)
  · rcases find_slot_spec cm obj action with ⟨hret, _⟩ | ⟨k, hk, hk32, hkm, _⟩
    · exact Or.inl hret
    · exact Or.inr ⟨k, hk32, hk, ((slot_matches_iff cm obj action k).1 hkm).1⟩
  · intro mutex
    rcases find_slot_spec (zero_manager mutex) 0 0 with ⟨hret, _⟩ | ⟨k, _, _, hkm, _⟩
    · exact hret
    · have := ((slot_matches_iff (zero_manager mutex) 0 0 k).1 hkm).1
      rw [show (zero_manager mutex).register_bitmap = fun _ => 0 from rfl,
        bit_registered_zero] at this
      exact absurd this (by decide)

/-! ## Submission -/

theorem submit_reject (cm : comm_manager_t) (took : Bool) (inst : instruction_t)
    (h : took = false ∨ comm_find_instruction_slot_by_info cm inst.obj inst.action = -1 ∨
      ∃ k : Nat, comm_find_instruction_slot_by_info cm inst.obj inst.action = (k : Int) ∧
        (cm.instructions k).state ≠ COMM_COMPLETED) :
    comm_add_instruction_to_execute_queue cm took inst = (-1, cm) := by
  unfold comm_add_instruction_to_execute_queue
  rcases h with h | h | ⟨k, hk, hs⟩
  · simp [h]
  · simp [h]
  · simp [hk, hs]

theorem submit_accept (cm : comm_manager_t) (inst : instruction_t) (k : Nat)
    (hk : comm_find_instruction_slot_by_info cm inst.obj inst.action = (k : Int))
    (hs : (cm.instructions k).state = COMM_COMPLETED) :
    comm_add_instruction_to_execute_queue cm true inst =
      ((k : Int), { cm with
        instructions := Function.update cm.instructions k
          { cm.instructions k with instruction := inst, state := COMM_WAITING },
        execute_queue := xQueueSend cm.execute_queue (k : Int) }) := by
  unfold comm_add_instruction_to_execute_queue
  simp [hk, hs]

theorem submit_from_ISR_eq (cm : comm_manager_t) (took : Bool) (inst : instruction_t) :
    comm_add_instruction_to_execute_queue_from_ISR cm took inst =
      comm_add_instruction_to_execute_queue cm took inst := rfl

/-- C4: when no registered slot carries the instruction's (obj, action), or the
slot the lookup resolves to is in a state other than `COMM_COMPLETED`, the
submission returns a negative value, both queues are as before and every
slot keeps its state and its stored instruction. -/
theorem C4_submit_rejected (cm : comm_manager_t) (took : Bool) (inst : instruction_t)
    (h : (∀ i, i < COMM_MAX_INSTRUCTION_NUM →
          ¬ (bit_registered cm.register_bitmap i = true ∧
            (cm.instructions i).instruction.obj = inst.obj ∧
            (cm.instructions i).instruction.action = inst.action)) ∨
        (∃ i : Nat, comm_find_instruction_slot_by_info cm inst.obj inst.action = (i : Int) ∧
          (cm.instructions i).state ≠ COMM_COMPLETED)) :
    (comm_add_instruction_to_execute_queue cm took inst).1 < 0 ∧
    (comm_add_instruction_to_execute_queue cm took inst).2.execute_queue = cm.execute_queue ∧
    (comm_add_instruction_to_execute_queue cm took inst).2.result_queue = cm.result_queue ∧
    ∀ i, ((comm_add_instruction_to_execute_queue cm took inst).2.instructions i).state
          = (cm.instructions i).state ∧
        ((comm_add_instruction_to_execute_queue cm took inst).2.instructions i).instruction
          = (cm.instructions i).instruction := by
  have hrej : comm_add_instruction_to_execute_queue cm took inst = (-1, cm) := by
    apply submit_reject
    rcases h with h | h
    · right; left
      rcases find_slot_spec cm inst.obj inst.action with ⟨hret, _⟩ | ⟨k, _, hk32, hkm, _⟩
      · exact hret
      · exact absurd ((slot_matches_iff cm inst.obj inst.action k).1 hkm) (h k hk32)
    · right; right
      exact h
  rw [hrej]
  exact ⟨by simp, rfl, rfl, fun _ => ⟨rfl, rfl⟩⟩

/-- C4, witness: a submission for (1, 2) on a fresh manager, where nothing is
registered. -/
theorem C4_submit_rejected_witness :
    (∀ i, i < COMM_MAX_INSTRUCTION_NUM →
      ¬ (bit_registered (zero_manager 1).register_bitmap i = true ∧
        ((zero_manager 1).instructions i).instruction.obj = 1 ∧
        ((zero_manager 1).instructions i).instruction.action = 2)) ∧
    (comm_add_instruction_to_execute_queue (zero_manager 1) true
      { obj := 1, action := 2, para1 := 7, para2 := 0, para_num := 1 }).1 < 0 ∧
    (comm_add_instruction_to_execute_queue (zero_manager 1) true
      { obj := 1, action := 2, para1 := 7, para2 := 0, para_num := 1 }).2.execute_queue = [] :=
  have hnone : ∀ i, i < COMM_MAX_INSTRUCTION_NUM →
      ¬ (bit_registered (zero_manager 1).register_bitmap i = true ∧
        ((zero_manager 1).instructions i).instruction.obj = 1 ∧
        ((zero_manager 1).instructions i).instruction.action = 2) := by
    intro i _ h
    have h1 := h.1
    rw [show (zero_manager 1).register_bitmap = fun _ => 0 from rfl, bit_registered_zero] at h1
    exact absurd h1 (by decide)
  have h := C4_submit_rejected (zero_manager 1) true
    { obj := 1, action := 2, para1 := 7, para2 := 0, para_num := 1 } (Or.inl hnone)
  ⟨hnone, h.1, h.2.1⟩

/-- C5, counterexample to the claim as worded: the slot is found and idle, the
call returns index 0 and marks the slot waiting, but the execute queue is full
and the index is not appended. -/
theorem C5_full_queue_counterexample :
    comm_find_instruction_slot_by_info full_execute_queue_manager 1 2 = 0 ∧
    (full_execute_queue_manager.instructions 0).state = COMM_COMPLETED ∧
    (comm_add_instruction_to_execute_queue full_execute_queue_manager true
      { obj := 1, action := 2, para1 := 7, para2 := 0, para_num := 1 }).1 = 0 ∧
    ((comm_add_instruction_to_execute_queue full_execute_queue_manager true
      { obj := 1, action := 2, para1 := 7, para2 := 0, para_num := 1 }).2.instructions 0).state
      = COMM_WAITING ∧
    (comm_add_instruction_to_execute_queue full_execute_queue_manager true
      { obj := 1, action := 2, para1 := 7, para2 := 0, para_num := 1 }).2.execute_queue
      = full_execute_queue_manager.execute_queue ∧
    (comm_add_instruction_to_execute_queue full_execute_queue_manager true
      { obj := 1, action := 2, para1 := 7, para2 := 0, para_num := 1 }).2.execute_queue
      ≠ full_execute_queue_manager.execute_queue ++ [0] := by
  decide

/-- C5 (as amended): with the lock taken, if the lookup resolves the
instruction to slot `i`, that slot is `COMM_COMPLETED` and the execute queue
holds fewer than 32 entries, the submission returns `i`, slot `i` stores the
submitted instruction and is `COMM_WAITING`, `i` is appended at the tail of
the execute queue, and all other slots, the bitmap and the result queue are
unchanged. -/
theorem C5_submit_accepted (cm : comm_manager_t) (inst : instruction_t) (i : Nat)
    (hfind : comm_find_instruction_slot_by_info cm inst.obj inst.action = (i : Int))
    (hidle : (cm.instructions i).state = COMM_COMPLETED)
    (hroom : cm.execute_queue.length < COMM_MAX_INSTRUCTION_NUM) :
    (comm_add_instruction_to_execute_queue cm true inst).1 = (i : Int) ∧
    ((comm_add_instruction_to_execute_queue cm true inst).2.instructions i).instruction = inst ∧
    ((comm_add_instruction_to_execute_queue cm true inst).2.instructions i).state
      = COMM_WAITING ∧
    (comm_add_instruction_to_execute_queue cm true inst).2.execute_queue
      = cm.execute_queue ++ [(i : Int)] ∧
    (∀ j, j ≠ i →
      (comm_add_instruction_to_execute_queue cm true inst).2.instructions j
        = cm.instructions j) ∧
    (comm_add_instruction_to_execute_queue cm true inst).2.register_bitmap
      = cm.register_bitmap ∧
    (comm_add_instruction_to_execute_queue cm true inst).2.result_queue = cm.result_queue := by
  rw [submit_accept cm inst i hfind hidle]
  refine ⟨rfl, by simp, by simp, by simp [xQueueSend, hroom], ?_, rfl, rfl⟩
  intro j hj
  simp [Function.update_noteq hj]

/-- C5, witness: the first submission after registering (1, 2). -/
theorem C5_submit_accepted_witness :
    comm_find_instruction_slot_by_info one_command_manager 1 2 = ((0 : Nat) : Int) ∧
    (one_command_manager.instructions 0).state = COMM_COMPLETED ∧
    one_command_manager.execute_queue.length < COMM_MAX_INSTRUCTION_NUM ∧
    (comm_add_instruction_to_execute_queue one_command_manager true
      { obj := 1, action := 2, para1 := 7, para2 := 0, para_num := 1 }).1 = ((0 : Nat) : Int) ∧
    ((comm_add_instruction_to_execute_queue one_command_manager true
      { obj := 1, action := 2, para1 := 7, para2 := 0, para_num := 1 }).2.instructions
        0).instruction = { obj := 1, action := 2, para1 := 7, para2 := 0, para_num := 1 } ∧
    ((comm_add_instruction_to_execute_queue one_command_manager true
      { obj := 1, action := 2, para1 := 7, para2 := 0, para_num := 1 }).2.instructions 0).state
      = COMM_WAITING ∧
    (comm_add_instruction_to_execute_queue one_command_manager true
      { obj := 1, action := 2, para1 := 7, para2 := 0, para_num := 1 }).2.execute_queue
      = one_command_manager.execute_queue ++ [((0 : Nat) : Int)] :=
  have h := C5_submit_accepted one_command_manager
    { obj := 1, action := 2, para1 := 7, para2 := 0, para_num := 1 } 0
    (by decide) (by decide) (by decide)
  ⟨by decide, by decide, by decide, h.1, h.2.1, h.2.2.1, h.2.2.2.1⟩

/-! ## Completion notification -/

theorem notify_out_of_range (cm : comm_manager_t) (index : Int) (error_code : Nat)
    (h : index < 0 ∨ (COMM_MAX_INSTRUCTION_NUM : Int) ≤ index) :
    comm_notify_instruction_done cm index error_code = (-1, cm) := by
  unfold comm_notify_instruction_done
  have h2 : index < 0 ∨ index ≥ (COMM_MAX_INSTRUCTION_NUM : Int) := h
  simp only [h2, if_true]

theorem notify_ignored (cm : comm_manager_t) (index : Int) (error_code : Nat)
    (h0 : 0 ≤ index) (h1 : index < (COMM_MAX_INSTRUCTION_NUM : Int))
    (hs : (cm.instructions index.toNat).state ≠ COMM_EXECUTING_ASYNC) :
    comm_notify_instruction_done cm index error_code = (0, cm) := by
  unfold comm_notify_instruction_done
  have h2 : ¬ (index < 0 ∨ index ≥ (COMM_MAX_INSTRUCTION_NUM : Int)) := by omega
  simp only [h2, hs, if_false]

theorem notify_effective (cm : comm_manager_t) (index : Int) (error_code : Nat)
    (h0 : 0 ≤ index) (h1 : index < (COMM_MAX_INSTRUCTION_NUM : Int))
    (hs : (cm.instructions index.toNat).state = COMM_EXECUTING_ASYNC) :
    comm_notify_instruction_done cm index error_code =
      (0, { cm with
        instructions := Function.update cm.instructions index.toNat
          { cm.instructions index.toNat with result_code := error_code },
        result_queue := xQueueSend cm.result_queue index }) := by
  unfold comm_notify_instruction_done
  have h2 : ¬ (index < 0 ∨ index ≥ (COMM_MAX_INSTRUCTION_NUM : Int)) := by omega
  simp only [h2, hs, if_false, if_true]

theorem notify_from_isr_eq (cm : comm_manager_t) (took : Bool) (index : Int)
    (error_code : Nat) :
    comm_notify_instruction_done_from_isr cm took index error_code =
      comm_notify_instruction_done cm index error_code := rfl

/-- C6, counterexample to the claim as worded: after 32 notifications for the
pending async slot 0 the result queue is full; a further notification finds
the slot `COMM_EXECUTING_ASYNC`, returns 0 and stores the code 5, but the
index is not appended to the result queue. -/
theorem C6_full_queue_counterexample :
    (notify_flood_system.cm.instructions 0).state = COMM_EXECUTING_ASYNC ∧
    (comm_notify_instruction_done notify_flood_system.cm 0 5).1 = 0 ∧
    ((comm_notify_instruction_done notify_flood_system.cm 0 5).2.instructions 0).result_code
      = 5 ∧
    (comm_notify_instruction_done notify_flood_system.cm 0 5).2.result_queue
      = notify_flood_system.cm.result_queue ∧
    (comm_notify_instruction_done notify_flood_system.cm 0 5).2.result_queue
      ≠ notify_flood_system.cm.result_queue ++ [0] := by
  decide

/-- C6 (as amended): a notification for an index outside 0..31 returns -1 and
changes nothing; for an in-range index whose slot is not
`COMM_EXECUTING_ASYNC` it returns 0 and leaves every slot and both queues
unchanged; for an in-range index whose slot is `COMM_EXECUTING_ASYNC` it
returns 0, stores the code as the slot's result code without changing the
slot's state or any other slot, leaves the execute queue unchanged, and
appends the index to the result queue when that queue holds fewer than 32
entries. -/
theorem C6_notify_done (cm : comm_manager_t) (index : Int) (error_code : Nat) :
    ((index < 0 ∨ (COMM_MAX_INSTRUCTION_NUM : Int) ≤ index) →
      (comm_notify_instruction_done cm index error_code).1 = -1 ∧
      (comm_notify_instruction_done cm index error_code).2 = cm) ∧
    ((0 ≤ index ∧ index < (COMM_MAX_INSTRUCTION_NUM : Int) ∧
        (cm.instructions index.toNat).state ≠ COMM_EXECUTING_ASYNC) →
      (comm_notify_instruction_done cm index error_code).1 = 0 ∧
      (comm_notify_instruction_done cm index error_code).2.instructions = cm.instructions ∧
      (comm_notify_instruction_done cm index error_code).2.execute_queue = cm.execute_queue ∧
      (comm_notify_instruction_done cm index error_code).2.result_queue = cm.result_queue) ∧
    ((0 ≤ index ∧ index < (COMM_MAX_INSTRUCTION_NUM : Int) ∧
        (cm.instructions index.toNat).state = COMM_EXECUTING_ASYNC) →
      (comm_notify_instruction_done cm index error_code).1 = 0 ∧
      ((comm_notify_instruction_done cm index error_code).2.instructions
        index.toNat).result_code = error_code ∧
      ((comm_notify_instruction_done cm index error_code).2.instructions
        index.toNat).state = COMM_EXECUTING_ASYNC ∧
      (∀ j, j ≠ index.toNat →
        (comm_notify_instruction_done cm index error_code).2.instructions j
          = cm.instructions j) ∧
      (comm_notify_instruction_done cm index error_code).2.execute_queue = cm.execute_queue ∧
      (cm.result_queue.length < COMM_MAX_INSTRUCTION_NUM →
        (comm_notify_instruction_done cm index error_code).2.result_queue
          = cm.result_queue ++ [index])) := by
  refine ⟨?_, ?_, ?_⟩
  · intro h
    rw [notify_out_of_range cm index error_code h]
    exact ⟨rfl, rfl⟩
  · rintro ⟨h0, h1, hs⟩
    rw [notify_ignored cm index error_code h0 h1 hs]
    exact ⟨rfl, rfl, rfl, rfl⟩
  · rintro ⟨h0, h1, hs⟩
    rw [notify_effective cm index error_code h0 h1 hs]
    refine ⟨rfl, by simp, by simpa using hs, ?_, rfl, ?_⟩
    · intro j hj
      simp [Function.update_noteq hj]
    · intro hroom
      simp [xQueueSend, hroom]

/-- C6, witness of the effective case: the first notification for the pending
async slot 0 stores the code and queues the index. -/
theorem C6_notify_done_witness :
    (async_pending_system.cm.instructions 0).state = COMM_EXECUTING_ASYNC ∧
    async_pending_system.cm.result_queue.length < COMM_MAX_INSTRUCTION_NUM ∧
    (comm_notify_instruction_done async_pending_system.cm 0 5).1 = 0 ∧
    ((comm_notify_instruction_done async_pending_system.cm 0 5).2.instructions
      (0 : Int).toNat).result_code = 5 ∧
    (comm_notify_instruction_done async_pending_system.cm 0 5).2.result_queue
      = async_pending_system.cm.result_queue ++ [0] :=
  have h := (C6_notify_done async_pending_system.cm 0 5).2.2
    ⟨by decide, by decide, by decide⟩
  ⟨by decide, by decide, h.1, h.2.1, h.2.2.2.2.2 (by decide)⟩

/-! ## Frame lemmas: what the operations leave alone -/

theorem same_keys_refl (cm : comm_manager_t) : same_keys cm cm :=
  ⟨rfl, fun _ => ⟨rfl, rfl⟩⟩

theorem same_keys_trans {a b c : comm_manager_t} (h1 : same_keys a b) (h2 : same_keys b c) :
    same_keys a c :=
  ⟨h2.1.trans h1.1, fun i => ⟨(h2.2 i).1.trans (h1.2 i).1, (h2.2 i).2.trans (h1.2 i).2⟩⟩

theorem same_keys_of_update (cm cm' : comm_manager_t) (k : Nat)
    (slot : comm_instruction_internal_t)
    (hb : cm'.register_bitmap = cm.register_bitmap)
    (hi : cm'.instructions = Function.update cm.instructions k slot)
    (ho : slot.instruction.obj = (cm.instructions k).instruction.obj)
    (ha : slot.instruction.action = (cm.instructions k).instruction.action) :
    same_keys cm cm' := by
  refine ⟨hb, fun i => ?_⟩
  rw [hi]
  by_cases hik : i = k
  · subst hik
    simp [ho, ha]
  · simp [Function.update_noteq hik]

theorem slot_matches_congr {cm cm' : comm_manager_t} (h : same_keys cm cm') (obj action : Nat) :
    slot_matches cm' obj action = slot_matches cm obj action := by
  funext i
  unfold slot_matches
  rw [h.1, (h.2 i).1, (h.2 i).2]

theorem find_slot_congr {cm cm' : comm_manager_t} (h : same_keys cm cm') (obj action : Nat) :
    comm_find_instruction_slot_by_info cm' obj action
      = comm_find_instruction_slot_by_info cm obj action := by
  unfold comm_find_instruction_slot_by_info
  rw [find_slot_loop_eq, find_slot_loop_eq, slot_matches_congr h]

theorem submit_same_keys (cm : comm_manager_t) (took : Bool) (inst : instruction_t) :
    same_keys cm (comm_add_instruction_to_execute_queue cm took inst).2 := by
  cases took with
  | false =>
    rw [submit_reject cm false inst (Or.inl rfl)]
    exact same_keys_refl cm
  | true =>
    rcases find_slot_spec cm inst.obj inst.action with ⟨hret, _⟩ | ⟨k, hk, _, hkm, _⟩
    · rw [submit_reject cm true inst (Or.inr (Or.inl hret))]
      exact same_keys_refl cm
    · by_cases hs : (cm.instructions k).state = COMM_COMPLETED
      · rw [submit_accept cm inst k hk hs]
        have hm := (slot_matches_iff cm inst.obj inst.action k).1 hkm
        exact same_keys_of_update cm _ k _ rfl rfl hm.2.1.symm hm.2.2.symm
      · rw [submit_reject cm true inst (Or.inr (Or.inr ⟨k, hk, hs⟩))]
        exact same_keys_refl cm

theorem notify_same_keys (cm : comm_manager_t) (index : Int) (error_code : Nat) :
    same_keys cm (comm_notify_instruction_done cm index error_code).2 := by
  by_cases hr : index < 0 ∨ (COMM_MAX_INSTRUCTION_NUM : Int) ≤ index
  · rw [notify_out_of_range cm index error_code hr]
    exact same_keys_refl cm
  · have h0 : 0 ≤ index := by omega
    have h1 : index < (COMM_MAX_INSTRUCTION_NUM : Int) := by omega
    by_cases hs : (cm.instructions index.toNat).state = COMM_EXECUTING_ASYNC
    · rw [notify_effective cm index error_code h0 h1 hs]
      exact same_keys_of_update cm _ index.toNat _ rfl rfl rfl rfl
    · rw [notify_ignored cm index error_code h0 h1 hs]
      exact same_keys_refl cm

theorem begin_same_keys (s : system_t) (now : Nat) :
    same_keys s.cm (comm_manager_task_begin s now).cm := by
  unfold comm_manager_task_begin
  split
  · exact same_keys_of_update s.cm _ _ _ rfl rfl rfl rfl
  · exact same_keys_refl s.cm

theorem finish_same_keys (s : system_t) (err : Nat) :
    same_keys s.cm (comm_manager_task_finish s err).cm := by
  unfold comm_manager_task_finish
  split
  · exact same_keys_refl s.cm
  · dsimp only
    split
    · exact same_keys_of_update s.cm _ _ _ rfl rfl rfl rfl
    · split
      · exact same_keys_of_update s.cm _ _ _ rfl rfl rfl rfl
      · exact same_keys_refl s.cm

theorem result_same_keys (s : system_t) :
    same_keys s.cm (comm_result_task_step s).cm := by
  unfold comm_result_task_step
  split
  · exact same_keys_refl s.cm
  · dsimp only
    split
    · exact same_keys_of_update s.cm _ _ _ rfl rfl rfl rfl
    · exact same_keys_of_update s.cm _ _ _ rfl rfl rfl rfl

theorem timeout_loop_same_keys (now n i : Nat) (cm : comm_manager_t) :
    same_keys cm (comm_timeout_task_loop now n i cm) := by
  induction n generalizing i cm with
  | zero => exact same_keys_refl cm
  | succ n ih =>
    unfold comm_timeout_task_loop
    dsimp only
    refine same_keys_trans ?_ (ih (i + 1) _)
    split
    · split
      · exact same_keys_of_update cm _ i _ rfl rfl rfl rfl
      · exact same_keys_refl cm
    · exact same_keys_refl cm

/-- Every operation other than a registration keeps the bitmap and the stored
(obj, action) of every slot. -/
theorem step_same_keys (hz : Nat) (s : system_t) (op : op_t)
    (hop : ∀ obj action callback is_sync timeout_ms,
      op ≠ op_t.register obj action callback is_sync timeout_ms) :
    same_keys s.cm (step hz s op).cm := by
  cases op with
  | register obj action callback is_sync timeout_ms =>
    exact absurd rfl (hop obj action callback is_sync timeout_ms)
  | submit took inst => exact submit_same_keys s.cm took inst
  | submit_from_ISR took inst => exact submit_same_keys s.cm took inst
  | dispatch_begin now => exact begin_same_keys s now
  | handler_return err => exact finish_same_keys s err
  | notify_done index error_code => exact notify_same_keys s.cm index error_code
  | notify_done_from_isr took index error_code => exact notify_same_keys s.cm index error_code
  | timeout_scan now => exact timeout_loop_same_keys now _ 0 s.cm
  | result_step => exact result_same_keys s

/-! ## Invariants of the registry -/

theorem find_slot_eq_iff (cm : comm_manager_t) (obj action i : Nat) :
    comm_find_instruction_slot_by_info cm obj action = (i : Int) ↔
      (i < COMM_MAX_INSTRUCTION_NUM ∧ slot_matches cm obj action i = true ∧
        ∀ j, j < i → slot_matches cm obj action j = false) := by
  rcases find_slot_spec cm obj action with ⟨hret, hnone⟩ | ⟨k, hk, hk32, hkm, hkmin⟩
  · rw [hret]
    constructor
    · intro h; omega
    · rintro ⟨hi, hm, _⟩
      rw [hnone i hi] at hm
      exact absurd hm (by decide)
  · rw [hk]
    constructor
    · intro h
      have hki : k = i := by omega
      subst hki
      exact ⟨hk32, hkm, hkmin⟩
    · rintro ⟨_, hm, hmin⟩
      have h1 : ¬ i < k := fun hlt => by
        rw [hkmin i hlt] at hm
        exact absurd hm (by decide)
      have h2 : ¬ k < i := fun hlt => by
        rw [hmin k hlt] at hkm
        exact absurd hkm (by decide)
      have hki : k = i := by omega
      rw [hki]

theorem pair_unique_of_same_keys {cm cm' : comm_manager_t} (h : same_keys cm cm')
    (hu : pair_unique cm) : pair_unique cm' := by
  intro i j hi hj hri hrj ho ha
  rw [h.1] at hri hrj
  rw [(h.2 i).1, (h.2 j).1] at ho
  rw [(h.2 i).2, (h.2 j).2] at ha
  exact hu i j hi hj hri hrj ho ha

theorem register_pair_unique (hz : Nat) (cm : comm_manager_t) (obj action callback : Nat)
    (is_sync : Bool) (timeout_ms : Nat) (hu : pair_unique cm)
    (hfresh : comm_find_instruction_slot_by_info cm obj action = -1) :
    pair_unique (comm_register_instruction hz cm obj action callback is_sync timeout_ms).2 := by
  have hnone : ∀ j, j < COMM_MAX_INSTRUCTION_NUM → slot_matches cm obj action j = false := by
    rcases find_slot_spec cm obj action with ⟨_, hnone⟩ | ⟨k, hk, _, _, _⟩
    · exact hnone
    · rw [hk] at hfresh
      omega
  by_cases hm : cm.mutex = 0
  · rw [register_fail hz cm obj action callback is_sync timeout_ms (Or.inl hm)]
    exact hu
  by_cases hc : callback = 0
  · rw [register_fail hz cm obj action callback is_sync timeout_ms (Or.inr (Or.inr hc))]
    exact hu
  rcases find_free_slot_spec cm with ⟨hret, _⟩ | ⟨k, hk, hk32, hkfree, _⟩
  · rw [register_fail hz cm obj action callback is_sync timeout_ms (Or.inr (Or.inl hret))]
    exact hu
  rw [register_success hz cm obj action callback is_sync timeout_ms k hm hk hc]
  intro i j hi hj hri hrj ho ha
  simp only [bit_registered_set, Bool.or_eq_true, decide_eq_true_eq] at hri hrj
  by_cases hik : i = k
  · by_cases hjk : j = k
    · rw [hik, hjk]
    · exfalso
      have hrj2 : bit_registered cm.register_bitmap j = true := by
        rcases hrj with h | h
        · exact absurd h hjk
        · exact h
      subst hik
      simp only [Function.update_same, Function.update_noteq hjk] at ho ha
      have : slot_matches cm obj action j = true :=
        (slot_matches_iff cm obj action j).2 ⟨hrj2, ho.symm, ha.symm⟩
      rw [hnone j hj] at this
      exact absurd this (by decide)
  · have hri2 : bit_registered cm.register_bitmap i = true := by
      rcases hri with h | h
      · exact absurd h hik
      · exact h
    by_cases hjk : j = k
    · exfalso
      subst hjk
      simp only [Function.update_same, Function.update_noteq hik] at ho ha
      have : slot_matches cm obj action i = true :=
        (slot_matches_iff cm obj action i).2 ⟨hri2, ho, ha⟩
      rw [hnone i hi] at this
      exact absurd this (by decide)
    · have hrj2 : bit_registered cm.register_bitmap j = true := by
        rcases hrj with h | h
        · exact absurd h hjk
        · exact h
      simp only [Function.update_noteq hik, Function.update_noteq hjk] at ho ha
      exact hu i j hi hj hri2 hrj2 ho ha

theorem run_pair_unique (hz : Nat) (ops : List op_t) (s : system_t) (hu : pair_unique s.cm)
    (hfresh : fresh_registrations hz s ops = true) : pair_unique (run hz s ops).cm := by
  induction ops generalizing s with
  | nil => exact hu
  | cons op rest ih =>
    simp only [fresh_registrations, Bool.and_eq_true] at hfresh
    have hstep : pair_unique (step hz s op).cm := by
      cases op with
      | register obj action callback is_sync timeout_ms =>
        exact register_pair_unique hz s.cm obj action callback is_sync timeout_ms hu
          (by simpa using hfresh.1)
      | submit took inst =>
        exact pair_unique_of_same_keys (step_same_keys hz s _ (by simp)) hu
      | submit_from_ISR took inst =>
        exact pair_unique_of_same_keys (step_same_keys hz s _ (by simp)) hu
      | dispatch_begin now =>
        exact pair_unique_of_same_keys (step_same_keys hz s _ (by simp)) hu
      | handler_return err =>
        exact pair_unique_of_same_keys (step_same_keys hz s _ (by simp)) hu
      | notify_done index error_code =>
        exact pair_unique_of_same_keys (step_same_keys hz s _ (by simp)) hu
      | notify_done_from_isr took index error_code =>
        exact pair_unique_of_same_keys (step_same_keys hz s _ (by simp)) hu
      | timeout_scan now =>
        exact pair_unique_of_same_keys (step_same_keys hz s _ (by simp)) hu
      | result_step =>
        exact pair_unique_of_same_keys (step_same_keys hz s _ (by simp)) hu
    exact ih (step hz s op) hstep hfresh.2

theorem init_pair_unique (mutex new_inst_cb error_cb done_cb : Nat) :
    pair_unique (init_system mutex new_inst_cb error_cb done_cb).cm := by
  intro i j _ _ hri _ _ _
  have hb : (init_system mutex new_inst_cb error_cb done_cb).cm.register_bitmap = fun _ => 0 := by
    unfold init_system comm_init
    by_cases hm : mutex = 0 <;> simp [hm, zero_manager]
  rw [hb, bit_registered_zero] at hri
  exact absurd hri (by decide)

/-- C9, counterexample to the claim as worded: registering the pair (1, 2) twice
succeeds twice, and afterwards the distinct registered indices 0 and 1 both
hold obj 1 and action 2. -/
theorem C9_duplicate_registration_counterexample :
    bit_registered duplicate_registration_system.cm.register_bitmap 0 = true ∧
    bit_registered duplicate_registration_system.cm.register_bitmap 1 = true ∧
    (duplicate_registration_system.cm.instructions 0).instruction.obj
      = (duplicate_registration_system.cm.instructions 1).instruction.obj ∧
    (duplicate_registration_system.cm.instructions 0).instruction.action
      = (duplicate_registration_system.cm.instructions 1).instruction.action ∧
    (0 : Nat) ≠ 1 := by
  decide

/-- C9 (as amended): in every state reached from `comm_init` by a sequence of
operations in which each registration names a pair that the lookup does not
resolve at the time of the call, no two distinct registered indices hold the
same obj and action. -/
theorem C9_unique_pairs (hz mutex new_inst_cb error_cb done_cb : Nat) (ops : List op_t)
    (hfresh : fresh_registrations hz (init_system mutex new_inst_cb error_cb done_cb) ops
      = true) :
    ∀ i j, i < COMM_MAX_INSTRUCTION_NUM → j < COMM_MAX_INSTRUCTION_NUM →
      bit_registered
        (run hz (init_system mutex new_inst_cb error_cb done_cb) ops).cm.register_bitmap i
        = true →
      bit_registered
        (run hz (init_system mutex new_inst_cb error_cb done_cb) ops).cm.register_bitmap j
        = true →
      ((run hz (init_system mutex new_inst_cb error_cb done_cb) ops).cm.instructions
          i).instruction.obj
        = ((run hz (init_system mutex new_inst_cb error_cb done_cb) ops).cm.instructions
          j).instruction.obj →
      ((run hz (init_system mutex new_inst_cb error_cb done_cb) ops).cm.instructions
          i).instruction.action
        = ((run hz (init_system mutex new_inst_cb error_cb done_cb) ops).cm.instructions
          j).instruction.action →
      i = j :=
  run_pair_unique hz ops _ (init_pair_unique mutex new_inst_cb error_cb done_cb) hfresh

/-- C9, witness: two registrations of different pairs followed by a
submission. -/
theorem C9_unique_pairs_witness :
    fresh_registrations 1000 (init_system 1 11 12 13) distinct_registration_ops = true ∧
    ∀ i j, i < COMM_MAX_INSTRUCTION_NUM → j < COMM_MAX_INSTRUCTION_NUM →
      bit_registered
        (run 1000 (init_system 1 11 12 13) distinct_registration_ops).cm.register_bitmap i
        = true →
      bit_registered
        (run 1000 (init_system 1 11 12 13) distinct_registration_ops).cm.register_bitmap j
        = true →
      ((run 1000 (init_system 1 11 12 13) distinct_registration_ops).cm.instructions
          i).instruction.obj
        = ((run 1000 (init_system 1 11 12 13) distinct_registration_ops).cm.instructions
          j).instruction.obj →
      ((run 1000 (init_system 1 11 12 13) distinct_registration_ops).cm.instructions
          i).instruction.action
        = ((run 1000 (init_system 1 11 12 13) distinct_registration_ops).cm.instructions
          j).instruction.action →
      i = j :=
  ⟨by decide, C9_unique_pairs 1000 1 11 12 13 distinct_registration_ops (by decide)⟩

/-! ## Stability of the lookup -/

theorem prefix_registered_of_same_keys {cm cm' : comm_manager_t} (h : same_keys cm cm')
    (hp : prefix_registered cm) : prefix_registered cm' := by
  intro i j hji hi hri
  rw [h.1] at hri ⊢
  exact hp i j hji hi hri

theorem register_prefix_registered (hz : Nat) (cm : comm_manager_t)
    (obj action callback : Nat) (is_sync : Bool) (timeout_ms : Nat)
    (hp : prefix_registered cm) :
    prefix_registered
      (comm_register_instruction hz cm obj action callback is_sync timeout_ms).2 := by
  by_cases hm : cm.mutex = 0
  · rw [register_fail hz cm obj action callback is_sync timeout_ms (Or.inl hm)]
    exact hp
  by_cases hc : callback = 0
  · rw [register_fail hz cm obj action callback is_sync timeout_ms (Or.inr (Or.inr hc))]
    exact hp
  rcases find_free_slot_spec cm with ⟨hret, _⟩ | ⟨k, hk, hk32, hkfree, hkmin⟩
  · rw [register_fail hz cm obj action callback is_sync timeout_ms (Or.inr (Or.inl hret))]
    exact hp
  rw [register_success hz cm obj action callback is_sync timeout_ms k hm hk hc]
  intro i j hji hi hri
  simp only [bit_registered_set, Bool.or_eq_true, decide_eq_true_eq] at hri ⊢
  rcases hri with h | h
  · right
    exact hkmin j (by omega)
  · right
    exact hp i j hji hi h

theorem register_find_stable (hz : Nat) (cm : comm_manager_t)
    (obj action callback : Nat) (is_sync : Bool) (timeout_ms : Nat)
    (hp : prefix_registered cm) (o a i : Nat)
    (hfind : comm_find_instruction_slot_by_info cm o a = (i : Int)) :
    comm_find_instruction_slot_by_info
      (comm_register_instruction hz cm obj action callback is_sync timeout_ms).2 o a
      = (i : Int) := by
  by_cases hm : cm.mutex = 0
  · rw [register_fail hz cm obj action callback is_sync timeout_ms (Or.inl hm)]
    exact hfind
  by_cases hc : callback = 0
  · rw [register_fail hz cm obj action callback is_sync timeout_ms (Or.inr (Or.inr hc))]
    exact hfind
  rcases find_free_slot_spec cm with ⟨hret, _⟩ | ⟨k, hk, hk32, hkfree, hkmin⟩
  · rw [register_fail hz cm obj action callback is_sync timeout_ms (Or.inr (Or.inl hret))]
    exact hfind
  rw [register_success hz cm obj action callback is_sync timeout_ms k hm hk hc]
  obtain ⟨hi32, him, himin⟩ := (find_slot_eq_iff cm o a i).1 hfind
  have hri : bit_registered cm.register_bitmap i = true :=
    ((slot_matches_iff cm o a i).1 him).1
  have hik : i < k := by
    by_contra hge
    have hne : i ≠ k := by
      intro h
      rw [h, hkfree] at hri
      exact absurd hri (by decide)
    have hrk := hp i k (by omega) hi32 hri
    rw [hkfree] at hrk
    exact absurd hrk (by decide)
  have hsame : ∀ j, j ≠ k →
      slot_matches
        { cm with
          instructions := Function.update cm.instructions k
            { cm.instructions k with
              instruction := { (cm.instructions k).instruction with
                obj := obj, action := action },
              executor := callback,
              is_sync := is_sync,
              timeout := if timeout_ms = 0 then pdMS_TO_TICKS hz 10
                else pdMS_TO_TICKS hz timeout_ms,
              state := COMM_COMPLETED },
          register_bitmap := Function.update cm.register_bitmap (k >>> 3)
            (cm.register_bitmap (k >>> 3) ||| (1 <<< (k &&& 0x07))) } o a j
        = slot_matches cm o a j := by
    intro j hj
    unfold slot_matches
    simp only [bit_registered_set, Function.update_noteq hj, hj, decide_False, Bool.false_or]
  rw [find_slot_eq_iff]
  refine ⟨hi32, ?_, ?_⟩
  · rw [hsame i (by omega)]
    exact him
  · intro j hj
    rw [hsame j (by omega)]
    exact himin j hj

theorem step_prefix_registered (hz : Nat) (s : system_t) (op : op_t)
    (hp : prefix_registered s.cm) : prefix_registered (step hz s op).cm := by
  cases op with
  | register obj action callback is_sync timeout_ms =>
    exact register_prefix_registered hz s.cm obj action callback is_sync timeout_ms hp
  | submit took inst =>
    exact prefix_registered_of_same_keys (step_same_keys hz s _ (by simp)) hp
  | submit_from_ISR took inst =>
    exact prefix_registered_of_same_keys (step_same_keys hz s _ (by simp)) hp
  | dispatch_begin now =>
    exact prefix_registered_of_same_keys (step_same_keys hz s _ (by simp)) hp
  | handler_return err =>
    exact prefix_registered_of_same_keys (step_same_keys hz s _ (by simp)) hp
  | notify_done index error_code =>
    exact prefix_registered_of_same_keys (step_same_keys hz s _ (by simp)) hp
  | notify_done_from_isr took index error_code =>
    exact prefix_registered_of_same_keys (step_same_keys hz s _ (by simp)) hp
  | timeout_scan now =>
    exact prefix_registered_of_same_keys (step_same_keys hz s _ (by simp)) hp
  | result_step =>
    exact prefix_registered_of_same_keys (step_same_keys hz s _ (by simp)) hp

theorem step_find_stable (hz : Nat) (s : system_t) (op : op_t)
    (hp : prefix_registered s.cm) (o a i : Nat)
    (hfind : comm_find_instruction_slot_by_info s.cm o a = (i : Int)) :
    comm_find_instruction_slot_by_info (step hz s op).cm o a = (i : Int) := by
  cases op with
  | register obj action callback is_sync timeout_ms =>
    exact register_find_stable hz s.cm obj action callback is_sync timeout_ms hp o a i hfind
  | submit took inst =>
    rw [find_slot_congr (step_same_keys hz s _ (by simp))]; exact hfind
  | submit_from_ISR took inst =>
    rw [find_slot_congr (step_same_keys hz s _ (by simp))]; exact hfind
  | dispatch_begin now =>
    rw [find_slot_congr (step_same_keys hz s _ (by simp))]; exact hfind
  | handler_return err =>
    rw [find_slot_congr (step_same_keys hz s _ (by simp))]; exact hfind
  | notify_done index error_code =>
    rw [find_slot_congr (step_same_keys hz s _ (by simp))]; exact hfind
  | notify_done_from_isr took index error_code =>
    rw [find_slot_congr (step_same_keys hz s _ (by simp))]; exact hfind
  | timeout_scan now =>
    rw [find_slot_congr (step_same_keys hz s _ (by simp))]; exact hfind
  | result_step =>
    rw [find_slot_congr (step_same_keys hz s _ (by simp))]; exact hfind

theorem run_prefix_registered (hz : Nat) (ops : List op_t) (s : system_t)
    (hp : prefix_registered s.cm) : prefix_registered (run hz s ops).cm := by
  induction ops generalizing s with
  | nil => exact hp
  | cons op rest ih => exact ih (step hz s op) (step_prefix_registered hz s op hp)

theorem run_find_stable (hz : Nat) (ops : List op_t) (s : system_t)
    (hp : prefix_registered s.cm) (o a i : Nat)
    (hfind : comm_find_instruction_slot_by_info s.cm o a = (i : Int)) :
    comm_find_instruction_slot_by_info (run hz s ops).cm o a = (i : Int) := by
  induction ops generalizing s with
  | nil => exact hfind
  | cons op rest ih =>
    exact ih (step hz s op) (step_prefix_registered hz s op hp)
      (step_find_stable hz s op hp o a i hfind)

theorem init_prefix_registered (mutex new_inst_cb error_cb done_cb : Nat) :
    prefix_registered (init_system mutex new_inst_cb error_cb done_cb).cm := by
  intro i j _ _ hri
  have hb : (init_system mutex new_inst_cb error_cb done_cb).cm.register_bitmap = fun _ => 0 := by
    unfold init_system comm_init
    by_cases hm : mutex = 0 <;> simp [hm, zero_manager]
  rw [hb, bit_registered_zero] at hri
  exact absurd hri (by decide)

theorem reachable_prefix_registered (hz : Nat) (s : system_t) (h : reachable hz s) :
    prefix_registered s.cm := by
  obtain ⟨mutex, n, e, d, ops, _, hs⟩ := h
  rw [hs]
  exact run_prefix_registered hz ops _ (init_prefix_registered mutex n e d)

/-- C10: in a reachable state, if the lookup of (obj, action) returns the index
`i`, then after any further sequence of operations (registrations of any pair,
submissions, dispatch steps, notifications, monitor scans, result steps) the
lookup still returns `i` and index `i` is still marked registered. -/
theorem C10_stable_index (hz : Nat) (s : system_t) (obj action i : Nat)
    (hreach : reachable hz s)
    (hfind : comm_find_instruction_slot_by_info s.cm obj action = (i : Int))
    (ops : List op_t) :
    comm_find_instruction_slot_by_info (run hz s ops).cm obj action = (i : Int) ∧
    bit_registered (run hz s ops).cm.register_bitmap i = true := by
  have hstable := run_find_stable hz ops s (reachable_prefix_registered hz s hreach)
    obj action i hfind
  refine ⟨hstable, ?_⟩
  have hm := ((find_slot_eq_iff (run hz s ops).cm obj action i).1 hstable).2.1
  exact ((slot_matches_iff (run hz s ops).cm obj action i).1 hm).1

/-- C10, witness: the pair (1, 2) registered first stays at index 0 through a
second registration of the same pair, another registration and a complete
asynchronous cycle. -/
theorem C10_stable_index_witness :
    reachable 1000 (run 1000 (init_system 1 11 12 13) [op_t.register 1 2 9 false 100]) ∧
    comm_find_instruction_slot_by_info
      (run 1000 (init_system 1 11 12 13) [op_t.register 1 2 9 false 100]).cm 1 2
      = ((0 : Nat) : Int) ∧
    comm_find_instruction_slot_by_info
      (run 1000 (run 1000 (init_system 1 11 12 13) [op_t.register 1 2 9 false 100])
        later_ops).cm 1 2 = ((0 : Nat) : Int) ∧
    bit_registered
      (run 1000 (run 1000 (init_system 1 11 12 13) [op_t.register 1 2 9 false 100])
        later_ops).cm.register_bitmap 0 = true :=
  have hreach : reachable 1000
      (run 1000 (init_system 1 11 12 13) [op_t.register 1 2 9 false 100]) :=
    ⟨1, 11, 12, 13, [op_t.register 1 2 9 false 100], by decide, rfl⟩
  ⟨hreach, by decide,
    C10_stable_index 1000 _ 1 2 0 hreach (by decide) later_ops⟩

/-! ## Double completion of one execution -/

/-- C7, failing execution: the monitor scan and a notification both queue index
0 on the result queue. The first result step frees the slot, a submission is
accepted and queues index 0 for execution, the second result step frees the
slot again while index 0 is still in the execute queue, and a further
submission is accepted: index 0 is then twice in the execute queue. -/
theorem C7_single_flight_failing_execution :
    (run 1000 (init_system 1 11 12 13) double_completion_ops).cm.result_queue = [0, 0] ∧
    (run 1000 (init_system 1 11 12 13)
      (double_completion_ops ++
        [op_t.result_step, op_t.submit true inst_1_2, op_t.result_step])).cm.execute_queue
      = [0] ∧
    ((run 1000 (init_system 1 11 12 13)
      (double_completion_ops ++
        [op_t.result_step, op_t.submit true inst_1_2, op_t.result_step])).cm.instructions
      0).state = COMM_COMPLETED ∧
    (run 1000 (init_system 1 11 12 13)
      (double_completion_ops ++
        [op_t.result_step, op_t.submit true inst_1_2, op_t.result_step,
         op_t.submit true inst_1_2])).cm.execute_queue
      = [0, 0] := by
  decide

/-- C8, failing execution: with all callbacks configured, one accepted
submission to slot 0 is completed by the monitor scan and by a notification
with code 5; the two result steps invoke the error callback and then the
success callback for slot 0, two completion callbacks for one submission. -/
theorem C8_callback_failing_execution :
    accepted_submissions 1000 (init_system 1 11 12 13)
      (double_completion_ops ++ [op_t.result_step, op_t.result_step]) 0 = 1 ∧
    (run 1000 (init_system 1 11 12 13)
      (double_completion_ops ++ [op_t.result_step, op_t.result_step])).trace
      = [callback_event.new_inst_call inst_1_2,
         callback_event.executor_call 9 inst_1_2 0,
         callback_event.error_call 0 inst_1_2 5,
         callback_event.done_call 0 inst_1_2] ∧
    completion_calls 0
      (run 1000 (init_system 1 11 12 13)
        (double_completion_ops ++ [op_t.result_step, op_t.result_step])).trace = 2 ∧
    ((run 1000 (init_system 1 11 12 13)
      (double_completion_ops ++ [op_t.result_step, op_t.result_step])).cm.instructions
      0).state = COMM_COMPLETED := by
  decide

/-- The situation of the C5 counterexample arises in an execution started by
`comm_init`: after `fill_execute_queue_ops` the execute queue holds 32
entries, slot 0 is registered for (1, 0) and idle, and a submission for (1, 0)
returns 0 without appending to the execute queue. -/
theorem full_execute_queue_reachable :
    reachable 1000 fill_execute_queue_system ∧
    fill_execute_queue_system.cm.execute_queue.length = 32 ∧
    comm_find_instruction_slot_by_info fill_execute_queue_system.cm 1 0 = 0 ∧
    (fill_execute_queue_system.cm.instructions 0).state = COMM_COMPLETED ∧
    (comm_add_instruction_to_execute_queue fill_execute_queue_system.cm true
      (inst_of_obj 1)).1 = 0 ∧
    (comm_add_instruction_to_execute_queue fill_execute_queue_system.cm true
      (inst_of_obj 1)).2.execute_queue = fill_execute_queue_system.cm.execute_queue :=
  ⟨⟨1, 11, 12, 13, fill_execute_queue_ops, by decide, rfl⟩, by decide⟩

/-- The double completion does not need a notification: when a handler outlives
its timeout, the slot is completed by the monitor while the handler runs, and
the handler's later error return queues the index again. One accepted
submission then gets two error callbacks (the timeout sentinel, then the
handler's code 5). -/
theorem handler_overrun_double_callback :
    ((run 1000 (init_system 1 11 12 13) handler_overrun_ops).cm.instructions 0).state
      = COMM_COMPLETED ∧
    (run 1000 (init_system 1 11 12 13) handler_overrun_ops).dispatch
      = some { idx := 0, inst_copy := inst_1_2, executor := 9, is_sync := false } ∧
    accepted_submissions 1000 (init_system 1 11 12 13)
      (handler_overrun_ops ++ [op_t.handler_return 5, op_t.result_step]) 0 = 1 ∧
    (run 1000 (init_system 1 11 12 13)
      (handler_overrun_ops ++ [op_t.handler_return 5, op_t.result_step])).trace
      = [callback_event.new_inst_call inst_1_2,
         callback_event.error_call 0 inst_1_2 COMM_TIMEOUT_ERROR,
         callback_event.executor_call 9 inst_1_2 5,
         callback_event.error_call 0 inst_1_2 5] := by
  decide

/-! ## Interrupt-context variants -/

/-- C14, counterexample to the claim as worded. First, with the semaphore take
failing, `comm_notify_instruction_done_from_isr` on the pending async slot 0
still returns 0, stores the code 5 and queues the index. Second, with the take
succeeding and the execute queue full, `comm_add_instruction_to_execute_queue_from_ISR`
returns the index 0 (success) and rewrites the slot although nothing is
queued. -/
theorem C14_isr_counterexample :
    (comm_notify_instruction_done_from_isr async_pending_system.cm false 0 5).1 = 0 ∧
    (async_pending_system.cm.instructions 0).result_code = 0 ∧
    ((comm_notify_instruction_done_from_isr async_pending_system.cm false 0 5).2.instructions
      0).result_code = 5 ∧
    async_pending_system.cm.result_queue = [] ∧
    (comm_notify_instruction_done_from_isr async_pending_system.cm false 0 5).2.result_queue
      = [0] ∧
    full_execute_queue_manager.execute_queue.length = COMM_MAX_INSTRUCTION_NUM ∧
    (comm_add_instruction_to_execute_queue_from_ISR full_execute_queue_manager true
      inst_1_2).1 = 0 ∧
    (full_execute_queue_manager.instructions 0).state = COMM_COMPLETED ∧
    ((comm_add_instruction_to_execute_queue_from_ISR full_execute_queue_manager true
      inst_1_2).2.instructions 0).state = COMM_WAITING := by
  decide

/-- C14 (as amended): when the semaphore take fails,
`comm_add_instruction_to_execute_queue_from_ISR` returns -1 and leaves the
manager as it was. A full target queue is not reported as a failure: with the
take succeeding, an admissible submission on a full execute queue still
returns the slot index and stores the instruction with state `COMM_WAITING`,
and a notification for a `COMM_EXECUTING_ASYNC` slot on a full result queue
still returns 0 and stores the result code; in both cases only the index is
dropped and neither queue changes. -/
theorem C14_isr_fail_fast (cm : comm_manager_t) (inst : instruction_t) (index : Int)
    (error_code : Nat) :
    comm_add_instruction_to_execute_queue_from_ISR cm false inst = (-1, cm) ∧
    (∀ i : Nat, comm_find_instruction_slot_by_info cm inst.obj inst.action = (i : Int) →
      (cm.instructions i).state = COMM_COMPLETED →
      COMM_MAX_INSTRUCTION_NUM ≤ cm.execute_queue.length →
      (comm_add_instruction_to_execute_queue_from_ISR cm true inst).1 = (i : Int) ∧
      ((comm_add_instruction_to_execute_queue_from_ISR cm true inst).2.instructions
        i).instruction = inst ∧
      ((comm_add_instruction_to_execute_queue_from_ISR cm true inst).2.instructions
        i).state = COMM_WAITING ∧
      (comm_add_instruction_to_execute_queue_from_ISR cm true inst).2.execute_queue
        = cm.execute_queue ∧
      (comm_add_instruction_to_execute_queue_from_ISR cm true inst).2.result_queue
        = cm.result_queue) ∧
    (0 ≤ index → index < (COMM_MAX_INSTRUCTION_NUM : Int) →
      (cm.instructions index.toNat).state = COMM_EXECUTING_ASYNC →
      COMM_MAX_INSTRUCTION_NUM ≤ cm.result_queue.length →
      (comm_notify_instruction_done_from_isr cm true index error_code).1 = 0 ∧
      ((comm_notify_instruction_done_from_isr cm true index error_code).2.instructions
        index.toNat).result_code = error_code ∧
      (comm_notify_instruction_done_from_isr cm true index error_code).2.execute_queue
        = cm.execute_queue ∧
      (comm_notify_instruction_done_from_isr cm true index error_code).2.result_queue
        = cm.result_queue) := by
  refine ⟨?_, ?_, ?_⟩
  · rw [submit_from_ISR_eq]
    exact submit_reject cm false inst (Or.inl rfl)
  · intro i hfind hidle hfull
    rw [submit_from_ISR_eq, submit_accept cm inst i hfind hidle]
    have hnot : ¬ cm.execute_queue.length < COMM_MAX_INSTRUCTION_NUM := by omega
    exact ⟨rfl, by simp, by simp, by simp [xQueueSend, hnot], rfl⟩
  · intro h0 h1 hs hfull
    rw [notify_from_isr_eq, notify_effective cm index error_code h0 h1 hs]
    have hnot : ¬ cm.result_queue.length < COMM_MAX_INSTRUCTION_NUM := by omega
    exact ⟨rfl, by simp, rfl, by simp [xQueueSend, hnot]⟩

/-- C14, witness: an interrupt-context submission for the registered pair (1, 2)
whose semaphore take fails. -/
theorem C14_isr_fail_fast_witness :
    comm_add_instruction_to_execute_queue_from_ISR one_command_manager false inst_1_2
      = (-1, one_command_manager) :=
  (C14_isr_fail_fast one_command_manager inst_1_2 0 0).1

/-! ## The result step -/

theorem result_step_zero (s : system_t) (idx : Int) (rest : List Int)
    (hq : s.cm.result_queue = idx :: rest)
    (hc : (s.cm.instructions idx.toNat).result_code = 0) :
    comm_result_task_step s =
      { cm := { s.cm with
          result_queue := rest,
          instructions := Function.update s.cm.instructions idx.toNat
            { s.cm.instructions idx.toNat with state := COMM_COMPLETED } },
        dispatch := s.dispatch,
        trace := if s.cm.done_cb ≠ 0 then
            s.trace ++ [callback_event.done_call idx (s.cm.instructions idx.toNat).instruction]
          else s.trace } := by
  unfold comm_result_task_step
  rw [hq]
  simp only [hc, if_true]

theorem result_step_nonzero (s : system_t) (idx : Int) (rest : List Int)
    (hq : s.cm.result_queue = idx :: rest)
    (hc : (s.cm.instructions idx.toNat).result_code ≠ 0) :
    comm_result_task_step s =
      { cm := { s.cm with
          result_queue := rest,
          instructions := Function.update s.cm.instructions idx.toNat
            { s.cm.instructions idx.toNat with result_code := 0, state := COMM_COMPLETED } },
        dispatch := s.dispatch,
        trace := if s.cm.error_cb ≠ 0 then
            s.trace ++ [callback_event.error_call idx
              (s.cm.instructions idx.toNat).instruction
              (s.cm.instructions idx.toNat).result_code]
          else s.trace } := by
  unfold comm_result_task_step
  rw [hq]
  simp only [hc, if_false]

theorem result_step_empty (s : system_t) (hq : s.cm.result_queue = []) :
    comm_result_task_step s = s := by
  unfold comm_result_task_step
  rw [hq]

/-- C16: the result step for the index `i` at the head of the result queue,
with `c` the result code of slot `i`: if `c = 0` exactly the success callback
is invoked, with the stored instruction; if `c ≠ 0` exactly the error callback
is invoked, with the stored instruction and `c` (a callback pointer that is
null is skipped, and then nothing is invoked). In both cases slot `i` ends
`COMM_COMPLETED` with result code 0, its instruction, handler, sync flag,
timeout and start time are unchanged, every other slot, the bitmap and the
execute queue are unchanged, and the index has left the result queue. -/
theorem C16_result_step (s : system_t) (i : Nat) (rest : List Int)
    (hq : s.cm.result_queue = (i : Int) :: rest) :
    ((s.cm.instructions i).result_code = 0 →
      (comm_result_task_step s).trace =
        if s.cm.done_cb ≠ 0 then
          s.trace ++ [callback_event.done_call (i : Int) (s.cm.instructions i).instruction]
        else s.trace) ∧
    ((s.cm.instructions i).result_code ≠ 0 →
      (comm_result_task_step s).trace =
        if s.cm.error_cb ≠ 0 then
          s.trace ++ [callback_event.error_call (i : Int) (s.cm.instructions i).instruction
            (s.cm.instructions i).result_code]
        else s.trace) ∧
    ((comm_result_task_step s).cm.instructions i).state = COMM_COMPLETED ∧
    ((comm_result_task_step s).cm.instructions i).result_code = 0 ∧
    ((comm_result_task_step s).cm.instructions i).instruction
      = (s.cm.instructions i).instruction ∧
    ((comm_result_task_step s).cm.instructions i).executor = (s.cm.instructions i).executor ∧
    ((comm_result_task_step s).cm.instructions i).is_sync = (s.cm.instructions i).is_sync ∧
    ((comm_result_task_step s).cm.instructions i).timeout = (s.cm.instructions i).timeout ∧
    ((comm_result_task_step s).cm.instructions i).start_time
      = (s.cm.instructions i).start_time ∧
    (∀ j, j ≠ i → (comm_result_task_step s).cm.instructions j = s.cm.instructions j) ∧
    (comm_result_task_step s).cm.register_bitmap = s.cm.register_bitmap ∧
    (comm_result_task_step s).cm.execute_queue = s.cm.execute_queue ∧
    (comm_result_task_step s).cm.result_queue = rest := by
  have hi : ((i : Int)).toNat = i := Int.toNat_natCast i
  by_cases hc : (s.cm.instructions i).result_code = 0
  · have hc2 : (s.cm.instructions ((i : Int)).toNat).result_code = 0 := by rw [hi]; exact hc
    rw [result_step_zero s (i : Int) rest hq hc2, hi]
    refine ⟨fun _ => rfl, fun h => absurd hc h, by simp, by simpa using hc, by simp, by simp,
      by simp, by simp, by simp, ?_, rfl, rfl, rfl⟩
    intro j hj
    simp [Function.update_noteq hj]
  · have hc2 : (s.cm.instructions ((i : Int)).toNat).result_code ≠ 0 := by rw [hi]; exact hc
    rw [result_step_nonzero s (i : Int) rest hq hc2, hi]
    refine ⟨fun h => absurd h hc, fun _ => rfl, by simp, by simp, by simp, by simp,
      by simp, by simp, by simp, ?_, rfl, rfl, rfl⟩
    intro j hj
    simp [Function.update_noteq hj]

/-- C16, witness: the result step after one notification with code 5 for the
pending async slot 0, with all callbacks configured. -/
theorem C16_result_step_witness :
    (run 1000 async_pending_system [op_t.notify_done 0 5]).cm.result_queue
      = ((0 : Nat) : Int) :: [] ∧
    (comm_result_task_step (run 1000 async_pending_system [op_t.notify_done 0 5])).trace
      = (run 1000 async_pending_system [op_t.notify_done 0 5]).trace ++
        [callback_event.error_call 0 inst_1_2 5] ∧
    ((comm_result_task_step
      (run 1000 async_pending_system [op_t.notify_done 0 5])).cm.instructions 0).state
      = COMM_COMPLETED ∧
    ((comm_result_task_step
      (run 1000 async_pending_system [op_t.notify_done 0 5])).cm.instructions 0).result_code
      = 0 :=
  have h := C16_result_step (run 1000 async_pending_system [op_t.notify_done 0 5]) 0 []
    (by decide)
  ⟨by decide, by decide, h.2.2.1, h.2.2.2.1⟩

/-! ## The dispatch step -/

/-- C15, counterexample to the claim as worded: the sync command at index 1 is
dispatched while the result queue is full; its handler returns 0, the result
code is 0, but index 1 is not appended to the result queue (and the slot stays
`COMM_EXECUTING_SYNC`). -/
theorem C15_full_queue_counterexample :
    full_result_queue_system.dispatch = none ∧
    full_result_queue_system.cm.execute_queue = [1] ∧
    bit_registered full_result_queue_system.cm.register_bitmap 1 = true ∧
    (full_result_queue_system.cm.instructions 1).is_sync = true ∧
    full_result_queue_system.cm.result_queue.length = COMM_MAX_INSTRUCTION_NUM ∧
    ((comm_manager_task_finish (comm_manager_task_begin full_result_queue_system 5)
      0).cm.instructions 1).state = COMM_EXECUTING_SYNC ∧
    (comm_manager_task_finish (comm_manager_task_begin full_result_queue_system 5)
      0).cm.result_queue = full_result_queue_system.cm.result_queue ∧
    (comm_manager_task_finish (comm_manager_task_begin full_result_queue_system 5)
      0).cm.result_queue ≠ full_result_queue_system.cm.result_queue ++ [1] := by
  decide

theorem begin_step (s : system_t) (now : Nat) (idx : Int) (rest : List Int)
    (hd : s.dispatch = none) (hq : s.cm.execute_queue = idx :: rest) :
    comm_manager_task_begin s now =
      { cm := { s.cm with
          execute_queue := rest,
          instructions := Function.update s.cm.instructions idx.toNat
            { s.cm.instructions idx.toNat with
              state := if (s.cm.instructions idx.toNat).is_sync then COMM_EXECUTING_SYNC
                else COMM_EXECUTING_ASYNC,
              start_time := now } },
        dispatch := if (s.cm.instructions idx.toNat).executor ≠ 0 then
            some { idx := idx, inst_copy := (s.cm.instructions idx.toNat).instruction,
                   executor := (s.cm.instructions idx.toNat).executor,
                   is_sync := (s.cm.instructions idx.toNat).is_sync }
          else none,
        trace := if s.cm.new_inst_cb ≠ 0 then
            s.trace ++
              [callback_event.new_inst_call (s.cm.instructions idx.toNat).instruction]
          else s.trace } := by
  unfold comm_manager_task_begin
  rw [hd, hq]

theorem begin_blocked (s : system_t) (now : Nat)
    (h : s.dispatch ≠ none ∨ s.cm.execute_queue = []) :
    comm_manager_task_begin s now = s := by
  unfold comm_manager_task_begin
  rcases h with h | h
  · cases hd : s.dispatch with
    | none => exact absurd hd h
    | some l => rfl
  · rw [h]
    cases s.dispatch <;> rfl

theorem finish_step (s : system_t) (err : Nat) (l : dispatch_locals)
    (hd : s.dispatch = some l) :
    comm_manager_task_finish s err =
      if err ≠ 0 then
        { cm := { s.cm with
            instructions := Function.update s.cm.instructions l.idx.toNat
              { s.cm.instructions l.idx.toNat with result_code := err },
            result_queue := xQueueSend s.cm.result_queue l.idx },
          dispatch := none,
          trace := s.trace ++ [callback_event.executor_call l.executor l.inst_copy err] }
      else if l.is_sync then
        { cm := { s.cm with
            instructions := Function.update s.cm.instructions l.idx.toNat
              { s.cm.instructions l.idx.toNat with result_code := 0 },
            result_queue := xQueueSend s.cm.result_queue l.idx },
          dispatch := none,
          trace := s.trace ++ [callback_event.executor_call l.executor l.inst_copy err] }
      else
        { cm := s.cm, dispatch := none,
          trace := s.trace ++ [callback_event.executor_call l.executor l.inst_copy err] } := by
  unfold comm_manager_task_finish
  rw [hd]

theorem finish_idle (s : system_t) (err : Nat) (hd : s.dispatch = none) :
    comm_manager_task_finish s err = s := by
  unfold comm_manager_task_finish
  rw [hd]

/-- C15 (as amended): a dispatch step (both halves, the handler returning `err`)
for the index `i` at the head of the execute queue, whose slot has a handler
(as every registered slot has): afterwards slot `i` is `COMM_EXECUTING_SYNC`
if its binding is synchronous and `COMM_EXECUTING_ASYNC` otherwise, its start
time is the tick read at dispatch, and the handler was called with a copy
equal to the stored instruction (after the new-instruction callback, when one
is configured). If `err ≠ 0` the result code is `err`; else if the binding is
synchronous the result code is 0; in these two cases `i` is appended to the
result queue when that queue holds fewer than 32 entries. Otherwise
(asynchronous, `err = 0`) the result code and the result queue are
unchanged. -/
theorem C15_dispatch_routing (s : system_t) (now err i : Nat) (rest : List Int)
    (hd : s.dispatch = none) (hq : s.cm.execute_queue = (i : Int) :: rest)
    (hex : (s.cm.instructions i).executor ≠ 0) :
    ((comm_manager_task_finish (comm_manager_task_begin s now) err).cm.instructions i).state
      = (if (s.cm.instructions i).is_sync then COMM_EXECUTING_SYNC
          else COMM_EXECUTING_ASYNC) ∧
    ((comm_manager_task_finish (comm_manager_task_begin s now) err).cm.instructions
      i).start_time = now ∧
    (comm_manager_task_finish (comm_manager_task_begin s now) err).trace
      = (if s.cm.new_inst_cb ≠ 0 then
          s.trace ++ [callback_event.new_inst_call (s.cm.instructions i).instruction]
        else s.trace) ++
        [callback_event.executor_call (s.cm.instructions i).executor
          (s.cm.instructions i).instruction err] ∧
    (err ≠ 0 →
      ((comm_manager_task_finish (comm_manager_task_begin s now) err).cm.instructions
        i).result_code = err ∧
      (s.cm.result_queue.length < COMM_MAX_INSTRUCTION_NUM →
        (comm_manager_task_finish (comm_manager_task_begin s now) err).cm.result_queue
          = s.cm.result_queue ++ [(i : Int)])) ∧
    (err = 0 → (s.cm.instructions i).is_sync = true →
      ((comm_manager_task_finish (comm_manager_task_begin s now) err).cm.instructions
        i).result_code = 0 ∧
      (s.cm.result_queue.length < COMM_MAX_INSTRUCTION_NUM →
        (comm_manager_task_finish (comm_manager_task_begin s now) err).cm.result_queue
          = s.cm.result_queue ++ [(i : Int)])) ∧
    (err = 0 → (s.cm.instructions i).is_sync = false →
      ((comm_manager_task_finish (comm_manager_task_begin s now) err).cm.instructions
        i).result_code = (s.cm.instructions i).result_code ∧
      (comm_manager_task_finish (comm_manager_task_begin s now) err).cm.result_queue
        = s.cm.result_queue ∧
      ((comm_manager_task_finish (comm_manager_task_begin s now) err).cm.instructions
        i).state = COMM_EXECUTING_ASYNC) ∧
    (comm_manager_task_finish (comm_manager_task_begin s now) err).cm.execute_queue = rest ∧
    (comm_manager_task_finish (comm_manager_task_begin s now) err).dispatch = none := by
  have hi : ((i : Int)).toNat = i := Int.toNat_natCast i
  rw [begin_step s now (i : Int) rest hd hq, hi]
  simp only [hex, ne_eq, not_false_eq_true, if_true]
  rw [finish_step _ err _ rfl]
  simp only [hi]
  by_cases he : err = 0
  · subst he
    cases hs : (s.cm.instructions i).is_sync
    · simp [hs]
    · simp [hs, xQueueSend]
  · simp [he, xQueueSend]

/-- C15, witness: the dispatch of the sync command at index 1 of
`full_result_queue_ops` before any notification, where the result queue is
empty. -/
theorem C15_dispatch_routing_witness :
    (run 1000 (init_system 1 11 12 13)
      [op_t.register 1 2 9 false 100, op_t.register 3 4 9 true 100,
       op_t.submit true inst_3_4]).dispatch = none ∧
    (run 1000 (init_system 1 11 12 13)
      [op_t.register 1 2 9 false 100, op_t.register 3 4 9 true 100,
       op_t.submit true inst_3_4]).cm.execute_queue = ((1 : Nat) : Int) :: [] ∧
    ((comm_manager_task_finish (comm_manager_task_begin
      (run 1000 (init_system 1 11 12 13)
        [op_t.register 1 2 9 false 100, op_t.register 3 4 9 true 100,
         op_t.submit true inst_3_4]) 5) 0).cm.instructions 1).start_time = 5 ∧
    (comm_manager_task_finish (comm_manager_task_begin
      (run 1000 (init_system 1 11 12 13)
        [op_t.register 1 2 9 false 100, op_t.register 3 4 9 true 100,
         op_t.submit true inst_3_4]) 5) 0).cm.result_queue = [1] :=
  have h := C15_dispatch_routing
    (run 1000 (init_system 1 11 12 13)
      [op_t.register 1 2 9 false 100, op_t.register 3 4 9 true 100,
       op_t.submit true inst_3_4]) 5 0 1 [] (by decide) (by decide) (by decide)
  ⟨by decide, by decide, h.2.1, (h.2.2.2.2.1 rfl (by decide)).2 (by decide)⟩

/-! ## The timeout scan -/

theorem timeout_loop_succ (now n i : Nat) (cm : comm_manager_t) :
    comm_timeout_task_loop now (n + 1) i cm =
      comm_timeout_task_loop now n (i + 1)
        (if timed_out cm now i = true then
          { cm with
            instructions := Function.update cm.instructions i
              { cm.instructions i with result_code := COMM_TIMEOUT_ERROR },
            result_queue := xQueueSend cm.result_queue (i : Int) }
        else cm) := by
  rw [comm_timeout_task_loop]
  dsimp only
  congr 1
  by_cases h1 : bit_registered cm.register_bitmap i = true ∧
      (cm.instructions i).state = COMM_EXECUTING_ASYNC ∧
      (cm.instructions i).timeout ≠ portMAX_DELAY
  · rw [if_pos h1]
    by_cases h2 : (now + 2 ^ 32 - (cm.instructions i).start_time) % 2 ^ 32
        > (cm.instructions i).timeout
    · have ht : timed_out cm now i = true := by
        simp only [timed_out, h1.1, h1.2.1, h1.2.2, h2, ne_eq, not_false_eq_true,
          decide_True, Bool.and_self]
      rw [if_pos h2, if_pos ht]
    · have ht : ¬ (timed_out cm now i = true) := by
        simp only [timed_out, h2, decide_False, Bool.and_false]
        decide
      rw [if_neg h2, if_neg ht]
  · have ht : ¬ (timed_out cm now i = true) := by
      intro ht
      simp only [timed_out, Bool.and_eq_true, decide_eq_true_eq] at ht
      exact h1 ⟨ht.1.1.1, ht.1.1.2, ht.1.2⟩
    rw [if_neg h1, if_neg ht]

theorem timed_out_congr (cm cm' : comm_manager_t) (now : Nat)
    (hb : cm'.register_bitmap = cm.register_bitmap)
    (hs : ∀ j, (cm'.instructions j).state = (cm.instructions j).state ∧
      (cm'.instructions j).timeout = (cm.instructions j).timeout ∧
      (cm'.instructions j).start_time = (cm.instructions j).start_time) :
    timed_out cm' now = timed_out cm now := by
  funext j
  unfold timed_out
  rw [hb, (hs j).1, (hs j).2.1, (hs j).2.2]

theorem timeout_loop_spec (now n : Nat) (i : Nat) (cm : comm_manager_t) :
    (comm_timeout_task_loop now n i cm).register_bitmap = cm.register_bitmap ∧
    (comm_timeout_task_loop now n i cm).execute_queue = cm.execute_queue ∧
    (comm_timeout_task_loop now n i cm).mutex = cm.mutex ∧
    (comm_timeout_task_loop now n i cm).new_inst_cb = cm.new_inst_cb ∧
    (comm_timeout_task_loop now n i cm).error_cb = cm.error_cb ∧
    (comm_timeout_task_loop now n i cm).done_cb = cm.done_cb ∧
    (∀ j, (comm_timeout_task_loop now n i cm).instructions j =
      if i ≤ j ∧ j < i + n ∧ timed_out cm now j = true then
        { cm.instructions j with result_code := COMM_TIMEOUT_ERROR }
      else cm.instructions j) ∧
    (comm_timeout_task_loop now n i cm).result_queue =
      send_all cm.result_queue ((List.range' i n).filter (timed_out cm now)) := by
  induction n generalizing i cm with
  | zero =>
    refine ⟨rfl, rfl, rfl, rfl, rfl, rfl, ?_, rfl⟩
    intro j
    have : ¬ (i ≤ j ∧ j < i + 0 ∧ timed_out cm now j = true) := by omega
    simp only [this, if_false]
    rfl
  | succ n ih =>
    rw [timeout_loop_succ]
    by_cases ht : timed_out cm now i = true
    · rw [if_pos ht]
      obtain ⟨h1, h2, h3, h4, h5, h6, h7, h8⟩ := ih (i + 1)
        { cm with
          instructions := Function.update cm.instructions i
            { cm.instructions i with result_code := COMM_TIMEOUT_ERROR },
          result_queue := xQueueSend cm.result_queue (i : Int) }
      have hcongr : timed_out
          { cm with
            instructions := Function.update cm.instructions i
              { cm.instructions i with result_code := COMM_TIMEOUT_ERROR },
            result_queue := xQueueSend cm.result_queue (i : Int) } now = timed_out cm now := by
        refine timed_out_congr cm _ now rfl ?_
        intro j
        by_cases hji : j = i
        · subst hji; simp
        · simp [Function.update_noteq hji]
      rw [hcongr] at h7 h8
      refine ⟨h1, h2, h3, h4, h5, h6, ?_, ?_⟩
      · intro j
        rw [h7 j]
        by_cases hji : j = i
        · subst hji
          have hn : ¬ (j + 1 ≤ j ∧ j < j + 1 + n ∧ timed_out cm now j = true) := by omega
          have hy : j ≤ j ∧ j < j + (n + 1) ∧ timed_out cm now j = true :=
            ⟨le_refl j, by omega, ht⟩
          rw [if_neg hn, if_pos hy]
          exact Function.update_same _ _ _
        · by_cases hc : i + 1 ≤ j ∧ j < i + 1 + n ∧ timed_out cm now j = true
          · have hy : i ≤ j ∧ j < i + (n + 1) ∧ timed_out cm now j = true :=
              ⟨by omega, by omega, hc.2.2⟩
            rw [if_pos hc, if_pos hy]
            show { Function.update cm.instructions i _ j with
              result_code := COMM_TIMEOUT_ERROR } = _
            rw [Function.update_noteq hji]
          · have hy : ¬ (i ≤ j ∧ j < i + (n + 1) ∧ timed_out cm now j = true) := by
              intro h
              exact hc ⟨by omega, by omega, h.2.2⟩
            rw [if_neg hc, if_neg hy]
            exact Function.update_noteq hji _ _
      · rw [h8, List.range'_succ, List.filter_cons_of_pos ht]
        rfl
    · rw [if_neg ht]
      obtain ⟨h1, h2, h3, h4, h5, h6, h7, h8⟩ := ih (i + 1) cm
      refine ⟨h1, h2, h3, h4, h5, h6, ?_, ?_⟩
      · intro j
        rw [h7 j]
        by_cases hc : i + 1 ≤ j ∧ j < i + 1 + n ∧ timed_out cm now j = true
        · have hy : i ≤ j ∧ j < i + (n + 1) ∧ timed_out cm now j = true :=
            ⟨by omega, by omega, hc.2.2⟩
          rw [if_pos hc, if_pos hy]
        · have hy : ¬ (i ≤ j ∧ j < i + (n + 1) ∧ timed_out cm now j = true) := by
            intro h
            by_cases hji : j = i
            · rw [hji] at h
              exact ht h.2.2
            · exact hc ⟨by omega, by omega, h.2.2⟩
          rw [if_neg hc, if_neg hy]
      · rw [h8, List.range'_succ, List.filter_cons_of_neg ht]

theorem send_all_cons (q : List Int) (k : Nat) (rest : List Nat) :
    send_all q (k :: rest) = send_all (xQueueSend q (k : Int)) rest := rfl

theorem send_all_room (items : List Nat) (q : List Int)
    (h : q.length + items.length ≤ COMM_MAX_INSTRUCTION_NUM) :
    send_all q items = q ++ items.map (fun (k : Nat) => (k : Int)) := by
  induction items generalizing q with
  | nil =>
    show q = q ++ []
    rw [List.append_nil]
  | cons k rest ih =>
    have hlen : q.length + (rest.length + 1) ≤ COMM_MAX_INSTRUCTION_NUM := h
    have hk : q.length < COMM_MAX_INSTRUCTION_NUM := by omega
    have hsend : xQueueSend q (k : Int) = q ++ [(k : Int)] := by
      unfold xQueueSend
      rw [if_pos hk]
    have hlen2 : (q ++ [(k : Int)]).length + rest.length ≤ COMM_MAX_INSTRUCTION_NUM := by
      rw [List.length_append, List.length_singleton]
      omega
    rw [send_all_cons, hsend, ih (q ++ [(k : Int)]) hlen2, List.map_cons, List.append_assoc,
      List.singleton_append]

theorem timed_out_iff (cm : comm_manager_t) (now i : Nat) :
    timed_out cm now i = true ↔
      (bit_registered cm.register_bitmap i = true ∧
        (cm.instructions i).state = COMM_EXECUTING_ASYNC ∧
        (cm.instructions i).timeout ≠ portMAX_DELAY ∧
        (now + 2 ^ 32 - (cm.instructions i).start_time) % 2 ^ 32 > (cm.instructions i).timeout) := by
  simp only [timed_out, Bool.and_eq_true, decide_eq_true_eq]
  tauto

theorem timeout_scan_slot (cm : comm_manager_t) (now i : Nat) :
    (comm_timeout_task_scan cm now).instructions i =
      if i < COMM_MAX_INSTRUCTION_NUM ∧ timed_out cm now i = true then
        { cm.instructions i with result_code := COMM_TIMEOUT_ERROR }
      else cm.instructions i := by
  unfold comm_timeout_task_scan
  rw [(timeout_loop_spec now COMM_MAX_INSTRUCTION_NUM 0 cm).2.2.2.2.2.2.1 i]
  by_cases h : i < COMM_MAX_INSTRUCTION_NUM ∧ timed_out cm now i = true
  · have h2 : 0 ≤ i ∧ i < 0 + COMM_MAX_INSTRUCTION_NUM ∧ timed_out cm now i = true :=
      ⟨Nat.zero_le i, by omega, h.2⟩
    rw [if_pos h, if_pos h2]
  · have h2 : ¬ (0 ≤ i ∧ i < 0 + COMM_MAX_INSTRUCTION_NUM ∧ timed_out cm now i = true) := by
      intro h3
      exact h ⟨by omega, h3.2.2⟩
    rw [if_neg h, if_neg h2]

theorem timeout_scan_result_queue (cm : comm_manager_t) (now : Nat) :
    (comm_timeout_task_scan cm now).result_queue
      = send_all cm.result_queue (timed_out_indices cm now) := by
  unfold comm_timeout_task_scan timed_out_indices
  rw [(timeout_loop_spec now COMM_MAX_INSTRUCTION_NUM 0 cm).2.2.2.2.2.2.2, List.range_eq_range']

/-- C17, counterexample to the claim as worded: the pending async slot 0 has
exceeded its timeout, but the result queue already holds 32 entries; the scan
sets the sentinel result code and the index is not appended. -/
theorem C17_full_queue_counterexample :
    timed_out notify_flood_system.cm 200 0 = true ∧
    notify_flood_system.cm.result_queue.length = COMM_MAX_INSTRUCTION_NUM ∧
    ((comm_timeout_task_scan notify_flood_system.cm 200).instructions 0).result_code
      = COMM_TIMEOUT_ERROR ∧
    (comm_timeout_task_scan notify_flood_system.cm 200).result_queue
      = notify_flood_system.cm.result_queue ∧
    (comm_timeout_task_scan notify_flood_system.cm 200).result_queue
      ≠ notify_flood_system.cm.result_queue ++ [0] := by
  decide

/-- C17 (as amended): one scan at tick `now`. An index is timed out exactly when
it is registered, `COMM_EXECUTING_ASYNC`, has a timeout other than
`portMAX_DELAY` and a 32-bit tick difference above the timeout. The scan sets
the result code of every timed-out index below 32 to 0xFFFFFFFF and leaves
every other slot entirely untouched (in particular every unregistered slot and
every slot that is not `COMM_EXECUTING_ASYNC`); it changes no slot's state,
start time, instruction, handler, sync flag or timeout, nor the bitmap or the
execute queue; and when the result queue has room for all of them it appends
the timed-out indices in increasing order. -/
theorem C17_timeout_scan (cm : comm_manager_t) (now : Nat) :
    (∀ i, timed_out cm now i = true ↔
      (bit_registered cm.register_bitmap i = true ∧
        (cm.instructions i).state = COMM_EXECUTING_ASYNC ∧
        (cm.instructions i).timeout ≠ portMAX_DELAY ∧
        (now + 2 ^ 32 - (cm.instructions i).start_time) % 2 ^ 32
          > (cm.instructions i).timeout)) ∧
    (∀ i, i < COMM_MAX_INSTRUCTION_NUM → timed_out cm now i = true →
      ((comm_timeout_task_scan cm now).instructions i).result_code = COMM_TIMEOUT_ERROR) ∧
    (∀ i, ¬ (i < COMM_MAX_INSTRUCTION_NUM ∧ timed_out cm now i = true) →
      (comm_timeout_task_scan cm now).instructions i = cm.instructions i) ∧
    (∀ i, bit_registered cm.register_bitmap i = false ∨
        (cm.instructions i).state ≠ COMM_EXECUTING_ASYNC →
      (comm_timeout_task_scan cm now).instructions i = cm.instructions i) ∧
    (∀ i, ((comm_timeout_task_scan cm now).instructions i).state = (cm.instructions i).state ∧
      ((comm_timeout_task_scan cm now).instructions i).start_time
        = (cm.instructions i).start_time ∧
      ((comm_timeout_task_scan cm now).instructions i).instruction
        = (cm.instructions i).instruction ∧
      ((comm_timeout_task_scan cm now).instructions i).executor
        = (cm.instructions i).executor ∧
      ((comm_timeout_task_scan cm now).instructions i).is_sync
        = (cm.instructions i).is_sync ∧
      ((comm_timeout_task_scan cm now).instructions i).timeout
        = (cm.instructions i).timeout) ∧
    (comm_timeout_task_scan cm now).register_bitmap = cm.register_bitmap ∧
    (comm_timeout_task_scan cm now).execute_queue = cm.execute_queue ∧
    (cm.result_queue.length + (timed_out_indices cm now).length ≤ COMM_MAX_INSTRUCTION_NUM →
      (comm_timeout_task_scan cm now).result_queue
        = cm.result_queue ++ (timed_out_indices cm now).map (fun (k : Nat) => (k : Int))) := by
  refine ⟨timed_out_iff cm now, ?_, ?_, ?_, ?_, ?_, ?_, ?_⟩
  · intro i hi ht
    rw [timeout_scan_slot, if_pos ⟨hi, ht⟩]
  · intro i h
    rw [timeout_scan_slot, if_neg h]
  · intro i h
    have hnt : ¬ (i < COMM_MAX_INSTRUCTION_NUM ∧ timed_out cm now i = true) := by
      rintro ⟨_, ht⟩
      have := (timed_out_iff cm now i).1 ht
      rcases h with h | h
      · rw [h] at this
        exact absurd this.1 (by decide)
      · exact h this.2.1
    rw [timeout_scan_slot, if_neg hnt]
  · intro i
    rw [timeout_scan_slot]
    by_cases h : i < COMM_MAX_INSTRUCTION_NUM ∧ timed_out cm now i = true
    · rw [if_pos h]
      exact ⟨rfl, rfl, rfl, rfl, rfl, rfl⟩
    · rw [if_neg h]
      exact ⟨rfl, rfl, rfl, rfl, rfl, rfl⟩
  · exact (timeout_loop_spec now COMM_MAX_INSTRUCTION_NUM 0 cm).1
  · exact (timeout_loop_spec now COMM_MAX_INSTRUCTION_NUM 0 cm).2.1
  · intro hroom
    rw [timeout_scan_result_queue, send_all_room _ _ hroom]

/-- C17, witness: a scan at tick 200 over the pending async slot 0 (started at
tick 0 with a timeout of 100 ticks) and an empty result queue. -/
theorem C17_timeout_scan_witness :
    timed_out_indices async_pending_system.cm 200 = [0] ∧
    ((comm_timeout_task_scan async_pending_system.cm 200).instructions 0).result_code
      = COMM_TIMEOUT_ERROR ∧
    (comm_timeout_task_scan async_pending_system.cm 200).result_queue
      = async_pending_system.cm.result_queue ++
        (timed_out_indices async_pending_system.cm 200).map (fun (k : Nat) => (k : Int)) :=
  have h := C17_timeout_scan async_pending_system.cm 200
  ⟨by decide, h.2.1 0 (by decide) (by decide), h.2.2.2.2.2.2.2 (by decide)⟩

/-- C18: for a 32-bit start timestamp `s` and a true elapsed duration `d` below
2^32, at the tick count `(s + d) mod 2^32` the monitor's unsigned difference
is `d`, also when the counter has wrapped; hence a registered
`COMM_EXECUTING_ASYNC` slot with a timeout `T` other than `portMAX_DELAY` is
timed out by the scan exactly when `d > T`: then the scan writes the sentinel
result code, and otherwise it leaves the slot untouched. -/
theorem C18_wraparound_elapsed (cm : comm_manager_t) (i s d T : Nat)
    (hs : s < 2 ^ 32) (hd : d < 2 ^ 32) (hi : i < COMM_MAX_INSTRUCTION_NUM)
    (hreg : bit_registered cm.register_bitmap i = true)
    (hstate : (cm.instructions i).state = COMM_EXECUTING_ASYNC)
    (hstart : (cm.instructions i).start_time = s)
    (htimeout : (cm.instructions i).timeout = T)
    (hfinite : T ≠ portMAX_DELAY) :
    ((s + d) % 2 ^ 32 + 2 ^ 32 - s) % 2 ^ 32 = d ∧
    (timed_out cm ((s + d) % 2 ^ 32) i = true ↔ d > T) ∧
    (d > T →
      ((comm_timeout_task_scan cm ((s + d) % 2 ^ 32)).instructions i).result_code
        = COMM_TIMEOUT_ERROR) ∧
    (¬ d > T →
      (comm_timeout_task_scan cm ((s + d) % 2 ^ 32)).instructions i = cm.instructions i) := by
  have harith : ((s + d) % 2 ^ 32 + 2 ^ 32 - s) % 2 ^ 32 = d := by
    have h32 : (2 : Nat) ^ 32 = 4294967296 := by norm_num
    rw [h32] at hs hd ⊢
    omega
  have hiff : timed_out cm ((s + d) % 2 ^ 32) i = true ↔ d > T := by
    rw [timed_out_iff, hstart, htimeout, harith]
    exact ⟨fun h => h.2.2.2, fun h => ⟨hreg, hstate, hfinite, h⟩⟩
  refine ⟨harith, hiff, ?_, ?_⟩
  · intro h
    rw [timeout_scan_slot, if_pos ⟨hi, hiff.2 h⟩]
  · intro h
    have hnt : ¬ (i < COMM_MAX_INSTRUCTION_NUM ∧ timed_out cm ((s + d) % 2 ^ 32) i = true) :=
      fun h2 => h (hiff.1 h2.2)
    rw [timeout_scan_slot, if_neg hnt]

/-- C18, witness: start time 2^32 - 10, elapsed 150 ticks, timeout 100 ticks;
the counter has wrapped to 140 and the slot is timed out. -/
theorem C18_wraparound_elapsed_witness :
    (wrapped_pending_system.cm.instructions 0).start_time = 4294967286 ∧
    (wrapped_pending_system.cm.instructions 0).timeout = 100 ∧
    (4294967286 + 150) % 2 ^ 32 = 140 ∧
    ((4294967286 + 150) % 2 ^ 32 + 2 ^ 32 - 4294967286) % 2 ^ 32 = 150 ∧
    (timed_out wrapped_pending_system.cm ((4294967286 + 150) % 2 ^ 32) 0 = true ↔ 150 > 100) ∧
    ((comm_timeout_task_scan wrapped_pending_system.cm
      ((4294967286 + 150) % 2 ^ 32)).instructions 0).result_code = COMM_TIMEOUT_ERROR :=
  have h := C18_wraparound_elapsed wrapped_pending_system.cm 0 4294967286 150 100
    (by decide) (by decide) (by decide) (by decide) (by decide) (by decide) (by decide)
    (by decide)
  ⟨by decide, by decide, by decide, h.1, h.2.1, h.2.2.1 (by decide)⟩

/-! ## Queue contents -/

theorem mem_xQueueSend {q : List Int} {x y : Int} (h : x ∈ xQueueSend q y) :
    x ∈ q ∨ x = y := by
  unfold xQueueSend at h
  split at h
  · rcases List.mem_append.1 h with h | h
    · exact Or.inl h
    · exact Or.inr (List.mem_singleton.1 h)
  · exact Or.inl h

theorem mem_send_all {items : List Nat} {q : List Int} {x : Int} (h : x ∈ send_all q items) :
    x ∈ q ∨ ∃ k, k ∈ items ∧ x = (k : Int) := by
  induction items generalizing q with
  | nil => exact Or.inl h
  | cons k rest ih =>
    rw [send_all_cons] at h
    rcases ih h with h | ⟨k2, hk2, hx⟩
    · rcases mem_xQueueSend h with h | h
      · exact Or.inl h
      · exact Or.inr ⟨k, List.mem_cons_self k rest, h⟩
    · exact Or.inr ⟨k2, List.mem_cons_of_mem k hk2, hx⟩

/-- A step that keeps the bitmap and the handlers, adds only valid indices to
the queues and to the dispatch task, and keeps the state of unregistered slots,
preserves the invariant. -/
theorem registry_wf_of_frame (s s' : system_t) (hwf : registry_wf s)
    (hb : s'.cm.register_bitmap = s.cm.register_bitmap)
    (heq : ∀ x, x ∈ s'.cm.execute_queue → x ∈ s.cm.execute_queue ∨ valid_index s.cm x)
    (hrq : ∀ x, x ∈ s'.cm.result_queue → x ∈ s.cm.result_queue ∨ valid_index s.cm x)
    (hd : ∀ l, s'.dispatch = some l → s.dispatch = some l ∨ valid_index s.cm l.idx)
    (hst : ∀ i, i < COMM_MAX_INSTRUCTION_NUM → bit_registered s.cm.register_bitmap i = false →
      (s'.cm.instructions i).state = (s.cm.instructions i).state)
    (hex : ∀ i, (s'.cm.instructions i).executor = (s.cm.instructions i).executor) :
    registry_wf s' := by
  obtain ⟨w1, w2, w3, w4, w5⟩ := hwf
  have hv : ∀ x, valid_index s.cm x → valid_index s'.cm x := by
    intro x hx
    unfold valid_index at hx ⊢
    rw [hb]
    exact hx
  refine ⟨?_, ?_, ?_, ?_, ?_⟩
  · intro x hx
    rcases heq x hx with h | h
    · exact hv x (w1 x h)
    · exact hv x h
  · intro x hx
    rcases hrq x hx with h | h
    · exact hv x (w2 x h)
    · exact hv x h
  · intro l hl
    rcases hd l hl with h | h
    · exact hv _ (w3 l h)
    · exact hv _ h
  · intro i hi hr
    rw [hb] at hr
    rw [hst i hi hr]
    exact w4 i hi hr
  · intro i hi hr
    rw [hb] at hr
    rw [hex i]
    exact w5 i hi hr

theorem update_state_of_unregistered (cm : comm_manager_t) (k : Nat)
    (slot : comm_instruction_internal_t)
    (hk : bit_registered cm.register_bitmap k = true) (i : Nat)
    (hi : bit_registered cm.register_bitmap i = false) :
    (Function.update cm.instructions k slot i).state = (cm.instructions i).state := by
  have hne : i ≠ k := by
    intro h
    rw [h, hk] at hi
    exact absurd hi (by decide)
  rw [Function.update_noteq hne]

theorem update_executor (cm : comm_manager_t) (k : Nat) (slot : comm_instruction_internal_t)
    (hs : slot.executor = (cm.instructions k).executor) (i : Nat) :
    (Function.update cm.instructions k slot i).executor = (cm.instructions i).executor := by
  by_cases h : i = k
  · subst h
    rw [Function.update_same, hs]
  · rw [Function.update_noteq h]

theorem submit_registry_wf (s : system_t) (took : Bool) (inst : instruction_t)
    (hwf : registry_wf s) :
    registry_wf { s with cm := (comm_add_instruction_to_execute_queue s.cm took inst).2 } := by
  have hsame : registry_wf { s with cm := s.cm } := hwf
  cases took with
  | false =>
    rw [submit_reject s.cm false inst (Or.inl rfl)]
    exact hsame
  | true =>
    rcases find_slot_spec s.cm inst.obj inst.action with ⟨hret, _⟩ | ⟨k, hk, hk32, hkm, _⟩
    · rw [submit_reject s.cm true inst (Or.inr (Or.inl hret))]
      exact hsame
    · by_cases hs : (s.cm.instructions k).state = COMM_COMPLETED
      · rw [submit_accept s.cm inst k hk hs]
        have hreg : bit_registered s.cm.register_bitmap k = true :=
          ((slot_matches_iff s.cm inst.obj inst.action k).1 hkm).1
        have hvalid : valid_index s.cm (k : Int) :=
          ⟨by omega, by exact_mod_cast hk32, by rw [Int.toNat_natCast]; exact hreg⟩
        refine registry_wf_of_frame s _ hwf rfl ?_ (fun x hx => Or.inl hx)
          (fun l hl => Or.inl hl) ?_ ?_
        · intro x hx
          rcases mem_xQueueSend hx with h | h
          · exact Or.inl h
          · rw [h]; exact Or.inr hvalid
        · intro i _ hi
          exact update_state_of_unregistered s.cm k _ hreg i hi
        · intro i
          exact update_executor s.cm k _ (by rfl) i
      · rw [submit_reject s.cm true inst (Or.inr (Or.inr ⟨k, hk, hs⟩))]
        exact hsame

theorem notify_registry_wf (s : system_t) (index : Int) (error_code : Nat)
    (hwf : registry_wf s) :
    registry_wf { s with cm := (comm_notify_instruction_done s.cm index error_code).2 } := by
  have hsame : registry_wf { s with cm := s.cm } := hwf
  by_cases hr : index < 0 ∨ (COMM_MAX_INSTRUCTION_NUM : Int) ≤ index
  · rw [notify_out_of_range s.cm index error_code hr]
    exact hsame
  · have h0 : 0 ≤ index := by omega
    have h1 : index < (COMM_MAX_INSTRUCTION_NUM : Int) := by omega
    by_cases hs : (s.cm.instructions index.toNat).state = COMM_EXECUTING_ASYNC
    · rw [notify_effective s.cm index error_code h0 h1 hs]
      have hlt : index.toNat < COMM_MAX_INSTRUCTION_NUM := by omega
      have hreg : bit_registered s.cm.register_bitmap index.toNat = true := by
        cases hb : bit_registered s.cm.register_bitmap index.toNat with
        | true => rfl
        | false =>
          have := hwf.2.2.2.1 index.toNat hlt hb
          rw [hs] at this
          exact absurd this (by decide)
      refine registry_wf_of_frame s _ hwf rfl (fun x hx => Or.inl hx) ?_
        (fun l hl => Or.inl hl) ?_ ?_
      · intro x hx
        rcases mem_xQueueSend hx with h | h
        · exact Or.inl h
        · rw [h]; exact Or.inr ⟨h0, h1, hreg⟩
      · intro i _ hi
        exact update_state_of_unregistered s.cm index.toNat _ hreg i hi
      · intro i
        exact update_executor s.cm index.toNat _ (by rfl) i
    · rw [notify_ignored s.cm index error_code h0 h1 hs]
      exact hsame

theorem register_registry_wf (hz : Nat) (s : system_t) (obj action callback : Nat)
    (is_sync : Bool) (timeout_ms : Nat) (hwf : registry_wf s) :
    registry_wf { s with
      cm := (comm_register_instruction hz s.cm obj action callback is_sync timeout_ms).2 } := by
  have hsame : registry_wf { s with cm := s.cm } := hwf
  by_cases hm : s.cm.mutex = 0
  · rw [register_fail hz s.cm obj action callback is_sync timeout_ms (Or.inl hm)]
    exact hsame
  by_cases hc : callback = 0
  · rw [register_fail hz s.cm obj action callback is_sync timeout_ms (Or.inr (Or.inr hc))]
    exact hsame
  rcases find_free_slot_spec s.cm with ⟨hret, _⟩ | ⟨k, hk, hk32, hkfree, _⟩
  · rw [register_fail hz s.cm obj action callback is_sync timeout_ms (Or.inr (Or.inl hret))]
    exact hsame
  rw [register_success hz s.cm obj action callback is_sync timeout_ms k hm hk hc]
  obtain ⟨w1, w2, w3, w4, w5⟩ := hwf
  have hv : ∀ x, valid_index s.cm x →
      0 ≤ x ∧ x < (COMM_MAX_INSTRUCTION_NUM : Int) ∧
        bit_registered (Function.update s.cm.register_bitmap (k >>> 3)
          (s.cm.register_bitmap (k >>> 3) ||| (1 <<< (k &&& 0x07)))) x.toNat = true := by
    intro x hx
    refine ⟨hx.1, hx.2.1, ?_⟩
    rw [bit_registered_set, hx.2.2, Bool.or_true]
  refine ⟨fun x hx => hv x (w1 x hx), fun x hx => hv x (w2 x hx),
    fun l hl => hv _ (w3 l hl), ?_, ?_⟩
  · intro i hi hr
    have hr2 : (decide (i = k) || bit_registered s.cm.register_bitmap i) = false := by
      rw [← bit_registered_set]
      exact hr
    rw [Bool.or_eq_false_iff] at hr2
    have hne : i ≠ k := by simpa using hr2.1
    show (Function.update s.cm.instructions k _ i).state = COMM_NONE
    rw [Function.update_noteq hne]
    exact w4 i hi hr2.2
  · intro i hi hr
    have hr2 : (decide (i = k) || bit_registered s.cm.register_bitmap i) = true := by
      rw [← bit_registered_set]
      exact hr
    show (Function.update s.cm.instructions k _ i).executor ≠ 0
    by_cases hik : i = k
    · subst hik
      rw [Function.update_same]
      exact hc
    · rw [Function.update_noteq hik]
      have : bit_registered s.cm.register_bitmap i = true := by
        simpa [hik] using hr2
      exact w5 i hi this

theorem begin_registry_wf (s : system_t) (now : Nat) (hwf : registry_wf s) :
    registry_wf (comm_manager_task_begin s now) := by
  cases hd : s.dispatch with
  | some l =>
    rw [begin_blocked s now (Or.inl (by rw [hd]; exact Option.some_ne_none l))]
    exact hwf
  | none =>
    cases hq : s.cm.execute_queue with
    | nil =>
      rw [begin_blocked s now (Or.inr hq)]
      exact hwf
    | cons idx rest =>
      rw [begin_step s now idx rest hd hq]
      have hvalid : valid_index s.cm idx := hwf.1 idx (by rw [hq]; exact List.mem_cons_self idx rest)
      refine registry_wf_of_frame s _ hwf rfl ?_ (fun x hx => Or.inl hx) ?_ ?_ ?_
      · intro x hx
        left
        rw [hq]
        exact List.mem_cons_of_mem idx hx
      · intro l hl
        right
        dsimp only at hl
        split at hl
        · rw [← Option.some.inj hl]
          exact hvalid
        · exact absurd hl (by simp)
      · intro i _ hi
        exact update_state_of_unregistered s.cm idx.toNat _ hvalid.2.2 i hi
      · intro i
        exact update_executor s.cm idx.toNat _ (by rfl) i

theorem finish_registry_wf (s : system_t) (err : Nat) (hwf : registry_wf s) :
    registry_wf (comm_manager_task_finish s err) := by
  cases hd : s.dispatch with
  | none =>
    rw [finish_idle s err hd]
    exact hwf
  | some l =>
    have hvalid : valid_index s.cm l.idx := hwf.2.2.1 l hd
    rw [finish_step s err l hd]
    by_cases he : err ≠ 0
    · rw [if_pos he]
      refine registry_wf_of_frame s _ hwf rfl (fun x hx => Or.inl hx) ?_
        (fun l2 hl2 => absurd hl2 (by simp)) ?_ ?_
      · intro x hx
        rcases mem_xQueueSend hx with h | h
        · exact Or.inl h
        · rw [h]; exact Or.inr hvalid
      · intro i _ hi
        exact update_state_of_unregistered s.cm l.idx.toNat _ hvalid.2.2 i hi
      · intro i
        exact update_executor s.cm l.idx.toNat _ (by rfl) i
    · rw [if_neg he]
      by_cases hs : l.is_sync = true
      · rw [if_pos hs]
        refine registry_wf_of_frame s _ hwf rfl (fun x hx => Or.inl hx) ?_
          (fun l2 hl2 => absurd hl2 (by simp)) ?_ ?_
        · intro x hx
          rcases mem_xQueueSend hx with h | h
          · exact Or.inl h
          · rw [h]; exact Or.inr hvalid
        · intro i _ hi
          exact update_state_of_unregistered s.cm l.idx.toNat _ hvalid.2.2 i hi
        · intro i
          exact update_executor s.cm l.idx.toNat _ (by rfl) i
      · rw [if_neg hs]
        exact registry_wf_of_frame s _ hwf rfl (fun x hx => Or.inl hx) (fun x hx => Or.inl hx)
          (fun l2 hl2 => absurd hl2 (by simp)) (fun _ _ _ => rfl) (fun _ => rfl)

theorem result_registry_wf (s : system_t) (hwf : registry_wf s) :
    registry_wf (comm_result_task_step s) := by
  cases hq : s.cm.result_queue with
  | nil =>
    rw [result_step_empty s hq]
    exact hwf
  | cons idx rest =>
    have hvalid : valid_index s.cm idx := hwf.2.1 idx (by rw [hq]; exact List.mem_cons_self idx rest)
    have hmem : ∀ x, x ∈ rest → x ∈ s.cm.result_queue ∨ valid_index s.cm x := by
      intro x hx
      left
      rw [hq]
      exact List.mem_cons_of_mem idx hx
    by_cases hc : (s.cm.instructions idx.toNat).result_code = 0
    · rw [result_step_zero s idx rest hq hc]
      refine registry_wf_of_frame s _ hwf rfl (fun x hx => Or.inl hx) hmem
        (fun l hl => Or.inl hl) ?_ ?_
      · intro i _ hi
        exact update_state_of_unregistered s.cm idx.toNat _ hvalid.2.2 i hi
      · intro i
        exact update_executor s.cm idx.toNat _ (by rfl) i
    · rw [result_step_nonzero s idx rest hq hc]
      refine registry_wf_of_frame s _ hwf rfl (fun x hx => Or.inl hx) hmem
        (fun l hl => Or.inl hl) ?_ ?_
      · intro i _ hi
        exact update_state_of_unregistered s.cm idx.toNat _ hvalid.2.2 i hi
      · intro i
        exact update_executor s.cm idx.toNat _ (by rfl) i

theorem scan_registry_wf (s : system_t) (now : Nat) (hwf : registry_wf s) :
    registry_wf { s with cm := comm_timeout_task_scan s.cm now } := by
  have hspec := timeout_loop_spec now COMM_MAX_INSTRUCTION_NUM 0 s.cm
  refine registry_wf_of_frame s _ hwf hspec.1 ?_ ?_ (fun l hl => Or.inl hl) ?_ ?_
  · intro x hx
    left
    have : (comm_timeout_task_scan s.cm now).execute_queue = s.cm.execute_queue := hspec.2.1
    rw [← this]
    exact hx
  · intro x hx
    have hx2 : x ∈ send_all s.cm.result_queue (timed_out_indices s.cm now) := by
      rw [← timeout_scan_result_queue]
      exact hx
    rcases mem_send_all hx2 with h | ⟨k, hk, hxk⟩
    · exact Or.inl h
    · right
      unfold timed_out_indices at hk
      rw [List.mem_filter, List.mem_range] at hk
      rw [hxk]
      exact ⟨by omega, by exact_mod_cast hk.1,
        by rw [Int.toNat_natCast]; exact ((timed_out_iff s.cm now k).1 hk.2).1⟩
  · intro i _ _
    show ((comm_timeout_task_scan s.cm now).instructions i).state = _
    rw [timeout_scan_slot]
    split <;> rfl
  · intro i
    show ((comm_timeout_task_scan s.cm now).instructions i).executor = _
    rw [timeout_scan_slot]
    split <;> rfl

theorem step_registry_wf (hz : Nat) (s : system_t) (op : op_t) (hwf : registry_wf s) :
    registry_wf (step hz s op) := by
  cases op with
  | register obj action callback is_sync timeout_ms =>
    exact register_registry_wf hz s obj action callback is_sync timeout_ms hwf
  | submit took inst => exact submit_registry_wf s took inst hwf
  | submit_from_ISR took inst => exact submit_registry_wf s took inst hwf
  | dispatch_begin now => exact begin_registry_wf s now hwf
  | handler_return err => exact finish_registry_wf s err hwf
  | notify_done index error_code => exact notify_registry_wf s index error_code hwf
  | notify_done_from_isr took index error_code =>
    exact notify_registry_wf s index error_code hwf
  | timeout_scan now => exact scan_registry_wf s now hwf
  | result_step => exact result_registry_wf s hwf

theorem run_registry_wf (hz : Nat) (ops : List op_t) (s : system_t) (hwf : registry_wf s) :
    registry_wf (run hz s ops) := by
  induction ops generalizing s with
  | nil => exact hwf
  | cons op rest ih => exact ih (step hz s op) (step_registry_wf hz s op hwf)

theorem init_system_eq (mutex new_inst_cb error_cb done_cb : Nat) (hm : mutex ≠ 0) :
    init_system mutex new_inst_cb error_cb done_cb =
      { cm := { zero_manager mutex with
          new_inst_cb := new_inst_cb, error_cb := error_cb, done_cb := done_cb },
        dispatch := none, trace := [] } := by
  unfold init_system comm_init
  simp [hm]

theorem init_registry_wf (mutex new_inst_cb error_cb done_cb : Nat) (hm : mutex ≠ 0) :
    registry_wf (init_system mutex new_inst_cb error_cb done_cb) := by
  rw [init_system_eq mutex new_inst_cb error_cb done_cb hm]
  refine ⟨fun x hx => absurd hx (List.not_mem_nil x), fun x hx => absurd hx (List.not_mem_nil x),
    fun l hl => absurd hl (by simp), fun _ _ _ => rfl, ?_⟩
  intro i _ hr
  have : bit_registered (fun _ => 0) i = true := hr
  rw [bit_registered_zero] at this
  exact absurd this (by decide)

theorem reachable_registry_wf (hz : Nat) (s : system_t) (h : reachable hz s) :
    registry_wf s := by
  obtain ⟨mutex, n, e, d, ops, hm, hs⟩ := h
  rw [hs]
  exact run_registry_wf hz ops _ (init_registry_wf mutex n e d hm)

/-- C19: in every state reachable from `comm_init` by any sequence of
registrations, submissions (task or interrupt variant), dispatch steps,
notifications (either variant, any index argument), monitor scans and result
steps, every value held in the execute queue or in the result queue is an
index in 0..31 whose slot is registered. -/
theorem C19_queued_indices_registered (hz : Nat) (s : system_t) (hreach : reachable hz s) :
    (∀ x, x ∈ s.cm.execute_queue →
      0 ≤ x ∧ x < (COMM_MAX_INSTRUCTION_NUM : Int) ∧
        bit_registered s.cm.register_bitmap x.toNat = true) ∧
    (∀ x, x ∈ s.cm.result_queue →
      0 ≤ x ∧ x < (COMM_MAX_INSTRUCTION_NUM : Int) ∧
        bit_registered s.cm.register_bitmap x.toNat = true) :=
  ⟨(reachable_registry_wf hz s hreach).1, (reachable_registry_wf hz s hreach).2.1⟩

/-- C19, witness: the state after the monitor scan and a notification have both
queued the pending async slot 0, with a notification for the unregistered
index 7 in between. -/
theorem C19_queued_indices_registered_witness :
    reachable 1000
      (run 1000 (init_system 1 11 12 13)
        (double_completion_ops ++ [op_t.notify_done 7 1])) ∧
    (run 1000 (init_system 1 11 12 13)
      (double_completion_ops ++ [op_t.notify_done 7 1])).cm.result_queue = [0, 0] ∧
    (∀ x, x ∈ (run 1000 (init_system 1 11 12 13)
        (double_completion_ops ++ [op_t.notify_done 7 1])).cm.result_queue →
      0 ≤ x ∧ x < (COMM_MAX_INSTRUCTION_NUM : Int) ∧
        bit_registered (run 1000 (init_system 1 11 12 13)
          (double_completion_ops ++ [op_t.notify_done 7 1])).cm.register_bitmap x.toNat
          = true) :=
  have hreach : reachable 1000
      (run 1000 (init_system 1 11 12 13)
        (double_completion_ops ++ [op_t.notify_done 7 1])) :=
    ⟨1, 11, 12, 13, double_completion_ops ++ [op_t.notify_done 7 1], by decide, rfl⟩
  ⟨hreach, by decide, (C19_queued_indices_registered 1000 _ hreach).2⟩

/-! ## Registration order -/

theorem step_mutex (hz : Nat) (s : system_t) (op : op_t) :
    (step hz s op).cm.mutex = s.cm.mutex := by
  cases op with
  | register obj action callback is_sync timeout_ms =>
    show (comm_register_instruction hz s.cm obj action callback is_sync timeout_ms).2.mutex = _
    unfold comm_register_instruction
    split
    · rfl
    · dsimp only
      split <;> rfl
  | submit took inst =>
    show (comm_add_instruction_to_execute_queue s.cm took inst).2.mutex = _
    unfold comm_add_instruction_to_execute_queue
    split
    · dsimp only
      split <;> rfl
    · rfl
  | submit_from_ISR took inst =>
    show (comm_add_instruction_to_execute_queue s.cm took inst).2.mutex = _
    unfold comm_add_instruction_to_execute_queue
    split
    · dsimp only
      split <;> rfl
    · rfl
  | dispatch_begin now =>
    show (comm_manager_task_begin s now).cm.mutex = _
    unfold comm_manager_task_begin
    split <;> rfl
  | handler_return err =>
    show (comm_manager_task_finish s err).cm.mutex = _
    unfold comm_manager_task_finish
    split
    · rfl
    · dsimp only
      split
      · rfl
      · split <;> rfl
  | notify_done index error_code =>
    show (comm_notify_instruction_done s.cm index error_code).2.mutex = _
    unfold comm_notify_instruction_done
    split
    · rfl
    · split <;> rfl
  | notify_done_from_isr took index error_code =>
    show (comm_notify_instruction_done s.cm index error_code).2.mutex = _
    unfold comm_notify_instruction_done
    split
    · rfl
    · split <;> rfl
  | timeout_scan now =>
    exact (timeout_loop_spec now COMM_MAX_INSTRUCTION_NUM 0 s.cm).2.2.1
  | result_step =>
    show (comm_result_task_step s).cm.mutex = _
    unfold comm_result_task_step
    split
    · rfl
    · dsimp only
      split <;> rfl

theorem find_free_slot_at_count (cm : comm_manager_t) (m : Nat)
    (hm : m ≤ COMM_MAX_INSTRUCTION_NUM)
    (hpre : ∀ i, i < COMM_MAX_INSTRUCTION_NUM →
      (bit_registered cm.register_bitmap i = true ↔ i < m)) :
    find_free_slot cm = if m < COMM_MAX_INSTRUCTION_NUM then (m : Int) else -1 := by
  rcases find_free_slot_spec cm with ⟨hret, hall⟩ | ⟨k, hk, hk32, hkfree, hkmin⟩
  · have hnot : ¬ m < COMM_MAX_INSTRUCTION_NUM := by
      intro h
      have := (hpre m h).1 (hall m h)
      omega
    rw [hret, if_neg hnot]
  · have hkm : ¬ k < m := by
      intro h
      rw [(hpre k hk32).2 h] at hkfree
      exact absurd hkfree (by decide)
    have hmk : ¬ m < k := by
      intro h
      have := (hpre m (by omega)).1 (hkmin m h)
      omega
    have hkeq : k = m := by omega
    rw [hk, hkeq, if_pos (by omega)]

theorem register_at_count (hz : Nat) (cm : comm_manager_t) (obj action callback : Nat)
    (is_sync : Bool) (timeout_ms m : Nat) (hmutex : cm.mutex ≠ 0)
    (hm : m ≤ COMM_MAX_INSTRUCTION_NUM)
    (hpre : ∀ i, i < COMM_MAX_INSTRUCTION_NUM →
      (bit_registered cm.register_bitmap i = true ↔ i < m)) :
    (comm_register_instruction hz cm obj action callback is_sync timeout_ms).1
      = (if callback ≠ 0 ∧ m < COMM_MAX_INSTRUCTION_NUM then (m : Int) else -1) ∧
    (∀ i, i < COMM_MAX_INSTRUCTION_NUM →
      (bit_registered
        (comm_register_instruction hz cm obj action callback is_sync timeout_ms).2.register_bitmap
        i = true ↔
        i < (if callback ≠ 0 ∧ m < COMM_MAX_INSTRUCTION_NUM then m + 1 else m))) := by
  have hfree := find_free_slot_at_count cm m hm hpre
  by_cases hc : callback ≠ 0 ∧ m < COMM_MAX_INSTRUCTION_NUM
  · rw [if_pos hc.2] at hfree
    rw [register_success hz cm obj action callback is_sync timeout_ms m hmutex hfree hc.1,
      if_pos hc, if_pos hc]
    refine ⟨rfl, ?_⟩
    intro i hi
    rw [bit_registered_set, Bool.or_eq_true, decide_eq_true_eq, hpre i hi]
    omega
  · have hfail : cm.mutex = 0 ∨ find_free_slot cm = -1 ∨ callback = 0 := by
      by_cases hcb : callback = 0
      · exact Or.inr (Or.inr hcb)
      · have hnot : ¬ m < COMM_MAX_INSTRUCTION_NUM := fun h => hc ⟨hcb, h⟩
        rw [if_neg hnot] at hfree
        exact Or.inr (Or.inl hfree)
    rw [register_fail hz cm obj action callback is_sync timeout_ms hfail, if_neg hc, if_neg hc]
    exact ⟨rfl, hpre⟩

theorem successful_registrations_cons_other (hz : Nat) (s : system_t) (op : op_t)
    (rest : List op_t)
    (hop : ∀ obj action callback is_sync timeout_ms,
      op ≠ op_t.register obj action callback is_sync timeout_ms) :
    successful_registrations hz s (op :: rest)
      = successful_registrations hz (step hz s op) rest := by
  cases op with
  | register obj action callback is_sync timeout_ms =>
    exact absurd rfl (hop obj action callback is_sync timeout_ms)
  | submit took inst => exact Nat.zero_add _
  | submit_from_ISR took inst => exact Nat.zero_add _
  | dispatch_begin now => exact Nat.zero_add _
  | handler_return err => exact Nat.zero_add _
  | notify_done index error_code => exact Nat.zero_add _
  | notify_done_from_isr took index error_code => exact Nat.zero_add _
  | timeout_scan now => exact Nat.zero_add _
  | result_step => exact Nat.zero_add _

theorem run_registered_count (hz : Nat) (ops : List op_t) (s : system_t) (m : Nat)
    (hmutex : s.cm.mutex ≠ 0) (hm : m ≤ COMM_MAX_INSTRUCTION_NUM)
    (hpre : ∀ i, i < COMM_MAX_INSTRUCTION_NUM →
      (bit_registered s.cm.register_bitmap i = true ↔ i < m)) :
    (run hz s ops).cm.mutex ≠ 0 ∧
    m + successful_registrations hz s ops ≤ COMM_MAX_INSTRUCTION_NUM ∧
    (∀ i, i < COMM_MAX_INSTRUCTION_NUM →
      (bit_registered (run hz s ops).cm.register_bitmap i = true ↔
        i < m + successful_registrations hz s ops)) := by
  induction ops generalizing s m with
  | nil => exact ⟨hmutex, hm, hpre⟩
  | cons op rest ih =>
    have hmutex2 : (step hz s op).cm.mutex ≠ 0 := by
      rw [step_mutex]
      exact hmutex
    have hother : (∀ obj action callback is_sync timeout_ms,
        op ≠ op_t.register obj action callback is_sync timeout_ms) →
        (run hz s (op :: rest)).cm.mutex ≠ 0 ∧
        m + successful_registrations hz s (op :: rest) ≤ COMM_MAX_INSTRUCTION_NUM ∧
        (∀ i, i < COMM_MAX_INSTRUCTION_NUM →
          (bit_registered (run hz s (op :: rest)).cm.register_bitmap i = true ↔
            i < m + successful_registrations hz s (op :: rest))) := by
      intro hop
      have hb := (step_same_keys hz s op hop).1
      rw [successful_registrations_cons_other hz s op rest hop]
      exact ih (step hz s op) m hmutex2 hm (by rw [hb]; exact hpre)
    cases op with
    | register obj action callback is_sync timeout_ms =>
      obtain ⟨hret, hbits⟩ :=
        register_at_count hz s.cm obj action callback is_sync timeout_ms m hmutex hm hpre
      by_cases hc : callback ≠ 0 ∧ m < COMM_MAX_INSTRUCTION_NUM
      · rw [if_pos hc] at hret hbits
        have hcount : successful_registrations hz s
            (op_t.register obj action callback is_sync timeout_ms :: rest)
            = 1 + successful_registrations hz
              (step hz s (op_t.register obj action callback is_sync timeout_ms)) rest := by
          show (if (comm_register_instruction hz s.cm obj action callback is_sync
            timeout_ms).1 ≥ 0 then 1 else 0) + _ = _
          rw [hret, if_pos (by omega)]
        have h := ih (step hz s (op_t.register obj action callback is_sync timeout_ms)) (m + 1)
          hmutex2 (by omega) hbits
        rw [hcount, ← Nat.add_assoc]
        exact h
      · rw [if_neg hc] at hret hbits
        have hcount : successful_registrations hz s
            (op_t.register obj action callback is_sync timeout_ms :: rest)
            = successful_registrations hz
              (step hz s (op_t.register obj action callback is_sync timeout_ms)) rest := by
          show (if (comm_register_instruction hz s.cm obj action callback is_sync
            timeout_ms).1 ≥ 0 then 1 else 0) + _ = _
          rw [hret, if_neg (by omega), Nat.zero_add]
        rw [hcount]
        exact ih (step hz s (op_t.register obj action callback is_sync timeout_ms)) m
          hmutex2 hm hbits
    | submit took inst => exact hother (by simp)
    | submit_from_ISR took inst => exact hother (by simp)
    | dispatch_begin now => exact hother (by simp)
    | handler_return err => exact hother (by simp)
    | notify_done index error_code => exact hother (by simp)
    | notify_done_from_isr took index error_code => exact hother (by simp)
    | timeout_scan now => exact hother (by simp)
    | result_step => exact hother (by simp)

/-- C20: from a fresh manager, after any sequence of operations with `k`
successful registrations, `k ≤ 32`, the registered indices are exactly
0..k-1, every unregistered slot is in state `COMM_NONE`, and a further
registration returns `k` when its handler is non-null and `k < 32`, and -1
otherwise. Hence the k-th successful registration returns `k - 1`, the first 32
registrations with a handler succeed and every later one fails. -/
theorem C20_registration_order (hz mutex new_inst_cb error_cb done_cb : Nat)
    (ops : List op_t) (hm : mutex ≠ 0) :
    successful_registrations hz (init_system mutex new_inst_cb error_cb done_cb) ops
      ≤ COMM_MAX_INSTRUCTION_NUM ∧
    (∀ i, i < COMM_MAX_INSTRUCTION_NUM →
      (bit_registered
        (run hz (init_system mutex new_inst_cb error_cb done_cb) ops).cm.register_bitmap i
          = true ↔
        i < successful_registrations hz (init_system mutex new_inst_cb error_cb done_cb)
          ops)) ∧
    (∀ i, i < COMM_MAX_INSTRUCTION_NUM →
      bit_registered
        (run hz (init_system mutex new_inst_cb error_cb done_cb) ops).cm.register_bitmap i
          = false →
      ((run hz (init_system mutex new_inst_cb error_cb done_cb) ops).cm.instructions i).state
        = COMM_NONE) ∧
    (∀ obj action callback is_sync timeout_ms,
      (comm_register_instruction hz
        (run hz (init_system mutex new_inst_cb error_cb done_cb) ops).cm
        obj action callback is_sync timeout_ms).1
      = if callback ≠ 0 ∧
          successful_registrations hz (init_system mutex new_inst_cb error_cb done_cb) ops
            < COMM_MAX_INSTRUCTION_NUM
        then ((successful_registrations hz (init_system mutex new_inst_cb error_cb done_cb)
          ops : Nat) : Int)
        else -1) := by
  have hinit_mutex : (init_system mutex new_inst_cb error_cb done_cb).cm.mutex ≠ 0 := by
    rw [init_system_eq mutex new_inst_cb error_cb done_cb hm]
    exact hm
  have hinit_pre : ∀ i, i < COMM_MAX_INSTRUCTION_NUM →
      (bit_registered (init_system mutex new_inst_cb error_cb done_cb).cm.register_bitmap i
        = true ↔ i < 0) := by
    intro i _
    rw [init_system_eq mutex new_inst_cb error_cb done_cb hm]
    show bit_registered (fun _ => 0) i = true ↔ i < 0
    rw [bit_registered_zero]
    constructor
    · intro h; exact absurd h (by decide)
    · intro h; omega
  obtain ⟨h1, h2, h3⟩ := run_registered_count hz ops
    (init_system mutex new_inst_cb error_cb done_cb) 0 hinit_mutex (Nat.zero_le _) hinit_pre
  rw [Nat.zero_add] at h2
  simp only [Nat.zero_add] at h3
  have hwf := run_registry_wf hz ops _ (init_registry_wf mutex new_inst_cb error_cb done_cb hm)
  refine ⟨h2, h3, hwf.2.2.2.1, ?_⟩
  intro obj action callback is_sync timeout_ms
  exact (register_at_count hz _ obj action callback is_sync timeout_ms _ h1 h2 h3).1

/-- C20, witness: of 33 registrations with a handler on a fresh manager, 32
succeed; all 32 indices are then registered and a further registration
fails. -/
theorem C20_registration_order_witness :
    (1 : Nat) ≠ 0 ∧
    successful_registrations 1000 (init_system 1 11 12 13) many_registrations = 32 ∧
    (∀ i, i < COMM_MAX_INSTRUCTION_NUM →
      (bit_registered
        (run 1000 (init_system 1 11 12 13) many_registrations).cm.register_bitmap i = true ↔
        i < successful_registrations 1000 (init_system 1 11 12 13) many_registrations)) ∧
    (comm_register_instruction 1000
      (run 1000 (init_system 1 11 12 13) many_registrations).cm 40 0 9 true 100).1
      = if (9 : Nat) ≠ 0 ∧
          successful_registrations 1000 (init_system 1 11 12 13) many_registrations
            < COMM_MAX_INSTRUCTION_NUM
        then ((successful_registrations 1000 (init_system 1 11 12 13)
          many_registrations : Nat) : Int)
        else -1 :=
  have h := C20_registration_order 1000 1 11 12 13 many_registrations (by decide)
  ⟨by decide, by decide, h.2.1, h.2.2.2 40 0 9 true 100⟩

/-! ## Executions with a single registered command -/

theorem single_slot_bit (j : Nat) :
    bit_registered (Function.update (fun _ => 0) 0 1) j = decide (j = 0) := by
  have h := bit_registered_set (fun _ => 0) 0 j
  rw [bit_registered_zero, Bool.or_false] at h
  exact h

theorem register_fresh (hz mutex n e d obj action callback : Nat) (is_sync : Bool)
    (timeout_ms : Nat) (hm : mutex ≠ 0) (hc : callback ≠ 0) :
    comm_register_instruction hz (init_system mutex n e d).cm obj action callback is_sync
        timeout_ms =
      (0, single_slot_manager mutex n e d
        (registered_slot hz obj action callback is_sync timeout_ms) [] []) := by
  rw [init_system_eq mutex n e d hm]
  have hfree : find_free_slot
      { zero_manager mutex with new_inst_cb := n, error_cb := e, done_cb := d }
      = ((0 : Nat) : Int) := by
    have h := find_free_slot_at_count
      { zero_manager mutex with new_inst_cb := n, error_cb := e, done_cb := d } 0
      (Nat.zero_le _) (by
        intro i _
        show bit_registered (fun _ => 0) i = true ↔ i < 0
        rw [bit_registered_zero]
        constructor
        · intro h; exact absurd h (by decide)
        · intro h; omega)
    rw [h, if_pos (by decide)]
  rw [register_success hz _ obj action callback is_sync timeout_ms 0 hm hfree hc]
  have h3 : (0 : Nat) >>> 3 = 0 := by decide
  have h7 : (0 : Nat) ||| 1 <<< ((0 : Nat) &&& 0x07) = 1 := by decide
  refine Prod.ext rfl ?_
  show ({ instructions := Function.update (fun _ => zero_slot) 0 _,
          register_bitmap := Function.update (fun _ => 0) (0 >>> 3)
            (0 ||| 1 <<< ((0 : Nat) &&& 0x07)),
          mutex := mutex, execute_queue := [], result_queue := [],
          new_inst_cb := n, error_cb := e, done_cb := d } : comm_manager_t) = _
  rw [h3, h7]
  rfl

theorem find_single (mutex n e d : Nat) (slot : comm_instruction_internal_t)
    (eq rq : List Int) (obj action : Nat)
    (ho : slot.instruction.obj = obj) (ha : slot.instruction.action = action) :
    comm_find_instruction_slot_by_info (single_slot_manager mutex n e d slot eq rq) obj action
      = ((0 : Nat) : Int) := by
  rw [find_slot_eq_iff]
  refine ⟨by decide, ?_, fun j hj => by omega⟩
  rw [slot_matches_iff]
  refine ⟨?_, ?_, ?_⟩
  · show bit_registered (Function.update (fun _ => 0) 0 1) 0 = true
    rw [single_slot_bit]
    rfl
  · show (Function.update (fun _ => zero_slot) 0 slot 0).instruction.obj = obj
    rw [Function.update_same]
    exact ho
  · show (Function.update (fun _ => zero_slot) 0 slot 0).instruction.action = action
    rw [Function.update_same]
    exact ha

theorem find_single_other (mutex n e d : Nat) (slot : comm_instruction_internal_t)
    (eq rq : List Int) (obj action : Nat)
    (h : ¬ (slot.instruction.obj = obj ∧ slot.instruction.action = action)) :
    comm_find_instruction_slot_by_info (single_slot_manager mutex n e d slot eq rq) obj action
      = -1 := by
  rcases find_slot_spec (single_slot_manager mutex n e d slot eq rq) obj action with
    ⟨hret, _⟩ | ⟨k, _, _, hkm, _⟩
  · exact hret
  · exfalso
    rw [slot_matches_iff] at hkm
    have hb : bit_registered (Function.update (fun _ => 0) 0 1) k = true := hkm.1
    rw [single_slot_bit, decide_eq_true_eq] at hb
    subst hb
    have ho : (Function.update (fun _ => zero_slot) 0 slot 0).instruction.obj = obj := hkm.2.1
    have ha : (Function.update (fun _ => zero_slot) 0 slot 0).instruction.action = action :=
      hkm.2.2
    rw [Function.update_same] at ho ha
    exact h ⟨ho, ha⟩

theorem single_slot_update (mutex n e d : Nat) (slot slot2 : comm_instruction_internal_t)
    (eq rq eq2 rq2 : List Int) :
    { single_slot_manager mutex n e d slot eq rq with
      instructions := Function.update (single_slot_manager mutex n e d slot eq rq).instructions
        0 slot2,
      execute_queue := eq2, result_queue := rq2 }
      = single_slot_manager mutex n e d slot2 eq2 rq2 := by
  unfold single_slot_manager
  simp only [Function.update_idem]

theorem single_slot_get (mutex n e d : Nat) (slot : comm_instruction_internal_t)
    (eq rq : List Int) :
    (single_slot_manager mutex n e d slot eq rq).instructions 0 = slot := by
  show Function.update (fun _ => zero_slot) 0 slot 0 = slot
  rw [Function.update_same]

theorem submit_single (mutex n e d : Nat) (slot : comm_instruction_internal_t)
    (eq rq : List Int) (inst : instruction_t)
    (ho : slot.instruction.obj = inst.obj) (ha : slot.instruction.action = inst.action)
    (hs : slot.state = COMM_COMPLETED) :
    comm_add_instruction_to_execute_queue (single_slot_manager mutex n e d slot eq rq) true inst
      = (0, single_slot_manager mutex n e d
          { slot with instruction := inst, state := COMM_WAITING } (xQueueSend eq 0) rq) := by
  have hfind := find_single mutex n e d slot eq rq inst.obj inst.action ho ha
  have hstate : ((single_slot_manager mutex n e d slot eq rq).instructions 0).state
      = COMM_COMPLETED := by
    rw [single_slot_get]
    exact hs
  rw [submit_accept _ inst 0 hfind hstate, single_slot_get]
  exact congrArg (Prod.mk (0 : Int)) (single_slot_update mutex n e d slot _ eq rq _ rq)

theorem submit_single_rejected (mutex n e d : Nat) (slot : comm_instruction_internal_t)
    (eq rq : List Int) (took : Bool) (inst : instruction_t)
    (hs : slot.state ≠ COMM_COMPLETED) :
    comm_add_instruction_to_execute_queue (single_slot_manager mutex n e d slot eq rq) took inst
      = (-1, single_slot_manager mutex n e d slot eq rq) := by
  apply submit_reject
  by_cases hk : slot.instruction.obj = inst.obj ∧ slot.instruction.action = inst.action
  · right; right
    refine ⟨0, find_single mutex n e d slot eq rq inst.obj inst.action hk.1 hk.2, ?_⟩
    rw [single_slot_get]
    exact hs
  · right; left
    exact find_single_other mutex n e d slot eq rq inst.obj inst.action hk

theorem begin_single (mutex n e d : Nat) (slot : comm_instruction_internal_t)
    (eq rq : List Int) (tr : List callback_event) (now : Nat)
    (hn : n ≠ 0) (hex : slot.executor ≠ 0) :
    comm_manager_task_begin
        { cm := single_slot_manager mutex n e d slot (0 :: eq) rq, dispatch := none, trace := tr }
        now =
      { cm := single_slot_manager mutex n e d
          { slot with
            state := if slot.is_sync then COMM_EXECUTING_SYNC else COMM_EXECUTING_ASYNC,
            start_time := now } eq rq,
        dispatch := some { idx := 0, inst_copy := slot.instruction, executor := slot.executor,
                           is_sync := slot.is_sync },
        trace := tr ++ [callback_event.new_inst_call slot.instruction] } := by
  rw [begin_step _ now 0 eq rfl rfl]
  have hget : (single_slot_manager mutex n e d slot (0 :: eq) rq).instructions (0 : Int).toNat
      = slot := single_slot_get mutex n e d slot (0 :: eq) rq
  show system_t.mk _ _ _ = system_t.mk _ _ _
  congr 1
  · rw [hget]
    exact single_slot_update mutex n e d slot _ (0 :: eq) rq eq rq
  · rw [hget]
    exact if_pos hex
  · rw [hget]
    exact if_pos hn

theorem finish_single (mutex n e d : Nat) (slot : comm_instruction_internal_t)
    (eq rq : List Int) (tr : List callback_event) (l : dispatch_locals) (err : Nat)
    (hl : l.idx = 0) :
    comm_manager_task_finish
        { cm := single_slot_manager mutex n e d slot eq rq, dispatch := some l, trace := tr }
        err =
      { cm := if err ≠ 0 then
            single_slot_manager mutex n e d { slot with result_code := err } eq (xQueueSend rq 0)
          else if l.is_sync then
            single_slot_manager mutex n e d { slot with result_code := 0 } eq (xQueueSend rq 0)
          else single_slot_manager mutex n e d slot eq rq,
        dispatch := none,
        trace := tr ++ [callback_event.executor_call l.executor l.inst_copy err] } := by
  rw [finish_step _ err l rfl]
  have hget : (single_slot_manager mutex n e d slot eq rq).instructions l.idx.toNat = slot := by
    rw [hl]
    exact single_slot_get mutex n e d slot eq rq
  by_cases he : err ≠ 0
  · rw [if_pos he, if_pos he]
    show system_t.mk _ _ _ = system_t.mk _ _ _
    congr 1
    rw [hget, hl]
    exact single_slot_update mutex n e d slot _ eq rq eq _
  · rw [if_neg he, if_neg he]
    by_cases hs : l.is_sync = true
    · rw [if_pos hs, if_pos hs]
      show system_t.mk _ _ _ = system_t.mk _ _ _
      congr 1
      rw [hget, hl]
      exact single_slot_update mutex n e d slot _ eq rq eq _
    · rw [if_neg hs, if_neg hs]

theorem result_single (mutex n e d : Nat) (slot : comm_instruction_internal_t)
    (eq rq : List Int) (tr : List callback_event) (disp : Option dispatch_locals)
    (he : e ≠ 0) (hd : d ≠ 0) :
    comm_result_task_step
        { cm := single_slot_manager mutex n e d slot eq (0 :: rq), dispatch := disp, trace := tr }
      =
      { cm := single_slot_manager mutex n e d
          { slot with result_code := 0, state := COMM_COMPLETED } eq rq,
        dispatch := disp,
        trace := tr ++
          [if slot.result_code = 0 then callback_event.done_call 0 slot.instruction
           else callback_event.error_call 0 slot.instruction slot.result_code] } := by
  have hget : (single_slot_manager mutex n e d slot eq (0 :: rq)).instructions (0 : Int).toNat
      = slot := single_slot_get mutex n e d slot eq (0 :: rq)
  by_cases hc : slot.result_code = 0
  · have hc2 : ((single_slot_manager mutex n e d slot eq (0 :: rq)).instructions
        (0 : Int).toNat).result_code = 0 := by rw [hget]; exact hc
    rw [result_step_zero _ 0 rq rfl hc2, if_pos hc]
    show system_t.mk _ _ _ = system_t.mk _ _ _
    congr 1
    · rw [hget]
      have hslot : { slot with state := COMM_COMPLETED }
          = { slot with result_code := 0, state := COMM_COMPLETED } := by
        rw [← hc]
      rw [hslot]
      exact single_slot_update mutex n e d slot _ eq (0 :: rq) eq rq
    · rw [hget]
      exact if_pos hd
  · have hc2 : ((single_slot_manager mutex n e d slot eq (0 :: rq)).instructions
        (0 : Int).toNat).result_code ≠ 0 := by rw [hget]; exact hc
    rw [result_step_nonzero _ 0 rq rfl hc2, if_neg hc]
    show system_t.mk _ _ _ = system_t.mk _ _ _
    congr 1
    · rw [hget]
      exact single_slot_update mutex n e d slot _ eq (0 :: rq) eq rq
    · rw [hget]
      exact if_pos he

theorem notify_single (mutex n e d : Nat) (slot : comm_instruction_internal_t)
    (eq rq : List Int) (code : Nat) (hs : slot.state = COMM_EXECUTING_ASYNC) :
    comm_notify_instruction_done (single_slot_manager mutex n e d slot eq rq) 0 code
      = (0, single_slot_manager mutex n e d { slot with result_code := code } eq
          (xQueueSend rq 0)) := by
  have hget : (single_slot_manager mutex n e d slot eq rq).instructions (0 : Int).toNat = slot :=
    single_slot_get mutex n e d slot eq rq
  have hstate : ((single_slot_manager mutex n e d slot eq rq).instructions
      (0 : Int).toNat).state = COMM_EXECUTING_ASYNC := by rw [hget]; exact hs
  rw [notify_effective _ 0 code (le_refl 0) (by decide) hstate, hget]
  exact congrArg (Prod.mk (0 : Int)) (single_slot_update mutex n e d slot _ eq rq eq _)

theorem notify_single_other (mutex n e d : Nat) (slot : comm_instruction_internal_t)
    (eq rq : List Int) (index : Int) (code : Nat) (hne : index ≠ 0) :
    (comm_notify_instruction_done (single_slot_manager mutex n e d slot eq rq) index code).2
      = single_slot_manager mutex n e d slot eq rq := by
  by_cases hr : index < 0 ∨ (COMM_MAX_INSTRUCTION_NUM : Int) ≤ index
  · rw [notify_out_of_range _ index code hr]
  · have h0 : 0 ≤ index := by omega
    have h1 : index < (COMM_MAX_INSTRUCTION_NUM : Int) := by omega
    have hnat : index.toNat ≠ 0 := by omega
    have hstate : ((single_slot_manager mutex n e d slot eq rq).instructions index.toNat).state
        ≠ COMM_EXECUTING_ASYNC := by
      show (Function.update (fun _ => zero_slot) 0 slot index.toNat).state ≠ _
      rw [Function.update_noteq hnat]
      decide
    rw [notify_ignored _ index code h0 h1 hstate]

theorem timeout_loop_none (now n i : Nat) (cm : comm_manager_t)
    (h : ∀ j, i ≤ j → timed_out cm now j = false) :
    comm_timeout_task_loop now n i cm = cm := by
  induction n generalizing i with
  | zero => rfl
  | succ n ih =>
    have h0 : ¬ (timed_out cm now i = true) := by
      rw [h i (le_refl i)]
      decide
    rw [timeout_loop_succ, if_neg h0]
    exact ih (i + 1) (fun j hj => h j (by omega))

theorem timed_out_single_other (mutex n e d : Nat) (slot : comm_instruction_internal_t)
    (eq rq : List Int) (now j : Nat) (hj : 1 ≤ j) :
    timed_out (single_slot_manager mutex n e d slot eq rq) now j = false := by
  cases h : timed_out (single_slot_manager mutex n e d slot eq rq) now j with
  | false => rfl
  | true =>
    have hb : bit_registered (Function.update (fun _ => 0) 0 1) j = true :=
      ((timed_out_iff _ now j).1 h).1
    rw [single_slot_bit, decide_eq_true_eq] at hb
    omega

theorem timed_out_single (mutex n e d : Nat) (slot : comm_instruction_internal_t)
    (eq rq : List Int) (now : Nat) :
    timed_out (single_slot_manager mutex n e d slot eq rq) now 0 = true ↔
      (slot.state = COMM_EXECUTING_ASYNC ∧ slot.timeout ≠ portMAX_DELAY ∧
        (now + 2 ^ 32 - slot.start_time) % 2 ^ 32 > slot.timeout) := by
  rw [timed_out_iff, single_slot_get]
  constructor
  · intro h
    exact h.2
  · intro h
    refine ⟨?_, h⟩
    show bit_registered (Function.update (fun _ => 0) 0 1) 0 = true
    rw [single_slot_bit]
    rfl

theorem scan_single (mutex n e d : Nat) (slot : comm_instruction_internal_t)
    (eq rq : List Int) (now : Nat) :
    comm_timeout_task_scan (single_slot_manager mutex n e d slot eq rq) now =
      if slot.state = COMM_EXECUTING_ASYNC ∧ slot.timeout ≠ portMAX_DELAY ∧
          (now + 2 ^ 32 - slot.start_time) % 2 ^ 32 > slot.timeout then
        single_slot_manager mutex n e d { slot with result_code := COMM_TIMEOUT_ERROR } eq
          (xQueueSend rq 0)
      else single_slot_manager mutex n e d slot eq rq := by
  show comm_timeout_task_loop now (31 + 1) 0 _ = _
  rw [timeout_loop_succ]
  by_cases hc : slot.state = COMM_EXECUTING_ASYNC ∧ slot.timeout ≠ portMAX_DELAY ∧
      (now + 2 ^ 32 - slot.start_time) % 2 ^ 32 > slot.timeout
  · rw [if_pos ((timed_out_single mutex n e d slot eq rq now).2 hc), if_pos hc,
      single_slot_get]
    have hupd : ({ single_slot_manager mutex n e d slot eq rq with
          instructions := Function.update
            (single_slot_manager mutex n e d slot eq rq).instructions 0
            { slot with result_code := COMM_TIMEOUT_ERROR },
          result_queue := xQueueSend rq ((0 : Nat) : Int) } : comm_manager_t)
        = single_slot_manager mutex n e d { slot with result_code := COMM_TIMEOUT_ERROR } eq
          (xQueueSend rq 0) :=
      single_slot_update mutex n e d slot _ eq rq eq _
    exact (congrArg (comm_timeout_task_loop now 31 1) hupd).trans
      (timeout_loop_none now 31 1 _
        (fun j hj => timed_out_single_other mutex n e d _ eq _ now j hj))
  · have hnt : ¬ (timed_out (single_slot_manager mutex n e d slot eq rq) now 0 = true) :=
      fun h => hc ((timed_out_single mutex n e d slot eq rq now).1 h)
    rw [if_neg hnt, if_neg hc]
    exact timeout_loop_none now 31 1 _
      (fun j hj => timed_out_single_other mutex n e d slot eq rq now j hj)

theorem run_append (hz : Nat) (s : system_t) (ops1 ops2 : List op_t) :
    run hz s (ops1 ++ ops2) = run hz (run hz s ops1) ops2 :=
  List.foldl_append _ _ _ _

theorem run_single (hz : Nat) (s : system_t) (op : op_t) :
    run hz s [op] = step hz s op := rfl

theorem run_registered (hz mutex n e d obj action callback : Nat) (is_sync : Bool)
    (timeout_ms : Nat) (hm : mutex ≠ 0) (hc : callback ≠ 0) :
    run hz (init_system mutex n e d) [op_t.register obj action callback is_sync timeout_ms]
      = { cm := single_slot_manager mutex n e d
            (registered_slot hz obj action callback is_sync timeout_ms) [] [],
          dispatch := none, trace := [] } := by
  show { init_system mutex n e d with
    cm := (comm_register_instruction hz (init_system mutex n e d).cm obj action callback
      is_sync timeout_ms).2 } = _
  rw [register_fresh hz mutex n e d obj action callback is_sync timeout_ms hm hc,
    init_system_eq mutex n e d hm]

theorem run_submitted (hz mutex n e d obj action callback : Nat) (is_sync : Bool)
    (timeout_ms : Nat) (inst : instruction_t)
    (hm : mutex ≠ 0) (hc : callback ≠ 0) (ho : inst.obj = obj) (ha : inst.action = action) :
    run hz (init_system mutex n e d)
        [op_t.register obj action callback is_sync timeout_ms, op_t.submit true inst]
      = { cm := single_slot_manager mutex n e d
            { registered_slot hz obj action callback is_sync timeout_ms with
              instruction := inst, state := COMM_WAITING } [0] [],
          dispatch := none, trace := [] } := by
  have h := run_append hz (init_system mutex n e d)
    [op_t.register obj action callback is_sync timeout_ms] [op_t.submit true inst]
  rw [run_registered hz mutex n e d obj action callback is_sync timeout_ms hm hc] at h
  refine h.trans ?_
  show system_t.mk (comm_add_instruction_to_execute_queue _ true inst).2 none [] = _
  rw [submit_single mutex n e d _ [] [] inst ho.symm ha.symm rfl]
  rfl

theorem run_start_ops (hz mutex n e d obj action callback : Nat) (is_sync : Bool)
    (timeout_ms : Nat) (inst : instruction_t) (now : Nat)
    (hm : mutex ≠ 0) (hn : n ≠ 0) (hc : callback ≠ 0)
    (ho : inst.obj = obj) (ha : inst.action = action) :
    run hz (init_system mutex n e d) (start_ops obj action callback is_sync timeout_ms inst now)
      = { cm := single_slot_manager mutex n e d
            (dispatched_slot hz obj action callback is_sync timeout_ms inst now) [] [],
          dispatch := some { idx := 0, inst_copy := inst, executor := callback,
                             is_sync := is_sync },
          trace := [callback_event.new_inst_call inst] } := by
  have h := run_append hz (init_system mutex n e d)
    [op_t.register obj action callback is_sync timeout_ms, op_t.submit true inst]
    [op_t.dispatch_begin now]
  rw [run_submitted hz mutex n e d obj action callback is_sync timeout_ms inst hm hc ho ha] at h
  refine h.trans ?_
  rw [run_single]
  exact (begin_single mutex n e d
    { registered_slot hz obj action callback is_sync timeout_ms with
      instruction := inst, state := COMM_WAITING } [] [] [] now hn hc).trans rfl

theorem run_sync_returned (hz mutex n e d obj action callback timeout_ms : Nat)
    (inst : instruction_t) (now : Nat)
    (hm : mutex ≠ 0) (hn : n ≠ 0) (hc : callback ≠ 0)
    (ho : inst.obj = obj) (ha : inst.action = action) :
    run hz (init_system mutex n e d)
        (start_ops obj action callback true timeout_ms inst now ++ [op_t.handler_return 0])
      = { cm := single_slot_manager mutex n e d
            { dispatched_slot hz obj action callback true timeout_ms inst now with
              result_code := 0 } [] [0],
          dispatch := none,
          trace := [callback_event.new_inst_call inst,
                    callback_event.executor_call callback inst 0] } := by
  rw [run_append, run_start_ops hz mutex n e d obj action callback true timeout_ms inst now
    hm hn hc ho ha, run_single]
  exact (finish_single mutex n e d
    (dispatched_slot hz obj action callback true timeout_ms inst now) [] []
    [callback_event.new_inst_call inst]
    { idx := 0, inst_copy := inst, executor := callback, is_sync := true } 0 rfl).trans rfl

theorem run_sync_cycle (hz mutex n e d obj action callback timeout_ms : Nat)
    (inst : instruction_t) (now : Nat)
    (hm : mutex ≠ 0) (hn : n ≠ 0) (he : e ≠ 0) (hd : d ≠ 0) (hc : callback ≠ 0)
    (ho : inst.obj = obj) (ha : inst.action = action) :
    run hz (init_system mutex n e d) (sync_cycle_ops obj action callback timeout_ms inst now)
      = { cm := single_slot_manager mutex n e d
            { dispatched_slot hz obj action callback true timeout_ms inst now with
              result_code := 0, state := COMM_COMPLETED } [] [],
          dispatch := none,
          trace := [callback_event.new_inst_call inst,
                    callback_event.executor_call callback inst 0,
                    callback_event.done_call 0 inst] } := by
  have happ : sync_cycle_ops obj action callback timeout_ms inst now
      = (start_ops obj action callback true timeout_ms inst now ++ [op_t.handler_return 0])
        ++ [op_t.result_step] := rfl
  rw [happ, run_append, run_sync_returned hz mutex n e d obj action callback timeout_ms inst now
    hm hn hc ho ha, run_single]
  exact (result_single mutex n e d
    { dispatched_slot hz obj action callback true timeout_ms inst now with result_code := 0 }
    [] []
    [callback_event.new_inst_call inst, callback_event.executor_call callback inst 0]
    none he hd).trans rfl

/-- C11: on a freshly initialised manager with all callbacks configured, for
every (obj, action), every handler and every instruction carrying that pair,
the sequence register (synchronous); submit; dispatch with the handler
returning 0; result step registers at index 0 and produces exactly the
callback trace new-instruction(inst), handler(inst), success(inst). The error
callback is never invoked, slot 0 is never `COMM_EXECUTING_ASYNC` at any point
of the sequence, and it ends `COMM_COMPLETED` with result code 0 and both
queues empty. -/
theorem C11_sync_happy_path (hz mutex n e d obj action callback timeout_ms : Nat)
    (inst : instruction_t) (now : Nat)
    (hm : mutex ≠ 0) (hn : n ≠ 0) (he : e ≠ 0) (hd : d ≠ 0) (hc : callback ≠ 0)
    (ho : inst.obj = obj) (ha : inst.action = action) :
    (comm_register_instruction hz (init_system mutex n e d).cm obj action callback true
      timeout_ms).1 = 0 ∧
    (run hz (init_system mutex n e d)
      (sync_cycle_ops obj action callback timeout_ms inst now)).trace
      = [callback_event.new_inst_call inst,
         callback_event.executor_call callback inst 0,
         callback_event.done_call 0 inst] ∧
    (∀ idx i code, callback_event.error_call idx i code ∉
      (run hz (init_system mutex n e d)
        (sync_cycle_ops obj action callback timeout_ms inst now)).trace) ∧
    (∀ k, ((run hz (init_system mutex n e d)
        ((sync_cycle_ops obj action callback timeout_ms inst now).take k)).cm.instructions
        0).state ≠ COMM_EXECUTING_ASYNC) ∧
    ((run hz (init_system mutex n e d)
      (sync_cycle_ops obj action callback timeout_ms inst now)).cm.instructions 0).state
      = COMM_COMPLETED ∧
    ((run hz (init_system mutex n e d)
      (sync_cycle_ops obj action callback timeout_ms inst now)).cm.instructions 0).result_code
      = 0 ∧
    (run hz (init_system mutex n e d)
      (sync_cycle_ops obj action callback timeout_ms inst now)).cm.execute_queue = [] ∧
    (run hz (init_system mutex n e d)
      (sync_cycle_ops obj action callback timeout_ms inst now)).cm.result_queue = [] := by
  have hfinal := run_sync_cycle hz mutex n e d obj action callback timeout_ms inst now
    hm hn he hd hc ho ha
  refine ⟨?_, ?_, ?_, ?_, ?_, ?_, ?_, ?_⟩
  · rw [register_fresh hz mutex n e d obj action callback true timeout_ms hm hc]
  · rw [hfinal]
  · intro idx i code hmem
    rw [hfinal] at hmem
    simp at hmem
  · intro k
    rcases k with _ | _ | _ | _ | _ | k
    · show ((init_system mutex n e d).cm.instructions 0).state ≠ COMM_EXECUTING_ASYNC
      rw [init_system_eq mutex n e d hm]
      exact (by decide : COMM_NONE ≠ COMM_EXECUTING_ASYNC)
    · show ((run hz (init_system mutex n e d)
        [op_t.register obj action callback true timeout_ms]).cm.instructions 0).state ≠ _
      rw [run_registered hz mutex n e d obj action callback true timeout_ms hm hc]
      show ((single_slot_manager mutex n e d _ [] []).instructions 0).state ≠ _
      rw [single_slot_get]
      exact (by decide : COMM_COMPLETED ≠ COMM_EXECUTING_ASYNC)
    · show ((run hz (init_system mutex n e d)
        [op_t.register obj action callback true timeout_ms,
         op_t.submit true inst]).cm.instructions 0).state ≠ _
      rw [run_submitted hz mutex n e d obj action callback true timeout_ms inst hm hc ho ha]
      show ((single_slot_manager mutex n e d _ [0] []).instructions 0).state ≠ _
      rw [single_slot_get]
      exact (by decide : COMM_WAITING ≠ COMM_EXECUTING_ASYNC)
    · show ((run hz (init_system mutex n e d)
        (start_ops obj action callback true timeout_ms inst now)).cm.instructions 0).state ≠ _
      rw [run_start_ops hz mutex n e d obj action callback true timeout_ms inst now
        hm hn hc ho ha]
      show ((single_slot_manager mutex n e d _ [] []).instructions 0).state ≠ _
      rw [single_slot_get]
      exact (by decide : COMM_EXECUTING_SYNC ≠ COMM_EXECUTING_ASYNC)
    · show ((run hz (init_system mutex n e d)
        (start_ops obj action callback true timeout_ms inst now ++
          [op_t.handler_return 0])).cm.instructions 0).state ≠ _
      rw [run_sync_returned hz mutex n e d obj action callback timeout_ms inst now
        hm hn hc ho ha]
      show ((single_slot_manager mutex n e d _ [] [0]).instructions 0).state ≠ _
      rw [single_slot_get]
      exact (by decide : COMM_EXECUTING_SYNC ≠ COMM_EXECUTING_ASYNC)
    · have htake : (sync_cycle_ops obj action callback timeout_ms inst now).take
          (k + 1 + 1 + 1 + 1 + 1) = sync_cycle_ops obj action callback timeout_ms inst now :=
        List.take_of_length_le (by
          show 5 ≤ k + 1 + 1 + 1 + 1 + 1
          omega)
      rw [htake, hfinal]
      show ((single_slot_manager mutex n e d _ [] []).instructions 0).state ≠ _
      rw [single_slot_get]
      exact (by decide : COMM_COMPLETED ≠ COMM_EXECUTING_ASYNC)
  · rw [hfinal]
    show ((single_slot_manager mutex n e d _ [] []).instructions 0).state = _
    rw [single_slot_get]
  · rw [hfinal]
    show ((single_slot_manager mutex n e d _ [] []).instructions 0).result_code = _
    rw [single_slot_get]
  · rw [hfinal]
    rfl
  · rw [hfinal]
    rfl

/-- C11, witness: obj 1, action 2, the instruction {1, 2, para1 = 7, para2 = 0,
para_num = 1}, on a manager with a 1 kHz tick. -/
theorem C11_sync_happy_path_witness :
    (run 1000 (init_system 1 11 12 13) (sync_cycle_ops 1 2 9 100 inst_1_2 5)).trace
      = [callback_event.new_inst_call inst_1_2,
         callback_event.executor_call 9 inst_1_2 0,
         callback_event.done_call 0 inst_1_2] ∧
    ((run 1000 (init_system 1 11 12 13)
      (sync_cycle_ops 1 2 9 100 inst_1_2 5)).cm.instructions 0).state = COMM_COMPLETED ∧
    ((run 1000 (init_system 1 11 12 13)
      (sync_cycle_ops 1 2 9 100 inst_1_2 5)).cm.instructions 0).result_code = 0 ∧
    (run 1000 (init_system 1 11 12 13)
      (sync_cycle_ops 1 2 9 100 inst_1_2 5)).cm.execute_queue = [] ∧
    (run 1000 (init_system 1 11 12 13)
      (sync_cycle_ops 1 2 9 100 inst_1_2 5)).cm.result_queue = [] :=
  have h := C11_sync_happy_path 1000 1 11 12 13 1 2 9 100 inst_1_2 5
    (by decide) (by decide) (by decide) (by decide) (by decide) rfl rfl
  ⟨h.2.1, h.2.2.2.2.1, h.2.2.2.2.2.1, h.2.2.2.2.2.2.1, h.2.2.2.2.2.2.2⟩

/-! ## The asynchronous cycle of a single command -/

theorem run_pending (hz mutex n e d obj action callback timeout_ms : Nat)
    (inst : instruction_t) (t0 : Nat)
    (hm : mutex ≠ 0) (hn : n ≠ 0) (hc : callback ≠ 0)
    (ho : inst.obj = obj) (ha : inst.action = action) :
    run hz (init_system mutex n e d) (pending_ops obj action callback timeout_ms inst t0)
      = pending_system hz mutex n e d obj action callback timeout_ms inst t0 := by
  unfold pending_ops
  rw [run_append, run_start_ops hz mutex n e d obj action callback false timeout_ms inst t0
    hm hn hc ho ha, run_single]
  exact (finish_single mutex n e d
    (dispatched_slot hz obj action callback false timeout_ms inst t0) [] []
    [callback_event.new_inst_call inst]
    { idx := 0, inst_copy := inst, executor := callback, is_sync := false } 0 rfl).trans rfl

theorem pending_step (hz mutex n e d obj action callback timeout_ms : Nat)
    (inst : instruction_t) (t0 : Nat) (op : op_t)
    (hk : keeps_pending (registered_slot hz obj action callback false timeout_ms).timeout t0 op
      = true) :
    step hz (pending_system hz mutex n e d obj action callback timeout_ms inst t0) op
      = pending_system hz mutex n e d obj action callback timeout_ms inst t0 := by
  have hstate : (dispatched_slot hz obj action callback false timeout_ms inst t0).state
      ≠ COMM_COMPLETED := by
    show COMM_EXECUTING_ASYNC ≠ COMM_COMPLETED
    decide
  unfold pending_system
  cases op with
  | register obj2 action2 callback2 is_sync2 timeout_ms2 =>
    exact absurd hk (by simp [keeps_pending])
  | submit took inst2 =>
    show system_t.mk (comm_add_instruction_to_execute_queue
      (single_slot_manager mutex n e d
        (dispatched_slot hz obj action callback false timeout_ms inst t0) [] [])
      took inst2).2 _ _ = _
    rw [submit_single_rejected mutex n e d _ [] [] took inst2 hstate]
  | submit_from_ISR took inst2 =>
    show system_t.mk (comm_add_instruction_to_execute_queue
      (single_slot_manager mutex n e d
        (dispatched_slot hz obj action callback false timeout_ms inst t0) [] [])
      took inst2).2 _ _ = _
    rw [submit_single_rejected mutex n e d _ [] [] took inst2 hstate]
  | dispatch_begin now =>
    exact begin_blocked
      { cm := single_slot_manager mutex n e d
          (dispatched_slot hz obj action callback false timeout_ms inst t0) [] [],
        dispatch := none,
        trace := [callback_event.new_inst_call inst,
                  callback_event.executor_call callback inst 0] } now (Or.inr rfl)
  | handler_return err =>
    exact finish_idle
      { cm := single_slot_manager mutex n e d
          (dispatched_slot hz obj action callback false timeout_ms inst t0) [] [],
        dispatch := none,
        trace := [callback_event.new_inst_call inst,
                  callback_event.executor_call callback inst 0] } err rfl
  | notify_done index error_code =>
    have hne : index ≠ 0 := by simpa [keeps_pending] using hk
    show system_t.mk (comm_notify_instruction_done
      (single_slot_manager mutex n e d
        (dispatched_slot hz obj action callback false timeout_ms inst t0) [] [])
      index error_code).2 _ _ = _
    rw [notify_single_other mutex n e d _ [] [] index error_code hne]
  | notify_done_from_isr took index error_code =>
    have hne : index ≠ 0 := by simpa [keeps_pending] using hk
    show system_t.mk (comm_notify_instruction_done
      (single_slot_manager mutex n e d
        (dispatched_slot hz obj action callback false timeout_ms inst t0) [] [])
      index error_code).2 _ _ = _
    rw [notify_single_other mutex n e d _ [] [] index error_code hne]
  | timeout_scan now =>
    have hnot : ¬ ((registered_slot hz obj action callback false timeout_ms).timeout
        ≠ portMAX_DELAY ∧
        (now + 2 ^ 32 - t0) % 2 ^ 32
          > (registered_slot hz obj action callback false timeout_ms).timeout) := by
      intro hcond
      have hk2 : (!(decide ((registered_slot hz obj action callback false timeout_ms).timeout
          ≠ portMAX_DELAY ∧
          (now + 2 ^ 32 - t0) % 2 ^ 32
            > (registered_slot hz obj action callback false timeout_ms).timeout))) = true := hk
      rw [decide_eq_true hcond] at hk2
      exact absurd hk2 (by decide)
    show system_t.mk (comm_timeout_task_scan
      (single_slot_manager mutex n e d
        (dispatched_slot hz obj action callback false timeout_ms inst t0) [] []) now) _ _ = _
    rw [scan_single, if_neg (fun h => hnot h.2)]
  | result_step =>
    exact result_step_empty
      { cm := single_slot_manager mutex n e d
          (dispatched_slot hz obj action callback false timeout_ms inst t0) [] [],
        dispatch := none,
        trace := [callback_event.new_inst_call inst,
                  callback_event.executor_call callback inst 0] } rfl

theorem pending_run (hz mutex n e d obj action callback timeout_ms : Nat)
    (inst : instruction_t) (t0 : Nat) (ops : List op_t)
    (hk : ∀ op, op ∈ ops →
      keeps_pending (registered_slot hz obj action callback false timeout_ms).timeout t0 op
        = true) :
    run hz (pending_system hz mutex n e d obj action callback timeout_ms inst t0) ops
      = pending_system hz mutex n e d obj action callback timeout_ms inst t0 := by
  induction ops with
  | nil => rfl
  | cons op rest ih =>
    show run hz (step hz _ op) rest = _
    rw [pending_step hz mutex n e d obj action callback timeout_ms inst t0 op
      (hk op (List.mem_cons_self op rest))]
    exact ih (fun op2 h2 => hk op2 (List.mem_cons_of_mem op h2))

theorem pending_timed_out (hz mutex n e d obj action callback timeout_ms : Nat)
    (inst : instruction_t) (t0 now : Nat) (he : e ≠ 0) (hd : d ≠ 0)
    (hfin : (registered_slot hz obj action callback false timeout_ms).timeout ≠ portMAX_DELAY)
    (hel : (now + 2 ^ 32 - t0) % 2 ^ 32
      > (registered_slot hz obj action callback false timeout_ms).timeout) :
    run hz (pending_system hz mutex n e d obj action callback timeout_ms inst t0)
        [op_t.timeout_scan now, op_t.result_step]
      = { cm := single_slot_manager mutex n e d
            { dispatched_slot hz obj action callback false timeout_ms inst t0 with
              result_code := 0, state := COMM_COMPLETED } [] [],
          dispatch := none,
          trace := [callback_event.new_inst_call inst,
                    callback_event.executor_call callback inst 0,
                    callback_event.error_call 0 inst COMM_TIMEOUT_ERROR] } := by
  have hscan : step hz (pending_system hz mutex n e d obj action callback timeout_ms inst t0)
      (op_t.timeout_scan now)
      = { cm := single_slot_manager mutex n e d
            { dispatched_slot hz obj action callback false timeout_ms inst t0 with
              result_code := COMM_TIMEOUT_ERROR } [] [0],
          dispatch := none,
          trace := [callback_event.new_inst_call inst,
                    callback_event.executor_call callback inst 0] } := by
    show system_t.mk (comm_timeout_task_scan
      (single_slot_manager mutex n e d
        (dispatched_slot hz obj action callback false timeout_ms inst t0) [] []) now) _ _ = _
    rw [scan_single, if_pos ⟨rfl, hfin, hel⟩]
    rfl
  show run hz (step hz _ (op_t.timeout_scan now)) [op_t.result_step] = _
  rw [hscan, run_single]
  exact (result_single mutex n e d
    { dispatched_slot hz obj action callback false timeout_ms inst t0 with
      result_code := COMM_TIMEOUT_ERROR } [] []
    [callback_event.new_inst_call inst, callback_event.executor_call callback inst 0]
    none he hd).trans rfl

theorem pending_notified (hz mutex n e d obj action callback timeout_ms : Nat)
    (inst : instruction_t) (t0 code : Nat) (he : e ≠ 0) (hd : d ≠ 0) :
    run hz (pending_system hz mutex n e d obj action callback timeout_ms inst t0)
        [op_t.notify_done 0 code, op_t.result_step]
      = { cm := single_slot_manager mutex n e d
            { dispatched_slot hz obj action callback false timeout_ms inst t0 with
              result_code := 0, state := COMM_COMPLETED } [] [],
          dispatch := none,
          trace := [callback_event.new_inst_call inst,
                    callback_event.executor_call callback inst 0,
                    if code = 0 then callback_event.done_call 0 inst
                    else callback_event.error_call 0 inst code] } := by
  have hnotify : step hz
      (pending_system hz mutex n e d obj action callback timeout_ms inst t0)
      (op_t.notify_done 0 code)
      = { cm := single_slot_manager mutex n e d
            { dispatched_slot hz obj action callback false timeout_ms inst t0 with
              result_code := code } [] [0],
          dispatch := none,
          trace := [callback_event.new_inst_call inst,
                    callback_event.executor_call callback inst 0] } := by
    show system_t.mk (comm_notify_instruction_done
      (single_slot_manager mutex n e d
        (dispatched_slot hz obj action callback false timeout_ms inst t0) [] []) 0 code).2 _ _
      = _
    rw [notify_single mutex n e d _ [] [] code rfl]
    rfl
  show run hz (step hz _ (op_t.notify_done 0 code)) [op_t.result_step] = _
  rw [hnotify, run_single]
  exact (result_single mutex n e d
    { dispatched_slot hz obj action callback false timeout_ms inst t0 with
      result_code := code } [] []
    [callback_event.new_inst_call inst, callback_event.executor_call callback inst 0]
    none he hd).trans rfl

theorem tick_difference (s d : Nat) (hs : s < 2 ^ 32) (hd : d < 2 ^ 32) :
    ((s + d) % 2 ^ 32 + 2 ^ 32 - s) % 2 ^ 32 = d := by
  have h32 : (2 : Nat) ^ 32 = 4294967296 := by norm_num
  rw [h32] at hs hd ⊢
  omega

theorem keeps_pending_scan (T t0 now : Nat)
    (h : ¬ (T ≠ portMAX_DELAY ∧ (now + 2 ^ 32 - t0) % 2 ^ 32 > T)) :
    keeps_pending T t0 (op_t.timeout_scan now) = true := by
  show (!(decide (T ≠ portMAX_DELAY ∧ (now + 2 ^ 32 - t0) % 2 ^ 32 > T))) = true
  rw [decide_eq_false h]
  rfl

/-- The timeout scenario when every scan carries a tick read after the
dispatch. On a fresh manager with all callbacks configured and a 1 kHz tick, an
asynchronous command registered with a timeout of 100 ms (100 ticks) is
submitted and dispatched at tick `t0`, its handler returns 0 and no
notification arrives. A scan whose tick is `t0 + el` modulo 2^32 with
`el ≤ 100`, followed by a result step, changes nothing, so no completion
callback fires. A scan whose tick is `t0 + el` modulo 2^32 with `150 ≤ el`,
followed by one result step, appends exactly the error callback with the
instruction and the sentinel 0xFFFFFFFF to the trace, the success callback is
never invoked, and slot 0 is `COMM_COMPLETED` with result code 0. A scan
carrying a tick older than `t0` is not covered here. -/
theorem timeout_scenario_ordered_ticks (mutex n e d obj action callback : Nat)
    (inst : instruction_t) (t0 : Nat)
    (hm : mutex ≠ 0) (hn : n ≠ 0) (he : e ≠ 0) (hd : d ≠ 0) (hc : callback ≠ 0)
    (ho : inst.obj = obj) (ha : inst.action = action) (ht0 : t0 < 2 ^ 32) :
    run 1000 (init_system mutex n e d) (pending_ops obj action callback 100 inst t0)
      = pending_system 1000 mutex n e d obj action callback 100 inst t0 ∧
    ((pending_system 1000 mutex n e d obj action callback 100 inst t0).cm.instructions
      0).timeout = 100 ∧
    ((pending_system 1000 mutex n e d obj action callback 100 inst t0).cm.instructions
      0).start_time = t0 ∧
    ((pending_system 1000 mutex n e d obj action callback 100 inst t0).cm.instructions
      0).state = COMM_EXECUTING_ASYNC ∧
    pdMS_TO_TICKS 1000 50 = 50 ∧
    COMM_TIMEOUT_ERROR = 0xFFFFFFFF ∧
    (∀ el, el ≤ 100 →
      run 1000 (pending_system 1000 mutex n e d obj action callback 100 inst t0)
          [op_t.timeout_scan ((t0 + el) % 2 ^ 32), op_t.result_step]
        = pending_system 1000 mutex n e d obj action callback 100 inst t0) ∧
    (∀ el, 100 + pdMS_TO_TICKS 1000 50 ≤ el → el < 2 ^ 32 →
      (run 1000 (pending_system 1000 mutex n e d obj action callback 100 inst t0)
          [op_t.timeout_scan ((t0 + el) % 2 ^ 32), op_t.result_step]).trace
        = (pending_system 1000 mutex n e d obj action callback 100 inst t0).trace ++
          [callback_event.error_call 0 inst COMM_TIMEOUT_ERROR] ∧
      (∀ idx i, callback_event.done_call idx i ∉
        (run 1000 (pending_system 1000 mutex n e d obj action callback 100 inst t0)
          [op_t.timeout_scan ((t0 + el) % 2 ^ 32), op_t.result_step]).trace) ∧
      ((run 1000 (pending_system 1000 mutex n e d obj action callback 100 inst t0)
          [op_t.timeout_scan ((t0 + el) % 2 ^ 32), op_t.result_step]).cm.instructions
        0).state = COMM_COMPLETED ∧
      ((run 1000 (pending_system 1000 mutex n e d obj action callback 100 inst t0)
          [op_t.timeout_scan ((t0 + el) % 2 ^ 32), op_t.result_step]).cm.instructions
        0).result_code = 0) := by
  have hT : (registered_slot 1000 obj action callback false 100).timeout = 100 := by
    show (if (100 : Nat) = 0 then pdMS_TO_TICKS 1000 10 else pdMS_TO_TICKS 1000 100) = 100
    decide
  have h50 : pdMS_TO_TICKS 1000 50 = 50 := by decide
  have hslot : ∀ eq rq, (single_slot_manager mutex n e d
      (dispatched_slot 1000 obj action callback false 100 inst t0) eq rq).instructions 0
      = dispatched_slot 1000 obj action callback false 100 inst t0 :=
    fun eq rq => single_slot_get mutex n e d _ eq rq
  refine ⟨run_pending 1000 mutex n e d obj action callback 100 inst t0 hm hn hc ho ha,
    ?_, ?_, ?_, h50, rfl, ?_, ?_⟩
  · show ((single_slot_manager mutex n e d _ [] []).instructions 0).timeout = 100
    rw [hslot]
    exact hT
  · show ((single_slot_manager mutex n e d _ [] []).instructions 0).start_time = t0
    rw [hslot]
    rfl
  · show ((single_slot_manager mutex n e d _ [] []).instructions 0).state = _
    rw [hslot]
    rfl
  · intro el hel
    apply pending_run
    intro op hop
    rcases List.mem_cons.1 hop with h | h
    · rw [h]
      apply keeps_pending_scan
      rw [hT, tick_difference t0 el ht0 (by
        have h32 : (2 : Nat) ^ 32 = 4294967296 := by norm_num
        rw [h32]
        omega)]
      intro hcon
      omega
    · rw [List.mem_singleton.1 h]
      rfl
  · intro el hel hel32
    have hgt : ((t0 + el) % 2 ^ 32 + 2 ^ 32 - t0) % 2 ^ 32
        > (registered_slot 1000 obj action callback false 100).timeout := by
      rw [hT, tick_difference t0 el ht0 hel32]
      rw [h50] at hel
      omega
    have hfin : (registered_slot 1000 obj action callback false 100).timeout
        ≠ portMAX_DELAY := by
      rw [hT]
      decide
    rw [pending_timed_out 1000 mutex n e d obj action callback 100 inst t0 _ he hd hfin hgt]
    refine ⟨rfl, ?_, ?_, ?_⟩
    · intro idx i hmem
      simp at hmem
    · show ((single_slot_manager mutex n e d _ [] []).instructions 0).state = _
      rw [single_slot_get]
    · show ((single_slot_manager mutex n e d _ [] []).instructions 0).result_code = _
      rw [single_slot_get]

/-- The ordered-tick timeout scenario at the command (1, 2) dispatched at tick
5: a scan 150 ticks later followed by a result step. -/
theorem timeout_scenario_ordered_ticks_example :
    run 1000 (init_system 1 11 12 13) (pending_ops 1 2 9 100 inst_1_2 5)
      = pending_system 1000 1 11 12 13 1 2 9 100 inst_1_2 5 ∧
    (run 1000 (pending_system 1000 1 11 12 13 1 2 9 100 inst_1_2 5)
        [op_t.timeout_scan ((5 + 150) % 2 ^ 32), op_t.result_step]).trace
      = (pending_system 1000 1 11 12 13 1 2 9 100 inst_1_2 5).trace ++
        [callback_event.error_call 0 inst_1_2 COMM_TIMEOUT_ERROR] ∧
    ((run 1000 (pending_system 1000 1 11 12 13 1 2 9 100 inst_1_2 5)
        [op_t.timeout_scan ((5 + 150) % 2 ^ 32), op_t.result_step]).cm.instructions
      0).state = COMM_COMPLETED :=
  have h := timeout_scenario_ordered_ticks 1 11 12 13 1 2 9 inst_1_2 5
    (by decide) (by decide) (by decide) (by decide) (by decide) rfl rfl (by decide)
  have h2 := h.2.2.2.2.2.2.2 150 (by decide) (by decide)
  ⟨h.1, h2.1, h2.2.2.1⟩

/-- The asynchronous cycle of the first execution of a single command. On a
fresh manager with all callbacks configured, one asynchronous command is
submitted and dispatched at tick `t0`, and its handler returns 0. The slot is
then `COMM_EXECUTING_ASYNC`, its index is not on the result queue, no
completion callback has fired, a submission for its pair is rejected, and any
sequence of operations without a registration, a notification for the slot or
a scan at which it has timed out leaves the whole system unchanged. After
`notify_done(0, code)` and a result step exactly one completion callback has
been added to the trace (success when `code = 0`, otherwise error with
`code`), and the slot is `COMM_COMPLETED` with result code 0. A re-submission
of the same pair with new parameters is then accepted and stored, and the next
dispatch, at tick `t1`, records `t1` as start time with result code 0. -/
theorem async_cycle_single_command (hz mutex n e d obj action callback timeout_ms : Nat)
    (inst inst2 : instruction_t) (t0 t1 code : Nat)
    (hm : mutex ≠ 0) (hn : n ≠ 0) (he : e ≠ 0) (hd : d ≠ 0) (hc : callback ≠ 0)
    (ho : inst.obj = obj) (ha : inst.action = action)
    (ho2 : inst2.obj = obj) (ha2 : inst2.action = action) :
    run hz (init_system mutex n e d) (pending_ops obj action callback timeout_ms inst t0)
      = pending_system hz mutex n e d obj action callback timeout_ms inst t0 ∧
    ((pending_system hz mutex n e d obj action callback timeout_ms inst t0).cm.instructions
      0).state = COMM_EXECUTING_ASYNC ∧
    (0 : Int) ∉
      (pending_system hz mutex n e d obj action callback timeout_ms inst t0).cm.result_queue ∧
    (∀ took i2,
      comm_add_instruction_to_execute_queue
        (pending_system hz mutex n e d obj action callback timeout_ms inst t0).cm took i2
        = (-1, (pending_system hz mutex n e d obj action callback timeout_ms inst t0).cm)) ∧
    (∀ ops, (∀ op, op ∈ ops →
        keeps_pending (registered_slot hz obj action callback false timeout_ms).timeout t0 op
          = true) →
      run hz (pending_system hz mutex n e d obj action callback timeout_ms inst t0) ops
        = pending_system hz mutex n e d obj action callback timeout_ms inst t0) ∧
    (run hz (pending_system hz mutex n e d obj action callback timeout_ms inst t0)
        [op_t.notify_done 0 code, op_t.result_step]).trace
      = (pending_system hz mutex n e d obj action callback timeout_ms inst t0).trace ++
        [if code = 0 then callback_event.done_call 0 inst
         else callback_event.error_call 0 inst code] ∧
    ((run hz (pending_system hz mutex n e d obj action callback timeout_ms inst t0)
        [op_t.notify_done 0 code, op_t.result_step]).cm.instructions 0).state
      = COMM_COMPLETED ∧
    ((run hz (pending_system hz mutex n e d obj action callback timeout_ms inst t0)
        [op_t.notify_done 0 code, op_t.result_step]).cm.instructions 0).result_code = 0 ∧
    (comm_add_instruction_to_execute_queue
      (run hz (pending_system hz mutex n e d obj action callback timeout_ms inst t0)
        [op_t.notify_done 0 code, op_t.result_step]).cm true inst2).1 = 0 ∧
    ((run hz (pending_system hz mutex n e d obj action callback timeout_ms inst t0)
        [op_t.notify_done 0 code, op_t.result_step,
         op_t.submit true inst2]).cm.instructions 0).instruction = inst2 ∧
    ((run hz (pending_system hz mutex n e d obj action callback timeout_ms inst t0)
        [op_t.notify_done 0 code, op_t.result_step,
         op_t.submit true inst2, op_t.dispatch_begin t1]).cm.instructions 0).start_time
      = t1 ∧
    ((run hz (pending_system hz mutex n e d obj action callback timeout_ms inst t0)
        [op_t.notify_done 0 code, op_t.result_step,
         op_t.submit true inst2, op_t.dispatch_begin t1]).cm.instructions 0).result_code
      = 0 ∧
    ((run hz (pending_system hz mutex n e d obj action callback timeout_ms inst t0)
        [op_t.notify_done 0 code, op_t.result_step,
         op_t.submit true inst2, op_t.dispatch_begin t1]).cm.instructions 0).state
      = COMM_EXECUTING_ASYNC := by
  have hdone := pending_notified hz mutex n e d obj action callback timeout_ms inst t0 code
    he hd
  have hsubmit := submit_single mutex n e d
    { dispatched_slot hz obj action callback false timeout_ms inst t0 with
      result_code := 0, state := COMM_COMPLETED } [] [] inst2
    (ho.trans ho2.symm) (ha.trans ha2.symm) rfl
  have hrun3 : run hz (pending_system hz mutex n e d obj action callback timeout_ms inst t0)
      [op_t.notify_done 0 code, op_t.result_step, op_t.submit true inst2]
      = { cm := single_slot_manager mutex n e d
            { dispatched_slot hz obj action callback false timeout_ms inst t0 with
              instruction := inst2, state := COMM_WAITING, result_code := 0 } [0] [],
          dispatch := none,
          trace := [callback_event.new_inst_call inst,
                    callback_event.executor_call callback inst 0,
                    if code = 0 then callback_event.done_call 0 inst
                    else callback_event.error_call 0 inst code] } := by
    have h := run_append hz
      (pending_system hz mutex n e d obj action callback timeout_ms inst t0)
      [op_t.notify_done 0 code, op_t.result_step] [op_t.submit true inst2]
    rw [hdone, run_single] at h
    refine h.trans ?_
    show system_t.mk (comm_add_instruction_to_execute_queue
      (single_slot_manager mutex n e d
        { dispatched_slot hz obj action callback false timeout_ms inst t0 with
          result_code := 0, state := COMM_COMPLETED } [] []) true inst2).2 _ _ = _
    rw [hsubmit]
    rfl
  have hrun4 : run hz (pending_system hz mutex n e d obj action callback timeout_ms inst t0)
      [op_t.notify_done 0 code, op_t.result_step, op_t.submit true inst2,
       op_t.dispatch_begin t1]
      = { cm := single_slot_manager mutex n e d
            { dispatched_slot hz obj action callback false timeout_ms inst t0 with
              instruction := inst2, state := COMM_EXECUTING_ASYNC, result_code := 0,
              start_time := t1 } [] [],
          dispatch := some { idx := 0, inst_copy := inst2, executor := callback,
                             is_sync := false },
          trace := [callback_event.new_inst_call inst,
                    callback_event.executor_call callback inst 0,
                    (if code = 0 then callback_event.done_call 0 inst
                     else callback_event.error_call 0 inst code),
                    callback_event.new_inst_call inst2] } := by
    have h := run_append hz
      (pending_system hz mutex n e d obj action callback timeout_ms inst t0)
      [op_t.notify_done 0 code, op_t.result_step, op_t.submit true inst2]
      [op_t.dispatch_begin t1]
    rw [hrun3, run_single] at h
    refine h.trans ?_
    exact (begin_single mutex n e d
      { dispatched_slot hz obj action callback false timeout_ms inst t0 with
        instruction := inst2, state := COMM_WAITING, result_code := 0 } [] []
      [callback_event.new_inst_call inst, callback_event.executor_call callback inst 0,
       if code = 0 then callback_event.done_call 0 inst
       else callback_event.error_call 0 inst code] t1 hn hc).trans rfl
  have hstate : (dispatched_slot hz obj action callback false timeout_ms inst t0).state
      ≠ COMM_COMPLETED := by
    show COMM_EXECUTING_ASYNC ≠ COMM_COMPLETED
    decide
  refine ⟨run_pending hz mutex n e d obj action callback timeout_ms inst t0 hm hn hc ho ha,
    ?_, ?_, ?_, ?_, ?_, ?_, ?_, ?_, ?_, ?_, ?_, ?_⟩
  · show ((single_slot_manager mutex n e d _ [] []).instructions 0).state = _
    rw [single_slot_get]
    rfl
  · exact List.not_mem_nil 0
  · intro took i2
    exact submit_single_rejected mutex n e d _ [] [] took i2 hstate
  · intro ops hops
    exact pending_run hz mutex n e d obj action callback timeout_ms inst t0 ops hops
  · rw [hdone]
    rfl
  · rw [hdone]
    show ((single_slot_manager mutex n e d _ [] []).instructions 0).state = _
    rw [single_slot_get]
  · rw [hdone]
    show ((single_slot_manager mutex n e d _ [] []).instructions 0).result_code = _
    rw [single_slot_get]
  · rw [hdone]
    show (comm_add_instruction_to_execute_queue
      (single_slot_manager mutex n e d
        { dispatched_slot hz obj action callback false timeout_ms inst t0 with
          result_code := 0, state := COMM_COMPLETED } [] []) true inst2).1 = 0
    rw [hsubmit]
  · rw [hrun3]
    show ((single_slot_manager mutex n e d _ [0] []).instructions 0).instruction = _
    rw [single_slot_get]
  · rw [hrun4]
    show ((single_slot_manager mutex n e d _ [] []).instructions 0).start_time = _
    rw [single_slot_get]
  · rw [hrun4]
    show ((single_slot_manager mutex n e d _ [] []).instructions 0).result_code = _
    rw [single_slot_get]
  · rw [hrun4]
    show ((single_slot_manager mutex n e d _ [] []).instructions 0).state = _
    rw [single_slot_get]

/-- The single-command asynchronous cycle at the command (1, 2) dispatched at
tick 5 and notified with code 4, then re-submitted with new parameters and
dispatched at tick 900. -/
theorem async_cycle_single_command_example :
    run 1000 (init_system 1 11 12 13) (pending_ops 1 2 9 100 inst_1_2 5)
      = pending_system 1000 1 11 12 13 1 2 9 100 inst_1_2 5 ∧
    (run 1000 (pending_system 1000 1 11 12 13 1 2 9 100 inst_1_2 5)
        [op_t.notify_done 0 4, op_t.result_step]).trace
      = (pending_system 1000 1 11 12 13 1 2 9 100 inst_1_2 5).trace ++
        [if (4 : Nat) = 0 then callback_event.done_call 0 inst_1_2
         else callback_event.error_call 0 inst_1_2 4] ∧
    ((run 1000 (pending_system 1000 1 11 12 13 1 2 9 100 inst_1_2 5)
        [op_t.notify_done 0 4, op_t.result_step,
         op_t.submit true inst_1_2_again]).cm.instructions 0).instruction = inst_1_2_again ∧
    ((run 1000 (pending_system 1000 1 11 12 13 1 2 9 100 inst_1_2 5)
        [op_t.notify_done 0 4, op_t.result_step,
         op_t.submit true inst_1_2_again, op_t.dispatch_begin 900]).cm.instructions
      0).start_time = 900 :=
  have h := async_cycle_single_command 1000 1 11 12 13 1 2 9 100 inst_1_2 inst_1_2_again
    5 900 4 (by decide) (by decide) (by decide) (by decide) (by decide) rfl rfl rfl rfl
  ⟨h.1, h.2.2.2.2.2.1, h.2.2.2.2.2.2.2.2.2.1, h.2.2.2.2.2.2.2.2.2.2.1⟩

/-! ## Failing executions of the timeout and the pending scenario -/

/-- C12, failing execution: the monitor samples the tick count before it takes
the lock, so its scan can carry a tick older than a start time recorded in
between. With all callbacks configured and a 1 kHz tick, the async command
(1, 2) with a timeout of 100 ticks is dispatched at tick 1001 and its handler
returns 0; no notification arrives. A scan carrying the sample 1000 computes
the 32-bit difference 1000 - 1001 = 0xFFFFFFFF > 100, stores the sentinel and
queues index 0, and the result step invokes the error callback with the
sentinel and frees the slot, although no tick has elapsed since the recorded
start time. With the tick 1001 instead, the scan and the result step invoke no
callback and the slot stays `COMM_EXECUTING_ASYNC`. -/
theorem C12_stale_tick_failing_execution :
    ((run 1000 (init_system 1 11 12 13) stale_tick_ops).cm.instructions 0).state
      = COMM_EXECUTING_ASYNC ∧
    ((run 1000 (init_system 1 11 12 13) stale_tick_ops).cm.instructions 0).start_time
      = 1001 ∧
    ((run 1000 (init_system 1 11 12 13) stale_tick_ops).cm.instructions 0).timeout = 100 ∧
    (run 1000 (init_system 1 11 12 13) stale_tick_ops).cm.result_queue = [] ∧
    (run 1000 (init_system 1 11 12 13) stale_tick_ops).trace
      = [callback_event.new_inst_call inst_1_2,
         callback_event.executor_call 9 inst_1_2 0] ∧
    (run 1000 (init_system 1 11 12 13)
      (stale_tick_ops ++ [op_t.timeout_scan 1000])).cm.result_queue = [0] ∧
    ((run 1000 (init_system 1 11 12 13)
      (stale_tick_ops ++ [op_t.timeout_scan 1000])).cm.instructions 0).result_code
      = COMM_TIMEOUT_ERROR ∧
    (run 1000 (init_system 1 11 12 13)
      (stale_tick_ops ++ [op_t.timeout_scan 1000, op_t.result_step])).trace
      = [callback_event.new_inst_call inst_1_2,
         callback_event.executor_call 9 inst_1_2 0,
         callback_event.error_call 0 inst_1_2 COMM_TIMEOUT_ERROR] ∧
    ((run 1000 (init_system 1 11 12 13)
      (stale_tick_ops ++ [op_t.timeout_scan 1000, op_t.result_step])).cm.instructions
      0).state = COMM_COMPLETED ∧
    (run 1000 (init_system 1 11 12 13)
      (stale_tick_ops ++ [op_t.timeout_scan 1001, op_t.result_step])).trace
      = [callback_event.new_inst_call inst_1_2,
         callback_event.executor_call 9 inst_1_2 0] ∧
    ((run 1000 (init_system 1 11 12 13)
      (stale_tick_ops ++ [op_t.timeout_scan 1001, op_t.result_step])).cm.instructions
      0).state = COMM_EXECUTING_ASYNC := by
  decide

theorem toNat_ne_of_valid (cm : comm_manager_t) (x : Int) (i : Nat)
    (hv : valid_index cm x) (hne : x ≠ (i : Int)) : x.toNat ≠ i := by
  have h0 := hv.1
  omega

/-- A pending slot without an outstanding entry is left as it is by every
operation other than a notification for it and a scan at which it has timed
out. -/
theorem pending_alone_step (hz : Nat) (s : system_t) (i : Nat) (op : op_t)
    (hwf : registry_wf s) (hp : pending_alone s i)
    (hop : leaves_pending i (s.cm.instructions i).timeout (s.cm.instructions i).start_time op
      = true) :
    stays_pending s i (step hz s op) := by
  obtain ⟨hi, hreg, hst, hex, hres, hdis⟩ := hp
  cases op with
  | register obj action callback is_sync timeout_ms =>
    show stays_pending s i { s with cm := _ }
    by_cases hf : s.cm.mutex = 0 ∨ find_free_slot s.cm = -1 ∨ callback = 0
    · rw [register_fail hz s.cm obj action callback is_sync timeout_ms hf]
      exact ⟨⟨hi, hreg, hst, hex, hres, hdis⟩, rfl⟩
    · have hm : s.cm.mutex ≠ 0 := fun h => hf (Or.inl h)
      have hc : callback ≠ 0 := fun h => hf (Or.inr (Or.inr h))
      rcases find_free_slot_spec s.cm with ⟨hret, _⟩ | ⟨k, hk, _, hkb, _⟩
      · exact absurd (Or.inr (Or.inl hret)) hf
      · rw [register_success hz s.cm obj action callback is_sync timeout_ms k hm hk hc]
        have hki : i ≠ k := by
          intro h
          rw [h, hkb] at hreg
          exact absurd hreg (by decide)
        refine ⟨⟨hi, ?_, ?_, hex, hres, hdis⟩, ?_⟩
        · show bit_registered (Function.update _ _ _) i = true
          rw [bit_registered_set, hreg]
          simp
        · show (Function.update s.cm.instructions k _ i).state = _
          rw [Function.update_noteq hki]
          exact hst
        · show Function.update s.cm.instructions k _ i = _
          rw [Function.update_noteq hki]
  | submit took inst =>
    show stays_pending s i { s with cm := _ }
    cases took with
    | false =>
      rw [submit_reject s.cm false inst (Or.inl rfl)]
      exact ⟨⟨hi, hreg, hst, hex, hres, hdis⟩, rfl⟩
    | true =>
      rcases find_slot_spec s.cm inst.obj inst.action with ⟨hret, _⟩ | ⟨k, hk, _, _, _⟩
      · rw [submit_reject s.cm true inst (Or.inr (Or.inl hret))]
        exact ⟨⟨hi, hreg, hst, hex, hres, hdis⟩, rfl⟩
      · by_cases hs : (s.cm.instructions k).state = COMM_COMPLETED
        · rw [submit_accept s.cm inst k hk hs]
          have hki : i ≠ k := by
            intro h
            rw [← h, hst] at hs
            exact absurd hs (by decide)
          refine ⟨⟨hi, hreg, ?_, ?_, hres, hdis⟩, ?_⟩
          · show (Function.update s.cm.instructions k _ i).state = _
            rw [Function.update_noteq hki]
            exact hst
          · intro hmem
            rcases mem_xQueueSend hmem with h | h
            · exact hex h
            · exact hki (by exact_mod_cast h)
          · show Function.update s.cm.instructions k _ i = _
            rw [Function.update_noteq hki]
        · rw [submit_reject s.cm true inst (Or.inr (Or.inr ⟨k, hk, hs⟩))]
          exact ⟨⟨hi, hreg, hst, hex, hres, hdis⟩, rfl⟩
  | submit_from_ISR took inst =>
    show stays_pending s i { s with cm := _ }
    rw [submit_from_ISR_eq]
    cases took with
    | false =>
      rw [submit_reject s.cm false inst (Or.inl rfl)]
      exact ⟨⟨hi, hreg, hst, hex, hres, hdis⟩, rfl⟩
    | true =>
      rcases find_slot_spec s.cm inst.obj inst.action with ⟨hret, _⟩ | ⟨k, hk, _, _, _⟩
      · rw [submit_reject s.cm true inst (Or.inr (Or.inl hret))]
        exact ⟨⟨hi, hreg, hst, hex, hres, hdis⟩, rfl⟩
      · by_cases hs : (s.cm.instructions k).state = COMM_COMPLETED
        · rw [submit_accept s.cm inst k hk hs]
          have hki : i ≠ k := by
            intro h
            rw [← h, hst] at hs
            exact absurd hs (by decide)
          refine ⟨⟨hi, hreg, ?_, ?_, hres, hdis⟩, ?_⟩
          · show (Function.update s.cm.instructions k _ i).state = _
            rw [Function.update_noteq hki]
            exact hst
          · intro hmem
            rcases mem_xQueueSend hmem with h | h
            · exact hex h
            · exact hki (by exact_mod_cast h)
          · show Function.update s.cm.instructions k _ i = _
            rw [Function.update_noteq hki]
        · rw [submit_reject s.cm true inst (Or.inr (Or.inr ⟨k, hk, hs⟩))]
          exact ⟨⟨hi, hreg, hst, hex, hres, hdis⟩, rfl⟩
  | dispatch_begin now =>
    show stays_pending s i (comm_manager_task_begin s now)
    by_cases hb : s.dispatch ≠ none ∨ s.cm.execute_queue = []
    · rw [begin_blocked s now hb]
      exact ⟨⟨hi, hreg, hst, hex, hres, hdis⟩, rfl⟩
    · have hd : s.dispatch = none := by
        by_contra h
        exact hb (Or.inl h)
      obtain ⟨idx, rest, hq⟩ : ∃ idx rest, s.cm.execute_queue = idx :: rest := by
        cases hq : s.cm.execute_queue with
        | nil => exact absurd (Or.inr hq) hb
        | cons idx rest => exact ⟨idx, rest, rfl⟩
      rw [begin_step s now idx rest hd hq]
      have hmem : idx ∈ s.cm.execute_queue := by rw [hq]; exact List.mem_cons_self _ _
      have hne : idx ≠ (i : Int) := fun h => hex (h ▸ hmem)
      have hki : i ≠ idx.toNat :=
        fun h => toNat_ne_of_valid s.cm idx i (hwf.1 idx hmem) hne h.symm
      refine ⟨⟨hi, hreg, ?_, ?_, hres, ?_⟩, ?_⟩
      · show (Function.update s.cm.instructions idx.toNat _ i).state = _
        rw [Function.update_noteq hki]
        exact hst
      · intro h
        apply hex
        rw [hq]
        exact List.mem_cons_of_mem _ h
      · intro l hl
        dsimp only at hl
        split at hl
        · cases hl
          exact hne
        · cases hl
      · show Function.update s.cm.instructions idx.toNat _ i = _
        rw [Function.update_noteq hki]
  | handler_return err =>
    show stays_pending s i (comm_manager_task_finish s err)
    cases hd : s.dispatch with
    | none =>
      rw [finish_idle s err hd]
      exact ⟨⟨hi, hreg, hst, hex, hres, hdis⟩, rfl⟩
    | some l =>
      have hne : l.idx ≠ (i : Int) := hdis l hd
      have hki : i ≠ l.idx.toNat :=
        fun h => toNat_ne_of_valid s.cm l.idx i (hwf.2.2.1 l hd) hne h.symm
      have hq : (i : Int) ∉ xQueueSend s.cm.result_queue l.idx := by
        intro hmem
        rcases mem_xQueueSend hmem with h | h
        · exact hres h
        · exact hne h.symm
      rw [finish_step s err l hd]
      split
      · refine ⟨⟨hi, hreg, ?_, hex, hq, fun l2 hl2 => by cases hl2⟩, ?_⟩
        · show (Function.update s.cm.instructions l.idx.toNat _ i).state = _
          rw [Function.update_noteq hki]
          exact hst
        · show Function.update s.cm.instructions l.idx.toNat _ i = _
          rw [Function.update_noteq hki]
      · split
        · refine ⟨⟨hi, hreg, ?_, hex, hq, fun l2 hl2 => by cases hl2⟩, ?_⟩
          · show (Function.update s.cm.instructions l.idx.toNat _ i).state = _
            rw [Function.update_noteq hki]
            exact hst
          · show Function.update s.cm.instructions l.idx.toNat _ i = _
            rw [Function.update_noteq hki]
        · exact ⟨⟨hi, hreg, hst, hex, hres, fun l2 hl2 => by cases hl2⟩, rfl⟩
  | notify_done index error_code =>
    show stays_pending s i { s with cm := _ }
    have hne : index ≠ (i : Int) := by simpa [leaves_pending] using hop
    by_cases hr : index < 0 ∨ (COMM_MAX_INSTRUCTION_NUM : Int) ≤ index
    · rw [notify_out_of_range s.cm index error_code hr]
      exact ⟨⟨hi, hreg, hst, hex, hres, hdis⟩, rfl⟩
    · have h0 : 0 ≤ index := by omega
      have h1 : index < (COMM_MAX_INSTRUCTION_NUM : Int) := by omega
      by_cases hs : (s.cm.instructions index.toNat).state = COMM_EXECUTING_ASYNC
      · rw [notify_effective s.cm index error_code h0 h1 hs]
        have hki : i ≠ index.toNat := by omega
        refine ⟨⟨hi, hreg, ?_, hex, ?_, hdis⟩, ?_⟩
        · show (Function.update s.cm.instructions index.toNat _ i).state = _
          rw [Function.update_noteq hki]
          exact hst
        · intro hmem
          rcases mem_xQueueSend hmem with h | h
          · exact hres h
          · exact hne h.symm
        · show Function.update s.cm.instructions index.toNat _ i = _
          rw [Function.update_noteq hki]
      · rw [notify_ignored s.cm index error_code h0 h1 hs]
        exact ⟨⟨hi, hreg, hst, hex, hres, hdis⟩, rfl⟩
  | notify_done_from_isr took index error_code =>
    show stays_pending s i { s with cm := _ }
    rw [notify_from_isr_eq]
    have hne : index ≠ (i : Int) := by simpa [leaves_pending] using hop
    by_cases hr : index < 0 ∨ (COMM_MAX_INSTRUCTION_NUM : Int) ≤ index
    · rw [notify_out_of_range s.cm index error_code hr]
      exact ⟨⟨hi, hreg, hst, hex, hres, hdis⟩, rfl⟩
    · have h0 : 0 ≤ index := by omega
      have h1 : index < (COMM_MAX_INSTRUCTION_NUM : Int) := by omega
      by_cases hs : (s.cm.instructions index.toNat).state = COMM_EXECUTING_ASYNC
      · rw [notify_effective s.cm index error_code h0 h1 hs]
        have hki : i ≠ index.toNat := by omega
        refine ⟨⟨hi, hreg, ?_, hex, ?_, hdis⟩, ?_⟩
        · show (Function.update s.cm.instructions index.toNat _ i).state = _
          rw [Function.update_noteq hki]
          exact hst
        · intro hmem
          rcases mem_xQueueSend hmem with h | h
          · exact hres h
          · exact hne h.symm
        · show Function.update s.cm.instructions index.toNat _ i = _
          rw [Function.update_noteq hki]
      · rw [notify_ignored s.cm index error_code h0 h1 hs]
        exact ⟨⟨hi, hreg, hst, hex, hres, hdis⟩, rfl⟩
  | timeout_scan now =>
    show stays_pending s i { s with cm := comm_timeout_task_scan s.cm now }
    have hspec := timeout_loop_spec now COMM_MAX_INSTRUCTION_NUM 0 s.cm
    have hnot : timed_out s.cm now i = false := by
      cases ht : timed_out s.cm now i with
      | false => rfl
      | true =>
        have h4 := (timed_out_iff s.cm now i).1 ht
        have : leaves_pending i (s.cm.instructions i).timeout (s.cm.instructions i).start_time
            (op_t.timeout_scan now) = false := by
          show (!(decide _)) = false
          rw [decide_eq_true ⟨h4.2.2.1, h4.2.2.2⟩]
          rfl
        rw [this] at hop
        exact absurd hop (by decide)
    have hslot : (comm_timeout_task_scan s.cm now).instructions i = s.cm.instructions i := by
      rw [timeout_scan_slot, hnot]
      simp
    refine ⟨⟨hi, ?_, ?_, ?_, ?_, hdis⟩, hslot⟩
    · show bit_registered (comm_timeout_task_scan s.cm now).register_bitmap i = true
      have : (comm_timeout_task_scan s.cm now).register_bitmap = s.cm.register_bitmap :=
        hspec.1
      rw [this]
      exact hreg
    · show ((comm_timeout_task_scan s.cm now).instructions i).state = _
      rw [hslot]
      exact hst
    · show (i : Int) ∉ (comm_timeout_task_scan s.cm now).execute_queue
      have : (comm_timeout_task_scan s.cm now).execute_queue = s.cm.execute_queue :=
        hspec.2.1
      rw [this]
      exact hex
    · show (i : Int) ∉ (comm_timeout_task_scan s.cm now).result_queue
      rw [timeout_scan_result_queue]
      intro hmem
      rcases mem_send_all hmem with h | ⟨k, hk, hxk⟩
      · exact hres h
      · unfold timed_out_indices at hk
        rw [List.mem_filter] at hk
        have hik : i = k := by exact_mod_cast hxk
        rw [← hik, hnot] at hk
        exact absurd hk.2 (by decide)
  | result_step =>
    show stays_pending s i (comm_result_task_step s)
    cases hq : s.cm.result_queue with
    | nil =>
      rw [result_step_empty s hq]
      exact ⟨⟨hi, hreg, hst, hex, hres, hdis⟩, rfl⟩
    | cons idx rest =>
      have hmem : idx ∈ s.cm.result_queue := by rw [hq]; exact List.mem_cons_self _ _
      have hne : idx ≠ (i : Int) := fun h => hres (h ▸ hmem)
      have hki : i ≠ idx.toNat :=
        fun h => toNat_ne_of_valid s.cm idx i (hwf.2.1 idx hmem) hne h.symm
      have hrest : (i : Int) ∉ rest := by
        intro h
        apply hres
        rw [hq]
        exact List.mem_cons_of_mem _ h
      by_cases hc : (s.cm.instructions idx.toNat).result_code = 0
      · rw [result_step_zero s idx rest hq hc]
        refine ⟨⟨hi, hreg, ?_, hex, hrest, hdis⟩, ?_⟩
        · show (Function.update s.cm.instructions idx.toNat _ i).state = _
          rw [Function.update_noteq hki]
          exact hst
        · show Function.update s.cm.instructions idx.toNat _ i = _
          rw [Function.update_noteq hki]
      · rw [result_step_nonzero s idx rest hq hc]
        refine ⟨⟨hi, hreg, ?_, hex, hrest, hdis⟩, ?_⟩
        · show (Function.update s.cm.instructions idx.toNat _ i).state = _
          rw [Function.update_noteq hki]
          exact hst
        · show Function.update s.cm.instructions idx.toNat _ i = _
          rw [Function.update_noteq hki]

theorem pending_alone_run (hz : Nat) (i : Nat) (ops : List op_t) :
    ∀ s : system_t, registry_wf s → pending_alone s i →
      (∀ op, op ∈ ops →
        leaves_pending i (s.cm.instructions i).timeout (s.cm.instructions i).start_time op
          = true) →
      stays_pending s i (run hz s ops) := by
  induction ops with
  | nil =>
    intro s _ hp _
    exact ⟨hp, rfl⟩
  | cons op rest ih =>
    intro s hwf hp hops
    have h1 := pending_alone_step hz s i op hwf hp (hops op (List.mem_cons_self _ _))
    have h2 := ih (step hz s op) (step_registry_wf hz s op hwf) h1.1 (by
      intro op2 hop2
      rw [h1.2]
      exact hops op2 (List.mem_cons_of_mem _ hop2))
    exact ⟨h2.1, h2.2.trans h1.2⟩

/-- The pending part of the asynchronous cycle for every slot of every reachable
state. When slot `i` is registered and `COMM_EXECUTING_ASYNC`, its index is on
neither queue and the dispatch task is not inside its handler, then any
sequence of operations without a notification for `i` and without a scan at
which the slot has timed out (registrations, submissions, dispatches of other
commands, result steps and scans included) leaves the slot as it is, keeps
its index off both queues, and every submission that resolves to the slot is
rejected with the manager unchanged. -/
theorem pending_slot_stable (hz : Nat) (s : system_t) (i : Nat) (ops : List op_t)
    (hreach : reachable hz s) (hp : pending_alone s i)
    (hops : ∀ op, op ∈ ops →
      leaves_pending i (s.cm.instructions i).timeout (s.cm.instructions i).start_time op
        = true) :
    (run hz s ops).cm.instructions i = s.cm.instructions i ∧
    ((run hz s ops).cm.instructions i).state = COMM_EXECUTING_ASYNC ∧
    (i : Int) ∉ (run hz s ops).cm.result_queue ∧
    (i : Int) ∉ (run hz s ops).cm.execute_queue ∧
    ∀ took inst,
      comm_find_instruction_slot_by_info (run hz s ops).cm inst.obj inst.action = (i : Int) →
      comm_add_instruction_to_execute_queue (run hz s ops).cm took inst
        = (-1, (run hz s ops).cm) := by
  have h := pending_alone_run hz i ops s (reachable_registry_wf hz s hreach) hp hops
  obtain ⟨⟨_, _, hst, hex, hres, _⟩, hslot⟩ := h
  refine ⟨hslot, hst, hres, hex, ?_⟩
  intro took inst hfind
  apply submit_reject
  right
  right
  refine ⟨i, hfind, ?_⟩
  rw [hst]
  decide

/-- The stability of a pending slot at the command (1, 2), dispatched at tick 5
with a timeout of 100 ticks: a second command is registered, submitted,
dispatched and completed, a scan at tick 60 and a notification for index 1
occur, and the slot 0 is as before. -/
theorem pending_slot_stable_example :
    (run 1000 (run 1000 (init_system 1 11 12 13) (pending_ops 1 2 9 100 inst_1_2 5))
      [op_t.register 3 4 9 true 50, op_t.submit true inst_3_4, op_t.dispatch_begin 20,
       op_t.handler_return 0, op_t.result_step, op_t.timeout_scan 60,
       op_t.notify_done 1 0]).cm.instructions 0
      = (run 1000 (init_system 1 11 12 13) (pending_ops 1 2 9 100 inst_1_2 5)).cm.instructions
        0 :=
  (pending_slot_stable 1000
    (run 1000 (init_system 1 11 12 13) (pending_ops 1 2 9 100 inst_1_2 5)) 0
    [op_t.register 3 4 9 true 50, op_t.submit true inst_3_4, op_t.dispatch_begin 20,
     op_t.handler_return 0, op_t.result_step, op_t.timeout_scan 60, op_t.notify_done 1 0]
    ⟨1, 11, 12, 13, pending_ops 1 2 9 100 inst_1_2 5, by decide, rfl⟩
    ⟨by decide, by decide, by decide, by decide, by decide,
      fun l hl => by
        have hd : (run 1000 (init_system 1 11 12 13)
            (pending_ops 1 2 9 100 inst_1_2 5)).dispatch = none := by decide
        rw [hd] at hl
        cases hl⟩
    (by decide)).1

end TLV_lite
